import Mathlib

/-!
# S&P 500 stock market analyser: the data aggregation layer

A shallow embedding of `src/server.js` (the caching proxy in front of the market-data
provider) and of `src/api.js` (the facade operations, their validation and normalisation
steps and their mock generators), followed by theorems about them.

Conventions of the embedding.

* JavaScript values are the terms of `JsVal`; an object is the list of its own enumerable
  properties in enumeration order, with pairwise distinct names.
* Numbers are `JsNum`: `NaN`, the two infinities, and rationals for the finite values. The
  arithmetic of the market capitalisation distribution and of the mock company profile is
  rounded to doubles (`roundDouble`), and so is the product of the dividend yield; the other
  products, quotients and differences are exact, and the sign of zero is not represented.
* Strings are sequences of Unicode scalar values; lengths and slices count scalar values,
  which agrees with the source on text of the Basic Multilingual Plane.
* A thrown exception is the `Except.error` branch of a result; `try`/`catch` is a `match`.
  The `TypeError` of a conversion to a string (`canToString`) is tested by the function that
  catches it, before the fields are read.
* Built-in functions whose results depend on the JavaScript engine (`parseFloat`, `parseInt`,
  `Date` parsing and formatting, `String(v)`, `toLowerCase`) are the fields of `Engine`,
  over which every definition and theorem is parametric.
* `Math.random` is a function `rand : Nat → ℚ` giving the successive draws; `Date.now()` and
  `new Date()` are explicit arguments in milliseconds since the epoch.
-/

namespace SP500

/-! ## JavaScript values -/

/-- A JavaScript number: `NaN`, a finite value, or an infinity. -/
inductive JsNum where
  | nan
  | fin (q : ℚ)
  | inf (negative : Bool)
deriving DecidableEq

/-- A JavaScript value as it comes out of `JSON.parse`, plus `undefined`. -/
inductive JsVal where
  | undefined
  | null
  | bool (b : Bool)
  | num (n : JsNum)
  | str (s : String)
  | arr (xs : List JsVal)
  | obj (kvs : List (String × JsVal))

mutual
/-- Decision procedure for equality of values. -/
def JsVal.decEq : (a b : JsVal) → Decidable (a = b)
  | .undefined, .undefined => isTrue rfl
  | .null, .null => isTrue rfl
  | .bool a, .bool b =>
    if h : a = b then isTrue (by rw [h]) else isFalse (by intro e; cases e; exact h rfl)
  | .num a, .num b =>
    if h : a = b then isTrue (by rw [h]) else isFalse (by intro e; cases e; exact h rfl)
  | .str a, .str b =>
    if h : a = b then isTrue (by rw [h]) else isFalse (by intro e; cases e; exact h rfl)
  | .arr a, .arr b =>
    match JsVal.decEqList a b with
    | isTrue h => isTrue (by rw [h])
    | isFalse h => isFalse (by intro e; cases e; exact h rfl)
  | .obj a, .obj b =>
    match JsVal.decEqKvs a b with
    | isTrue h => isTrue (by rw [h])
    | isFalse h => isFalse (by intro e; cases e; exact h rfl)
  | .undefined, .null | .undefined, .bool _ | .undefined, .num _ | .undefined, .str _
  | .undefined, .arr _ | .undefined, .obj _ => isFalse (by intro e; cases e)
  | .null, .undefined | .null, .bool _ | .null, .num _ | .null, .str _
  | .null, .arr _ | .null, .obj _ => isFalse (by intro e; cases e)
  | .bool _, .undefined | .bool _, .null | .bool _, .num _ | .bool _, .str _
  | .bool _, .arr _ | .bool _, .obj _ => isFalse (by intro e; cases e)
  | .num _, .undefined | .num _, .null | .num _, .bool _ | .num _, .str _
  | .num _, .arr _ | .num _, .obj _ => isFalse (by intro e; cases e)
  | .str _, .undefined | .str _, .null | .str _, .bool _ | .str _, .num _
  | .str _, .arr _ | .str _, .obj _ => isFalse (by intro e; cases e)
  | .arr _, .undefined | .arr _, .null | .arr _, .bool _ | .arr _, .num _
  | .arr _, .str _ | .arr _, .obj _ => isFalse (by intro e; cases e)
  | .obj _, .undefined | .obj _, .null | .obj _, .bool _ | .obj _, .num _
  | .obj _, .str _ | .obj _, .arr _ => isFalse (by intro e; cases e)
/-- Decision procedure for equality of lists of values. -/
def JsVal.decEqList : (a b : List JsVal) → Decidable (a = b)
  | [], [] => isTrue rfl
  | [], _ :: _ => isFalse (by intro e; cases e)
  | _ :: _, [] => isFalse (by intro e; cases e)
  | x :: xs, y :: ys =>
    match JsVal.decEq x y, JsVal.decEqList xs ys with
    | isTrue h1, isTrue h2 => isTrue (by rw [h1, h2])
    | isFalse h, _ => isFalse (by intro e; cases e; exact h rfl)
    | _, isFalse h => isFalse (by intro e; cases e; exact h rfl)
/-- Decision procedure for equality of property lists. -/
def JsVal.decEqKvs : (a b : List (String × JsVal)) → Decidable (a = b)
  | [], [] => isTrue rfl
  | [], _ :: _ => isFalse (by intro e; cases e)
  | _ :: _, [] => isFalse (by intro e; cases e)
  | (k, x) :: xs, (l, y) :: ys =>
    if hk : k = l then
      match JsVal.decEq x y, JsVal.decEqKvs xs ys with
      | isTrue h1, isTrue h2 => isTrue (by rw [hk, h1, h2])
      | isFalse h, _ => isFalse (by intro e; cases e; exact h rfl)
      | _, isFalse h => isFalse (by intro e; cases e; exact h rfl)
    else isFalse (by intro e; cases e; exact hk rfl)
end

instance instDecidableEqJsVal : DecidableEq JsVal := JsVal.decEq

/-- A thrown `Error`: its optional `code` (set by the HTTP client) and its `message`. -/
structure JsError where
  code : Option String
  message : String
deriving DecidableEq

/-- Equality of results is decidable when it is for errors and values. -/
instance instDecidableEqExcept {ε α : Type} [DecidableEq ε] [DecidableEq α] :
    DecidableEq (Except ε α)
  | .ok a, .ok b =>
    if h : a = b then isTrue (by rw [h]) else isFalse (by intro e; cases e; exact h rfl)
  | .error a, .error b =>
    if h : a = b then isTrue (by rw [h]) else isFalse (by intro e; cases e; exact h rfl)
  | .ok _, .error _ => isFalse (by intro e; cases e)
  | .error _, .ok _ => isFalse (by intro e; cases e)

/-- The built-in functions of the JavaScript engine that the source calls. -/
structure Engine where
  /-- The global `parseFloat(v)`. -/
  parseFloat : JsVal → JsNum
  /-- The call `parseInt(v, 10)`. -/
  parseInt10 : JsVal → JsNum
  /-- The call `parseInt(v)`, without a radix. -/
  parseIntAuto : JsVal → JsNum
  /-- The value `new Date(s).getTime()`; `none` is `NaN` (an invalid date). -/
  dateMs : String → Option Int
  /-- The conversion `String(v)`, as used by template literals, `new Error(v)` and
  property keys. -/
  toStr : JsVal → String
  /-- The message of the `TypeError` raised by a property read on `null` or `undefined`, or
  by a call of something that is not a function. -/
  typeErrorText : String
  /-- The method `s.toLowerCase()`. -/
  toLowerCase : String → String
  /-- The method `n.toString()` of a number. -/
  numToString : JsNum → String
  /-- The method `n.toFixed(d)` of a number. -/
  toFixed : JsNum → Nat → String
  /-- The value `d.toISOString().split('T')[0]` for the date `d` of the given time. -/
  isoDay : Int → String
  /-- The value `d.toISOString()` for the date `d` of the given time. -/
  isoString : Int → String
  /-- The time of `d` after `d.setDate(d.getDate() - i)`, for the date `d` of the given
  time (local calendar arithmetic). -/
  minusDays : Int → Nat → Int

/-- The `TypeError` of the engine. -/
def typeError (E : Engine) : JsError := ⟨none, E.typeErrorText⟩

/-- JavaScript truthiness of a number: `0` and `NaN` are falsy. -/
def JsNum.truthy : JsNum → Bool
  | .nan => false
  | .fin q => decide (q ≠ 0)
  | .inf _ => true

/-- JavaScript truthiness (`ToBoolean`). -/
def truthy : JsVal → Bool
  | .undefined => false
  | .null => false
  | .bool b => b
  | .num n => n.truthy
  | .str s => decide (s ≠ "")
  | .arr _ => true
  | .obj _ => true

/-- The operator `typeof v === 'object'`. -/
def typeofObject : JsVal → Bool
  | .null => true
  | .arr _ => true
  | .obj _ => true
  | _ => false

/-- The first value stored under `k` in a property list. -/
def lookupKey (k : String) : List (String × JsVal) → Option JsVal
  | [] => none
  | (k', v) :: rest => if k' = k then some v else lookupKey k rest

/-- Whether a value is `null` or `undefined`. -/
def isNullish : JsVal → Bool
  | .undefined => true
  | .null => true
  | _ => false

/-- The value of the property `k` of a value other than `null` and `undefined`, for a
property name `k` that is neither an array index nor the name of a built-in method. -/
def propOf (v : JsVal) (k : String) : JsVal :=
  match v with
  | .obj kvs => (lookupKey k kvs).getD .undefined
  | .arr xs => if k = "length" then .num (.fin xs.length) else .undefined
  | .str s => if k = "length" then .num (.fin s.length) else .undefined
  | _ => .undefined

/-- The property read `v[k]`: a `TypeError` on `null` and `undefined`, the value of the
property otherwise. -/
def getProp (E : Engine) (v : JsVal) (k : String) : Except JsError JsVal :=
  if isNullish v then .error (typeError E) else .ok (propOf v k)

/-- The names `0`, `1`, ... of the first `n` indices, paired with the elements. -/
def indexed (xs : List JsVal) : List (String × JsVal) :=
  (List.range xs.length).zipWith (fun i x => (toString i, x)) xs

/-- The call `Object.entries(v)` on a value other than `null` and `undefined`. -/
def objectEntries : JsVal → List (String × JsVal)
  | .obj kvs => kvs
  | .arr xs => indexed xs
  | .str s => indexed (s.data.map fun c => JsVal.str (String.singleton c))
  | _ => []

/-- The call `Object.keys(v)` on a value other than `null` and `undefined`. -/
def objectKeys (v : JsVal) : List String :=
  (objectEntries v).map Prod.fst

mutual
/-- Whether the conversion of a value of a JSON payload to a string (`ToString`, which
`parseFloat`, `parseInt` and a property read `o[v]` apply to their argument) returns. It
throws a `TypeError` on an object with an own property `toString`, which is not a function
in a parsed payload and hides the method of `Object.prototype`, and on an array with such an
element; on every other value it returns. -/
def canToString : JsVal → Bool
  | .arr xs => allCanToString xs
  | .obj kvs => (lookupKey "toString" kvs).isNone
  | _ => true
/-- The conversion of every element of an array to a string returns; `null` and `undefined`
elements are written as the empty text without a conversion. -/
def allCanToString : List JsVal → Bool
  | [] => true
  | x :: rest => (isNullish x || canToString x) && allCanToString rest
end

/-- The list without its first occurrence of the non-empty `pat`, if there is one. -/
def removeFirst (pat : List Char) : List Char → List Char
  | [] => []
  | c :: cs => if pat.isPrefixOf (c :: cs) then (c :: cs).drop pat.length
               else c :: removeFirst pat cs

/-- The call `s.replace(pat, empty)` with a non-empty string pattern `pat`: the first
occurrence of `pat` is removed. -/
def replaceWithEmpty (s pat : String) : String :=
  ⟨removeFirst pat.data s.data⟩

/-- Whether `pat` occurs in the list. -/
def occursIn (pat : List Char) : List Char → Bool
  | [] => pat.isEmpty
  | c :: cs => pat.isPrefixOf (c :: cs) || occursIn pat cs

/-- The call `v.includes(needle)` for a string `needle`: a substring test on a string, a
membership test on an array, and a `TypeError` on anything else (no such method). -/
def includesStr (E : Engine) (v : JsVal) (needle : String) : Except JsError Bool :=
  match v with
  | .str s => .ok (occursIn needle.data s.data)
  | .arr xs => .ok (xs.any fun x => decide (x = JsVal.str needle))
  | _ => .error (typeError E)

/-! ## The caching proxy (`src/server.js`, `GET /api/alpha-vantage`) -/

/-- The constant `ALPHA_VANTAGE_API_KEY`. -/
def ALPHA_VANTAGE_API_KEY : String := "745U1UG168YMOD58"

/-- The constant `CACHE_DURATION`: thirty minutes in milliseconds. -/
def CACHE_DURATION : Int := 30 * 60 * 1000

/-- The parsed query string `req.query`: the parameters in the enumeration order of the
object, each given once, so that every value is a string. -/
abbrev Query := List (String × String)

/-- The value of the parameter `k`, or `none` when the object has no such property. -/
def queryParam (k : String) : Query → Option String
  | [] => none
  | (k', v) :: rest => if k' = k then some v else queryParam k rest

/-- Truthiness of a destructured parameter: present and not the empty string. -/
def present : Option String → Bool
  | none => false
  | some v => decide (v ≠ "")

/-- The lower-case hexadecimal digit of `n < 16`. -/
def hexDigit (n : Nat) : Char :=
  if n < 10 then Char.ofNat (48 + n) else Char.ofNat (87 + n)

/-- The escape of one character inside a JSON string (`QuoteJSONString`). -/
def quoteJsonChar (c : Char) : List Char :=
  let bs := Char.ofNat 92
  if c = Char.ofNat 34 then [bs, Char.ofNat 34]
  else if c = bs then [bs, bs]
  else if c = Char.ofNat 8 then [bs, 'b']
  else if c = Char.ofNat 12 then [bs, 'f']
  else if c = Char.ofNat 10 then [bs, 'n']
  else if c = Char.ofNat 13 then [bs, 'r']
  else if c = Char.ofNat 9 then [bs, 't']
  else if c.toNat < 32 then [bs, 'u', '0', '0', hexDigit (c.toNat / 16), hexDigit (c.toNat % 16)]
  else [c]

/-- The characters of the JSON text of a string: quoted, with the escapes of
`JSON.stringify`. -/
def quoteJsonChars (s : String) : List Char :=
  Char.ofNat 34 :: (s.data.flatMap quoteJsonChar ++ [Char.ofNat 34])

/-- The JSON text of one property: the quoted name, a colon, the quoted value. -/
def entryChars (kv : String × String) : List Char :=
  quoteJsonChars kv.1 ++ ':' :: quoteJsonChars kv.2

/-- The JSON texts of the properties, separated by commas. -/
def entriesChars : Query → List Char
  | [] => []
  | kv :: rest =>
    entryChars kv ++
      (match rest with
        | [] => []
        | _ :: _ => ',' :: entriesChars rest)

/-- The text `JSON.stringify(req.query)`: the properties in enumeration order, between
braces. -/
def jsonStringifyQuery (q : Query) : String :=
  ⟨Char.ofNat 123 :: (entriesChars q ++ [Char.ofNat 125])⟩

/-- The value of a hexadecimal digit. -/
def hexValue (c : Char) : Nat :=
  if c.toNat < 58 then c.toNat - 48 else c.toNat - 87

/-- The character written by the escape letter `c` after a backslash. -/
def unescapeChar (c : Char) : Char :=
  if c = 'b' then Char.ofNat 8
  else if c = 'f' then Char.ofNat 12
  else if c = 'n' then Char.ofNat 10
  else if c = 'r' then Char.ofNat 13
  else if c = 't' then Char.ofNat 9
  else c

/-- The first character written in a JSON string body, and the rest of the text: the
inverse of `quoteJsonChar` at the front of a text. -/
def decodeFront : List Char → Option (Char × List Char)
  | [] => none
  | c :: rest =>
    if c = Char.ofNat 92 then
      match rest with
      | [] => none
      | e :: rest' =>
        if e = 'u' then
          match rest' with
          | _ :: _ :: h :: l :: rest'' => some (Char.ofNat (hexValue h * 16 + hexValue l), rest'')
          | _ => none
        else some (unescapeChar e, rest')
    else some (c, rest)

/-- A value of the map `alphaVantageCache`. -/
structure CacheEntry where
  timestamp : Int
  data : JsVal
deriving DecidableEq

/-- The map `alphaVantageCache`: its entries in insertion order, with distinct keys. -/
abbrev Cache := List (String × CacheEntry)

/-- The method `Map.prototype.get`. -/
def mapGet (k : String) : Cache → Option CacheEntry
  | [] => none
  | (k', e) :: rest => if k' = k then some e else mapGet k rest

/-- The method `Map.prototype.set`: the value of an existing key is replaced in place, a new
key is appended. -/
def mapSet (k : String) (e : CacheEntry) : Cache → Cache
  | [] => [(k, e)]
  | (k', e') :: rest => if k' = k then (k, e) :: rest else (k', e') :: mapSet k e rest

/-- The outcome of `axios.get(url, ...)`: the promise rejects (transport failure, timeout or
a status outside 2xx) or resolves with `response.data`. -/
inductive Upstream where
  | failure (err : JsError)
  | response (data : JsVal)
deriving DecidableEq

/-- What the handler sends back: the HTTP status and the JSON body. -/
structure Reply where
  status : Nat
  body : JsVal
deriving DecidableEq

/-- The result of handling one request: the reply, the cache afterwards, and the URL asked
of the provider when an upstream call was issued. -/
structure ProxyResult where
  reply : Reply
  cache : Cache
  requested : Option String
deriving DecidableEq

/-- The provider URL built for the request (`src/server.js`, lines 162-169). -/
def providerUrl (func : String) (q : Query) : String :=
  let url := "https://www.alphavantage.co/query?function=" ++ func ++ "&apikey="
    ++ ALPHA_VANTAGE_API_KEY
  let url := if present (queryParam "symbol" q)
    then url ++ "&symbol=" ++ (queryParam "symbol" q).getD "" else url
  let url := if present (queryParam "interval" q)
    then url ++ "&interval=" ++ (queryParam "interval" q).getD "" else url
  let url := if present (queryParam "outputsize" q)
    then url ++ "&outputsize=" ++ (queryParam "outputsize" q).getD "" else url
  if present (queryParam "tickers" q)
    then url ++ "&tickers=" ++ (queryParam "tickers" q).getD "" else url

/-- The checks on `response.data` (`src/server.js`, lines 181-193): the result is the error
thrown, if any. -/
def checkResponse (E : Engine) (func : String) (data : JsVal) : Except JsError Unit :=
  if truthy data && typeofObject data then
    match getProp E data "Error Message" with
    | .error e => .error e
    | .ok em =>
      if truthy em then .error ⟨none, E.toStr em⟩
      else
        match getProp E data "Information" with
        | .error e => .error e
        | .ok info =>
          match (if truthy info then includesStr E info "API call frequency" else .ok false) with
          | .error e => .error e
          | .ok true =>
            .error ⟨none, "Alpha Vantage API call frequency exceeded. Please try again later."⟩
          | .ok false =>
            if func = "SECTOR" then
              match getProp E data "Rank A: Real-Time Performance" with
              | .error e => .error e
              | .ok rank =>
                if truthy rank then .ok ()
                else .error ⟨none, "Invalid sector data structure received from Alpha Vantage"⟩
            else .ok ()
  else .ok ()

/-- The reply of the `catch` block (`src/server.js`, lines 203-215). -/
def errorReply (err : JsError) : Reply :=
  let errorMessage := if err.code = some "ECONNABORTED"
    then "Request to Alpha Vantage timed out. Please try again later."
    else err.message
  ⟨500, .obj [("error", .str "Failed to fetch data from Alpha Vantage"),
              ("message", .str errorMessage)]⟩

/-- The part of the handler after a cache miss: the upstream call, the checks, the cache
write at time `nowStore`, and the reply. -/
def refresh (E : Engine) (net : String → Upstream) (cache : Cache) (q : Query)
    (func : String) (nowStore : Int) : ProxyResult :=
  let url := providerUrl func q
  match net url with
  | .failure err => ⟨errorReply err, cache, some url⟩
  | .response data =>
    match checkResponse E func data with
    | .error err => ⟨errorReply err, cache, some url⟩
    | .ok _ => ⟨⟨200, data⟩, mapSet (jsonStringifyQuery q) ⟨nowStore, data⟩ cache, some url⟩

/-- The handler of `GET /api/alpha-vantage`. `net` gives the outcome of the upstream call
for each URL; `nowCheck` is the reading of `Date.now()` at the cache check and `nowStore`
the one at the cache write. The handler is one step: no other request is served between
its cache check and its cache write. -/
def alphaVantageProxy (E : Engine) (net : String → Upstream) (cache : Cache) (q : Query)
    (nowCheck nowStore : Int) : ProxyResult :=
  match queryParam "function" q with
  | none => ⟨⟨400, .obj [("error", .str "Function parameter is required")]⟩, cache, none⟩
  | some func =>
    if func = "" then
      ⟨⟨400, .obj [("error", .str "Function parameter is required")]⟩, cache, none⟩
    else
      match mapGet (jsonStringifyQuery q) cache with
      | some cached =>
        if nowCheck - cached.timestamp < CACHE_DURATION then ⟨⟨200, cached.data⟩, cache, none⟩
        else refresh E net cache q func nowStore
      | none => refresh E net cache q func nowStore


/-- One request to the proxy, with the outcome the provider would give to each URL and the
two readings of the clock. -/
structure Request where
  query : Query
  net : String → Upstream
  nowCheck : Int
  nowStore : Int

/-- The cache after the handler has served the requests one after the other. -/
def runRequests (E : Engine) : Cache → List Request → Cache
  | c, [] => c
  | c, r :: rs =>
    runRequests E (alphaVantageProxy E r.net c r.query r.nowCheck r.nowStore).cache rs

/-- The upstream outcomes that count as failures of the provider: the call is rejected; or
the payload is an object whose `Error Message` is truthy (not `null`, `false`, `0` or the
empty string); or an object whose `Information` is a text containing `API call frequency`;
or, for the function `SECTOR`, an object without `Rank A: Real-Time Performance`. -/
def providerFailure (func : String) : Upstream → Bool
  | .failure _ => true
  | .response (.obj kvs) =>
    truthy ((lookupKey "Error Message" kvs).getD .undefined)
    || (match lookupKey "Information" kvs with
        | some (.str s) => occursIn "API call frequency".data s.data
        | _ => false)
    || (decide (func = "SECTOR") && (lookupKey "Rank A: Real-Time Performance" kvs).isNone)
  | .response _ => false

/-! ## Sorting (`Array.prototype.sort` with a comparator)

The sort of the standard is stable. For a comparator that is a consistent ordering of the
elements the result is the unique stable sorted arrangement, which the insertion sort below
computes. For an inconsistent comparator the standard leaves the order to the engine, and
the insertion sort gives one of the allowed results. -/

/-- Whether the result of a comparator is greater than zero; `NaN` counts as zero. -/
def JsNum.positive : JsNum → Bool
  | .nan => false
  | .fin q => decide (0 < q)
  | .inf negative => !negative

/-- Insertion of `x` in front of a sorted list: `x` moves behind the elements it compares
greater than. -/
def insertSorted {α : Type} (cmp : α → α → JsNum) (x : α) : List α → List α
  | [] => [x]
  | y :: ys => if (cmp x y).positive then y :: insertSorted cmp x ys else x :: y :: ys

/-- The array after `xs.sort(cmp)`. -/
def sortWith {α : Type} (cmp : α → α → JsNum) : List α → List α
  | [] => []
  | x :: xs => insertSorted cmp x (sortWith cmp xs)

/-! ## The facade (`src/api.js`): historical data -/

/-- The constant `API_PROXY_URL`. -/
def API_PROXY_URL : String := "/api/alpha-vantage"

/-- The outcome of `fetch(url)` followed by `response.json()`: one of the two promises
rejects, or the body is parsed to a value. The HTTP status is not looked at. -/
inductive FetchResult where
  | rejected
  | body (data : JsVal)
deriving DecidableEq

/-- A point of a price series. -/
structure PricePoint where
  date : String
  open_ : JsNum
  high : JsNum
  low : JsNum
  close : JsNum
  volume : JsNum
deriving DecidableEq

/-- The variable `timeSeriesFunction` after the `switch` on the period
(`fetchHistoricalData`, lines 15-34). -/
def timeSeriesFunction (period : String) : String :=
  if period = "1d" then "TIME_SERIES_INTRADAY"
  else if period = "1w" then "TIME_SERIES_DAILY"
  else if period = "1m" ∨ period = "3m" ∨ period = "6m" ∨ period = "1y" then "TIME_SERIES_DAILY"
  else if period = "5y" then "TIME_SERIES_WEEKLY"
  else "TIME_SERIES_DAILY"

/-- The variable `interval` after the `switch` on the period. -/
def interval (period : String) : String :=
  if period = "1d" then "5min" else ""

/-- The URL requested by `fetchHistoricalData` (lines 37-41). -/
def historicalUrl (symbol period : String) : String :=
  let url := API_PROXY_URL ++ "?function=" ++ timeSeriesFunction period ++ "&symbol=" ++ symbol
  let url := if interval period ≠ "" then url ++ "&interval=" ++ interval period else url
  url ++ "&outputsize=full"

/-- The variable `timeSeriesKey` after the `switch` of `parseHistoricalData`. -/
def timeSeriesKey (timeSeriesFunction : String) : String :=
  if timeSeriesFunction = "TIME_SERIES_INTRADAY" then "Time Series (5min)"
  else if timeSeriesFunction = "TIME_SERIES_DAILY" then "Time Series (Daily)"
  else if timeSeriesFunction = "TIME_SERIES_WEEKLY" then "Weekly Time Series"
  else "Time Series (Daily)"

/-- The point pushed for one entry `[date, values]` of the time series (lines 86-93); the
property reads throw when `values` is `null`. The conversions `parseFloat` and `parseInt` are
those of the engine, which return a number for every field that can be converted to a string
(`canToString`); the `TypeError` on a field that cannot is raised by the caller
(`seriesReadable` in `fetchHistoricalData`), and the statements about the points of a payload
are made for fields that can be converted (`entryReadable`). -/
def parsePoint (E : Engine) (entry : String × JsVal) : Except JsError PricePoint :=
  match getProp E entry.2 "1. open", getProp E entry.2 "2. high", getProp E entry.2 "3. low",
    getProp E entry.2 "4. close", getProp E entry.2 "5. volume" with
  | .ok o, .ok h, .ok l, .ok c, .ok v =>
    .ok ⟨entry.1, E.parseFloat o, E.parseFloat h, E.parseFloat l, E.parseFloat c, E.parseInt10 v⟩
  | _, _, _, _, _ => .error (typeError E)

/-- The loop `Object.entries(...).forEach(...)` of `parseHistoricalData`: the points in the
order of the entries, or the first error thrown. -/
def parsePoints (E : Engine) : List (String × JsVal) → Except JsError (List PricePoint)
  | [] => .ok []
  | entry :: rest =>
    match parsePoint E entry with
    | .error e => .error e
    | .ok p =>
      match parsePoints E rest with
      | .error e => .error e
      | .ok ps => .ok (p :: ps)

/-- The comparator `(a, b) => new Date(a.date) - new Date(b.date)`. -/
def compareDates (E : Engine) (a b : PricePoint) : JsNum :=
  match E.dateMs a.date, E.dateMs b.date with
  | some x, some y => .fin ((x - y : Int) : ℚ)
  | _, _ => .nan

/-- The function `parseHistoricalData`. -/
def parseHistoricalData (E : Engine) (data : JsVal) (timeSeriesFunction : String) :
    Except JsError (List PricePoint) :=
  match getProp E data (timeSeriesKey timeSeriesFunction) with
  | .error e => .error e
  | .ok series =>
    if !truthy series then .ok []
    else
      match parsePoints E (objectEntries series) with
      | .error e => .error e
      | .ok points => .ok (sortWith (compareDates E) points)

/-- The number of days of the `switch` of `generateMockHistoricalData` (lines 109-116). -/
def mockDays (period : String) : Nat :=
  if period = "1m" then 30
  else if period = "3m" then 90
  else if period = "6m" then 180
  else if period = "1y" then 365
  else if period = "5y" then 365 * 5
  else 365

/-- The sum of the character codes of the symbol (line 119). -/
def symbolSum (symbol : String) : Nat :=
  symbol.data.foldl (fun sum char => sum + char.toNat) 0

/-- The loop of `generateMockHistoricalData` (lines 123-143) over the remaining values of
`i`, from the current `price`, the next draw being `rand k`. Each round takes five draws:
for the change, the volume, the open, the high and the low. -/
def mockHistoricalLoop (E : Engine) (rand : Nat → ℚ) (today : Int) :
    List Nat → ℚ → Nat → List PricePoint
  | [], _, _ => []
  | i :: rest, price, k =>
    let change := (rand k - 48 / 100) * 2
    let price := max 1 (price * (1 + change / 100))
    let volume : ℚ := Rat.floor (rand (k + 1) * 10000000) + 1000000
    { date := E.isoDay (E.minusDays today i)
      open_ := .fin (price * (1 - rand (k + 2) * (1 / 100)))
      high := .fin (price * (1 + rand (k + 3) * (2 / 100)))
      low := .fin (price * (1 - rand (k + 4) * (2 / 100)))
      close := .fin price
      volume := .fin volume } :: mockHistoricalLoop E rand today rest price (k + 5)

/-- The function `generateMockHistoricalData`; `today` is the time of `new Date()`. -/
def generateMockHistoricalData (E : Engine) (rand : Nat → ℚ) (today : Int)
    (symbol period : String) : List PricePoint :=
  mockHistoricalLoop E rand today (List.range (mockDays period + 1)).reverse
    (50 + (symbolSum symbol % 200 : Nat)) 0

/-- The fields of the values of an entry that `parseHistoricalData` converts to numbers. -/
def pointFields : List String := ["1. open", "2. high", "3. low", "4. close", "5. volume"]

/-- Whether the values of an entry of the time series can be read: they are not `null` or
`undefined`, so that the property reads return, and each of the five fields can be converted
to a string, so that `parseFloat` and `parseInt` return. -/
def entryReadable (values : JsVal) : Bool :=
  !isNullish values && pointFields.all fun field => canToString (propOf values field)

/-- Whether the calls of `parseFloat` and `parseInt` of lines 88-92 return for every entry
of the time series of the payload: the five fields of each entry that is not `null` can be
converted to a string. -/
def seriesReadable (data : JsVal) (timeSeriesFunction : String) : Bool :=
  (objectEntries (propOf data (timeSeriesKey timeSeriesFunction))).all fun entry =>
    isNullish entry.2 || entryReadable entry.2

/-- The function `fetchHistoricalData`: `fetch` gives the outcome of the request for each
URL, `today` is the time at which the fallback runs. A `TypeError` thrown by `parseFloat` or
`parseInt` while the points are built is caught like the other errors. -/
def fetchHistoricalData (E : Engine) (fetch : String → FetchResult) (rand : Nat → ℚ)
    (today : Int) (symbol period : String) : List PricePoint :=
  match fetch (historicalUrl symbol period) with
  | .rejected => generateMockHistoricalData E rand today symbol period
  | .body data =>
    if !seriesReadable data (timeSeriesFunction period) then
      generateMockHistoricalData E rand today symbol period
    else
      match parseHistoricalData E data (timeSeriesFunction period) with
      | .ok formattedData => formattedData
      | .error _ => generateMockHistoricalData E rand today symbol period

/-! ## Arithmetic on numbers -/

/-- The product `a * b`. -/
def JsNum.mul : JsNum → JsNum → JsNum
  | .fin a, .fin b => .fin (a * b)
  | .inf s, .inf t => .inf (s != t)
  | .inf s, .fin b => if b = 0 then .nan else .inf (s != decide (b < 0))
  | .fin a, .inf t => if a = 0 then .nan else .inf (t != decide (a < 0))
  | _, _ => .nan

/-- The quotient `a / b`. -/
def JsNum.div : JsNum → JsNum → JsNum
  | .fin a, .fin b =>
    if b = 0 then (if a = 0 then .nan else .inf (decide (a < 0))) else .fin (a / b)
  | .fin _, .inf _ => .fin 0
  | .inf s, .fin b => .inf (s != decide (b < 0))
  | _, _ => .nan

/-- The difference `a - b`. -/
def JsNum.sub : JsNum → JsNum → JsNum
  | .fin a, .fin b => .fin (a - b)
  | .inf s, .fin _ => .inf s
  | .fin _, .inf t => .inf (!t)
  | .inf s, .inf t => if s = t then .nan else .inf s
  | _, _ => .nan

/-- The comparison `a >= b`. -/
def JsNum.ge : JsNum → JsNum → Bool
  | .fin a, .fin b => decide (b ≤ a)
  | .inf s, .fin _ => !s
  | .fin _, .inf t => t
  | .inf s, .inf t => !s || t
  | _, _ => false

/-- The comparison `a > b`. -/
def JsNum.gt : JsNum → JsNum → Bool
  | .fin a, .fin b => decide (b < a)
  | .inf s, .fin _ => !s
  | .fin _, .inf t => t
  | .inf s, .inf t => !s && t
  | _, _ => false

/-- The expression `a || b` on numbers. -/
def JsNum.orElse (a b : JsNum) : JsNum :=
  if a.truthy then a else b

/-- The expression `a || b`. -/
def orElse (a b : JsVal) : JsVal :=
  if truthy a then a else b

/-! ## Rounding to a double

The products, quotients and sums of the market capitalisation and of the mock profile are
rounded as the source rounds them: to the nearest double (IEEE 754 binary64), ties to the
even significand. -/

/-- The power `2 ^ k` for an integer `k`. -/
def twoPow (k : Int) : ℚ :=
  if 0 ≤ k then ((2 ^ k.toNat : Nat) : ℚ) else 1 / ((2 ^ (-k).toNat : Nat) : ℚ)

/-- The number of times `n` can be halved before it is below `2`, in at most `fuel`
rounds. -/
def halvings : Nat → Nat → Nat
  | 0, _ => 0
  | fuel + 1, n => if n < 2 then 0 else halvings fuel (n / 2) + 1

/-- The exponent of the binade of a positive number `a`: the `e` with
`2 ^ e ≤ a < 2 ^ (e + 1)`. It is the difference of the binary logarithms of the numerator
and the denominator, or one less. -/
def binade (a : ℚ) : Int :=
  let e : Int := (halvings a.num.natAbs a.num.natAbs : Int) - (halvings a.den a.den : Int)
  if a < twoPow e then e - 1 else e

/-- The integer nearest to `q`, the even one of the two when `q` lies half way. -/
def roundHalfEven (q : ℚ) : Int :=
  let f := Rat.floor q
  if q - f < 1 / 2 then f
  else if 1 / 2 < q - f then f + 1
  else if f % 2 = 0 then f else f + 1

/-- The spacing of the doubles at a positive number `a`: the significand has 53 bits and the
exponent of the binade is at least `-1022` (below it the spacing stays `2 ^ (-1074)`). -/
def ulp (a : ℚ) : ℚ :=
  twoPow (max (binade a) (-1022) - 52)

/-- The multiple of the spacing nearest to a positive number `a`. -/
def roundMagnitude (a : ℚ) : ℚ :=
  (roundHalfEven (a / ulp a) : ℚ) * ulp a

/-- The double nearest to `q`; a result of `2 ^ 1024` or more is an infinity. -/
def roundDouble (q : ℚ) : JsNum :=
  if q = 0 then .fin 0
  else if twoPow 1024 ≤ roundMagnitude |q| then .inf (decide (q < 0))
  else .fin (if q < 0 then -roundMagnitude |q| else roundMagnitude |q|)

/-- The exact sum `a + b`. -/
def JsNum.add : JsNum → JsNum → JsNum
  | .fin a, .fin b => .fin (a + b)
  | .inf s, .fin _ => .inf s
  | .fin _, .inf t => .inf t
  | .inf s, .inf t => if s = t then .inf s else .nan
  | _, _ => .nan

/-- The product `a * b` of two doubles, rounded to a double. -/
def JsNum.mulD (a b : JsNum) : JsNum :=
  match a.mul b with
  | .fin q => roundDouble q
  | x => x

/-- The quotient `a / b` of two doubles, rounded to a double. -/
def JsNum.divD (a b : JsNum) : JsNum :=
  match a.div b with
  | .fin q => roundDouble q
  | x => x

/-- The sum `a + b` of two doubles, rounded to a double. -/
def JsNum.addD (a b : JsNum) : JsNum :=
  match a.add b with
  | .fin q => roundDouble q
  | x => x

/-- The function `Math.floor`. -/
def JsNum.floor : JsNum → JsNum
  | .fin q => .fin (Rat.floor q)
  | x => x

/-! ## The facade: company profile -/

/-- The record returned by `fetchCompanyProfile`. -/
structure CompanyProfile where
  symbol : JsVal
  description : JsVal
  employees : JsNum
  industry : JsVal
  sector : JsVal
  website : JsVal
  ceo : JsVal
  marketCap : JsNum
  peRatio : JsNum
  dividendYield : JsNum
  eps : JsNum
  beta : JsNum
  fiftyTwoWeekHigh : JsNum
  fiftyTwoWeekLow : JsNum
deriving DecidableEq

/-- The function `generateMockCompanyProfile`; it takes the eight draws `rand 0` to
`rand 7`, in the order of the fields. Each product and each sum is rounded to a double. -/
def generateMockCompanyProfile (E : Engine) (rand : Nat → ℚ) (symbol : String) :
    CompanyProfile :=
  { symbol := .str symbol
    description := .str (symbol ++ " is a leading company in its industry, focused on innovation and growth. The company has a strong market position and continues to expand its product offerings.")
    employees := ((JsNum.fin (rand 0)).mulD (.fin 100000)).floor.addD (.fin 1000)
    industry := .str "Technology"
    sector := .str "Information Technology"
    website := .str ("https://www." ++ E.toLowerCase symbol ++ ".com")
    ceo := .str "John Smith"
    marketCap := ((JsNum.fin (rand 1)).mulD (.fin 1000000000000)).floor.addD (.fin 1000000000)
    peRatio := ((JsNum.fin (rand 2)).mulD (.fin 30)).addD (.fin 5)
    dividendYield := (JsNum.fin (rand 3)).mulD (.fin 5)
    eps := ((JsNum.fin (rand 4)).mulD (.fin 10)).addD (.fin 1)
    beta := ((JsNum.fin (rand 5)).mulD (.fin 2)).addD (.fin (1 / 2))
    fiftyTwoWeekHigh := (JsNum.fin 100).addD ((JsNum.fin (rand 6)).mulD (.fin 200))
    fiftyTwoWeekLow := (JsNum.fin 50).addD ((JsNum.fin (rand 7)).mulD (.fin 100)) }

/-- The profile built from a payload that passed the check and whose numeric fields can be
converted to a string (`fetchCompanyProfile`, lines 166-181); the product of the dividend
yield is rounded to a double. -/
def formatProfile (E : Engine) (symbol : String) (data : JsVal) : CompanyProfile :=
  { symbol := propOf data "Symbol"
    description := orElse (propOf data "Description")
      (.str ("No description available for " ++ symbol))
    employees := E.parseInt10 (orElse (propOf data "FullTimeEmployees") (.str "0"))
    industry := orElse (propOf data "Industry") (.str "Unknown")
    sector := orElse (propOf data "Sector") (.str "Unknown")
    website := orElse (propOf data "Website")
      (.str ("https://www." ++ E.toLowerCase symbol ++ ".com"))
    ceo := orElse (propOf data "CEO") (.str "Unknown")
    marketCap := E.parseFloat (orElse (propOf data "MarketCapitalization") (.str "0"))
    peRatio := E.parseFloat (orElse (propOf data "PERatio") (.str "0"))
    dividendYield :=
      (E.parseFloat (orElse (propOf data "DividendYield") (.str "0"))).mulD (.fin 100)
    eps := E.parseFloat (orElse (propOf data "EPS") (.str "0"))
    beta := E.parseFloat (orElse (propOf data "Beta") (.str "0"))
    fiftyTwoWeekHigh := E.parseFloat (orElse (propOf data "52WeekHigh") (.str "0"))
    fiftyTwoWeekLow := E.parseFloat (orElse (propOf data "52WeekLow") (.str "0")) }

/-- The URL requested by `fetchCompanyProfile`. -/
def profileUrl (symbol : String) : String :=
  API_PROXY_URL ++ "?function=OVERVIEW&symbol=" ++ symbol

/-- The provider fields that `fetchCompanyProfile` reads with `parseInt` or `parseFloat`. -/
def numericProfileFields : List String :=
  ["FullTimeEmployees", "MarketCapitalization", "PERatio", "DividendYield", "EPS", "Beta",
   "52WeekHigh", "52WeekLow"]

/-- Whether the calls of `parseInt` and `parseFloat` of lines 169-180 return: each argument
`data.X || '0'` can be converted to a string. -/
def profileReadable (data : JsVal) : Bool :=
  numericProfileFields.all fun key => canToString (orElse (propOf data key) (.str "0"))

/-- The function `fetchCompanyProfile`. A `TypeError` thrown by `parseInt` or `parseFloat`
while the profile is built is caught like the error of the check. -/
def fetchCompanyProfile (E : Engine) (fetch : String → FetchResult) (rand : Nat → ℚ)
    (symbol : String) : CompanyProfile :=
  match fetch (profileUrl symbol) with
  | .rejected => generateMockCompanyProfile E rand symbol
  | .body data =>
    if !truthy data || (objectKeys data).length = 0 then generateMockCompanyProfile E rand symbol
    else if !profileReadable data then generateMockCompanyProfile E rand symbol
    else formatProfile E symbol data

/-! ## The facade: news -/

/-- An element of the list returned by `fetchStockNews`. -/
structure NewsItem where
  headline : JsVal
  date : JsVal
  source : JsVal
  url : JsVal
  summary : JsVal
  sentiment : JsVal
deriving DecidableEq

/-- The call `v.slice(0, 10)`: the first ten characters of a text, the first ten elements
of an array, a `TypeError` on anything else. -/
def sliceTen (E : Engine) : JsVal → Except JsError JsVal
  | .str s => .ok (.str ⟨s.data.take 10⟩)
  | .arr xs => .ok (.arr (xs.take 10))
  | _ => .error (typeError E)

/-- The item built from one element of `data.feed` (`fetchStockNews`, lines 229-236). -/
def formatNewsItem (E : Engine) (item : JsVal) : Except JsError NewsItem :=
  if isNullish item then .error (typeError E)
  else
    match sliceTen E (propOf item "time_published") with
    | .error e => .error e
    | .ok date =>
      .ok { headline := propOf item "title"
            date := date
            source := propOf item "source"
            url := propOf item "url"
            summary := propOf item "summary"
            sentiment := propOf item "overall_sentiment_label" }

/-- The call `data.feed.map(...)`: the items in feed order, or the first error thrown. -/
def formatNews (E : Engine) : List JsVal → Except JsError (List NewsItem)
  | [] => .ok []
  | item :: rest =>
    match formatNewsItem E item with
    | .error e => .error e
    | .ok n =>
      match formatNews E rest with
      | .error e => .error e
      | .ok ns => .ok (n :: ns)

/-- The element of index `i` of an array literal, `undefined` outside of it. -/
def elementAt (xs : List String) (i : Int) : JsVal :=
  if 0 ≤ i then (xs[i.toNat]?.map JsVal.str).getD .undefined else .undefined

/-- The headlines of `generateMockNews`. -/
def mockHeadlines (symbol : String) : List String :=
  [symbol ++ " Reports Strong Quarterly Earnings",
   symbol ++ " Announces New Product Line",
   symbol ++ " CEO Discusses Future Growth Strategy",
   "Analysts Upgrade " ++ symbol ++ " Stock Rating",
   symbol ++ " Expands into New Markets"]

/-- The item pushed by round `i` of the loop of `generateMockNews`; it takes the draw
`rand i`. -/
def mockNewsItem (E : Engine) (rand : Nat → ℚ) (today : Int) (symbol : String) (i : Nat)
    (headline : String) : NewsItem :=
  { headline := .str headline
    date := .str (E.isoDay (E.minusDays today (i * 2)))
    source := elementAt ["Bloomberg", "Reuters", "CNBC", "Wall Street Journal",
      "Financial Times"] i
    url := .str ("https://example.com/news/" ++ E.toLowerCase symbol ++ "/" ++ toString i)
    summary := .str ("This is a mock summary for " ++ headline
      ++ ". In a real application, this would contain actual news content.")
    sentiment := elementAt ["Bullish", "Somewhat-Bullish", "Neutral", "Somewhat-Bearish",
      "Bearish"] (Rat.floor (rand i * 5)) }

/-- The function `generateMockNews`. -/
def generateMockNews (E : Engine) (rand : Nat → ℚ) (today : Int) (symbol : String) :
    List NewsItem :=
  (List.range (mockHeadlines symbol).length).zipWith
    (fun i headline => mockNewsItem E rand today symbol i headline) (mockHeadlines symbol)

/-- The URL requested by `fetchStockNews`. -/
def newsUrl (symbol : String) : String :=
  API_PROXY_URL ++ "?function=NEWS_SENTIMENT&tickers=" ++ symbol

/-- The function `fetchStockNews`. -/
def fetchStockNews (E : Engine) (fetch : String → FetchResult) (rand : Nat → ℚ) (today : Int)
    (symbol : String) : List NewsItem :=
  match fetch (newsUrl symbol) with
  | .rejected => generateMockNews E rand today symbol
  | .body data =>
    if !truthy data then generateMockNews E rand today symbol
    else
      match propOf data "feed" with
      | .arr feed =>
        match formatNews E feed with
        | .ok formattedNews => formattedNews
        | .error _ => generateMockNews E rand today symbol
      | _ => generateMockNews E rand today symbol

/-! ## The facade: market summary

The readings of the clock made during one call are taken to be equal (`now`). -/

/-- The field `spxIndex` of a market summary. -/
structure SpxIndex where
  symbol : JsVal
  price : JsNum
  change : JsNum
  changePercent : JsNum
  open_ : JsNum
  high : JsNum
  low : JsNum
  previousClose : JsNum
  volume : JsNum
deriving DecidableEq

/-- The field `marketBreadth` of a market summary. -/
structure MarketBreadth where
  advances : JsVal
  declines : JsVal
deriving DecidableEq

/-- An element of `sectorPerformance`. -/
structure SectorChange where
  sector : String
  change : JsNum
deriving DecidableEq

/-- The field `sentiment` of the mock market summary. -/
structure Sentiment where
  label : String
  cssClass : String
deriving DecidableEq

/-- The field `dataSource` of a market summary. -/
structure DataSource where
  spx : String
  breadth : String
  sectors : String
deriving DecidableEq

/-- The record returned by `fetchMarketSummary`; only the record of the mock generator has
the field `sentiment`. -/
structure MarketSummary where
  spxIndex : SpxIndex
  marketBreadth : MarketBreadth
  sectorPerformance : List SectorChange
  sentiment : Option Sentiment
  timestamp : String
  dataSource : DataSource
deriving DecidableEq

/-- The sentiment computed by `generateMockMarketSummary` from the two counts (lines
455-470). -/
def mockSentiment (gainersCount losersCount : ℚ) : Sentiment :=
  let advanceDeclineRatio := gainersCount / (if losersCount ≠ 0 then losersCount else 1)
  if advanceDeclineRatio > 15 / 10 then ⟨"Bullish", "bullish"⟩
  else if advanceDeclineRatio > 11 / 10 then ⟨"Slightly Bullish", "slightly-bullish"⟩
  else if advanceDeclineRatio > 9 / 10 then ⟨"Neutral", "neutral"⟩
  else if advanceDeclineRatio > 5 / 10 then ⟨"Slightly Bearish", "slightly-bearish"⟩
  else ⟨"Bearish", "bearish"⟩

/-- The sector list of `generateMockMarketSummary`. -/
def mockSectorPerformance : List SectorChange :=
  [⟨"Energy", .fin (25 / 10)⟩, ⟨"Technology", .fin (18 / 10)⟩, ⟨"Healthcare", .fin (12 / 10)⟩,
   ⟨"Consumer Discretionary", .fin (7 / 10)⟩, ⟨"Financials", .fin (3 / 10)⟩,
   ⟨"Consumer Staples", .fin (-2 / 10)⟩, ⟨"Industrials", .fin (-5 / 10)⟩,
   ⟨"Utilities", .fin (-9 / 10)⟩, ⟨"Real Estate", .fin (-13 / 10)⟩,
   ⟨"Materials", .fin (-18 / 10)⟩]

/-- The function `generateMockMarketSummary`; it takes the eight draws `rand k` to
`rand (k + 7)`. -/
def generateMockMarketSummary (E : Engine) (rand : Nat → ℚ) (k : Nat) (now : Int) :
    MarketSummary :=
  let price := 4500 + rand k * 200
  let high := 4520 + rand (k + 4) * 50
  let low := 4470 + rand (k + 5) * 40
  { spxIndex :=
      { symbol := .str "^GSPC"
        price := .fin price
        change := .fin (15 + rand (k + 1) * 20 - 10)
        changePercent := .fin (3 / 10 + rand (k + 2) * (8 / 10) - 4 / 10)
        open_ := .fin (4480 + rand (k + 3) * 50)
        high := .fin (max high price)
        low := .fin (min low price)
        previousClose := .fin (4485 + rand (k + 6) * 40)
        volume := .fin (2500000000 + rand (k + 7) * 500000000) }
    marketBreadth := ⟨.num (.fin 285), .num (.fin 215)⟩
    sectorPerformance := mockSectorPerformance
    sentiment := some (mockSentiment 285 215)
    timestamp := E.isoString now
    dataSource := ⟨"Mock Data", "Mock Data", "Mock Data"⟩ }

/-- The quote object built from the mock summary when the index quote is invalid
(`fetchMarketSummary`, lines 305-317); it takes the nine draws from `rand k` on. -/
def mockSpxQuote (E : Engine) (rand : Nat → ℚ) (k : Nat) (now : Int) : JsVal :=
  let mockData := generateMockMarketSummary E rand k now
  .obj [("01. symbol", .str "^GSPC"),
        ("02. open", .str (E.numToString mockData.spxIndex.price)),
        ("03. high", .str (E.numToString mockData.spxIndex.high)),
        ("04. low", .str (E.numToString mockData.spxIndex.low)),
        ("05. price", .str (E.numToString mockData.spxIndex.price)),
        ("06. volume", .str (E.toFixed (.fin (rand (k + 8) * 5000000000)) 0)),
        ("07. latest trading day", .str (E.isoDay now)),
        ("08. previous close", .str (E.toFixed (mockData.spxIndex.price.mul (.fin (995 / 1000))) 2)),
        ("09. change", .str (E.toFixed (mockData.spxIndex.price.mul (.fin (5 / 1000))) 2)),
        ("10. change percent", .str "0.5%")]

/-- The outcome of a sub-fetch of `fetchMarketSummary`: the body, or `null` when the
request fails. -/
def bodyOrNull : FetchResult → JsVal
  | .rejected => .null
  | .body data => data

/-- The test on the index quote (line 298). -/
def validSpx (spxData : JsVal) : Bool :=
  truthy spxData && truthy (propOf spxData "Global Quote")
    && decide ((objectKeys (propOf spxData "Global Quote")).length > 0)

/-- The test on the movers (line 334). -/
def validGainersLosers (gainerLosersData : JsVal) : Bool :=
  truthy gainerLosersData && truthy (propOf gainerLosersData "top_gainers")
    && truthy (propOf gainerLosersData "top_losers")

/-- The test on the sector data (line 362). -/
def validSector (sectorData : JsVal) : Bool :=
  truthy sectorData && truthy (propOf sectorData "Rank A: Real-Time Performance")

/-- The element built from one entry `[sector, change]` of the ranking (lines 368-371);
`change.replace` throws when `change` is not a text. -/
def sectorEntry (E : Engine) (entry : String × JsVal) : Except JsError SectorChange :=
  match entry.2 with
  | .str change =>
    .ok ⟨replaceWithEmpty entry.1 "GICS ", E.parseFloat (.str (replaceWithEmpty change "%"))⟩
  | _ => .error (typeError E)

/-- The call `.map(...)` over the entries of the ranking: the elements in order, or the
first error thrown. -/
def sectorEntries (E : Engine) : List (String × JsVal) → Except JsError (List SectorChange)
  | [] => .ok []
  | entry :: rest =>
    match sectorEntry E entry with
    | .error e => .error e
    | .ok c =>
      match sectorEntries E rest with
      | .error e => .error e
      | .ok cs => .ok (c :: cs)

/-- The sector performance built from a valid ranking (lines 366-372). -/
def formatSectors (E : Engine) (sectorRealTime : JsVal) : Except JsError (List SectorChange) :=
  match sectorEntries E
    ((objectEntries sectorRealTime).filter fun entry => entry.1 ≠ "Information Technology") with
  | .error e => .error e
  | .ok cs => .ok (sortWith (fun a b => b.change.sub a.change) cs)

/-- The expression `v?.replace('%', '')`. -/
def optionalReplacePercent (E : Engine) (v : JsVal) : Except JsError JsVal :=
  if isNullish v then .ok .undefined
  else
    match v with
    | .str s => .ok (.str (replaceWithEmpty s "%"))
    | _ => .error (typeError E)

/-- The field `spxIndex` built from the quote object (lines 383-393). -/
def formatSpxIndex (E : Engine) (spxQuote : JsVal) : Except JsError SpxIndex :=
  match optionalReplacePercent E (propOf spxQuote "10. change percent") with
  | .error e => .error e
  | .ok percent =>
    .ok { symbol := orElse (propOf spxQuote "01. symbol") (.str "^GSPC")
          price := (E.parseFloat (propOf spxQuote "05. price")).orElse (.fin (450025 / 100))
          change := (E.parseFloat (propOf spxQuote "09. change")).orElse (.fin (1575 / 100))
          changePercent := (E.parseFloat percent).orElse (.fin (35 / 100))
          open_ := (E.parseFloat (propOf spxQuote "02. open")).orElse (.fin (448550 / 100))
          high := (E.parseFloat (propOf spxQuote "03. high")).orElse (.fin (451075 / 100))
          low := (E.parseFloat (propOf spxQuote "04. low")).orElse (.fin (447525 / 100))
          previousClose :=
            (E.parseFloat (propOf spxQuote "08. previous close")).orElse (.fin (448450 / 100))
          volume := (E.parseFloat (propOf spxQuote "06. volume")).orElse (.fin 2500000000) }

/-- The three URLs requested by `fetchMarketSummary`. -/
def spxUrl : String := API_PROXY_URL ++ "?function=GLOBAL_QUOTE&symbol=^GSPC"

/-- The URL of the movers. -/
def moversUrl : String := API_PROXY_URL ++ "?function=TOP_GAINERS_LOSERS"

/-- The URL of the sector performance. -/
def sectorUrl : String := API_PROXY_URL ++ "?function=SECTOR"

/-- The function `fetchMarketSummary`. The draws are taken in the order of the source: nine
for an invalid index quote, eight for invalid movers, eight for invalid sector data, and
eight more when the outer `catch` runs. -/
def fetchMarketSummary (E : Engine) (fetch : String → FetchResult) (rand : Nat → ℚ)
    (now : Int) : MarketSummary :=
  let spxData := bodyOrNull (fetch spxUrl)
  let spxQuote := if validSpx spxData then propOf spxData "Global Quote"
    else mockSpxQuote E rand 0 now
  let k1 := if validSpx spxData then 0 else 9
  let gainerLosersData := bodyOrNull (fetch moversUrl)
  let marketBreadth : MarketBreadth :=
    if validGainersLosers gainerLosersData then
      ⟨orElse (propOf (propOf gainerLosersData "top_gainers") "length") (.num (.fin 0)),
       orElse (propOf (propOf gainerLosersData "top_losers") "length") (.num (.fin 0))⟩
    else (generateMockMarketSummary E rand k1 now).marketBreadth
  let k2 := if validGainersLosers gainerLosersData then k1 else k1 + 8
  let sectorData := bodyOrNull (fetch sectorUrl)
  let sectors : Except JsError (List SectorChange) :=
    if validSector sectorData then
      formatSectors E (propOf sectorData "Rank A: Real-Time Performance")
    else .ok (generateMockMarketSummary E rand k2 now).sectorPerformance
  let k3 := if validSector sectorData then k2 else k2 + 8
  match sectors with
  | .error _ => generateMockMarketSummary E rand k2 now
  | .ok sectorPerformance =>
    match formatSpxIndex E spxQuote with
    | .error _ => generateMockMarketSummary E rand k3 now
    | .ok spxIndex =>
      { spxIndex := spxIndex
        marketBreadth := marketBreadth
        sectorPerformance := sectorPerformance
        sentiment := none
        timestamp := E.isoString now
        dataSource :=
          ⟨if validSpx spxData then "Alpha Vantage" else "Mock Data",
           if validGainersLosers gainerLosersData then "Alpha Vantage" else "Mock Data",
           if validSector sectorData then "Alpha Vantage" else "Mock Data"⟩ }

/-! ## The facade: top performers -/

/-- An entry of the lists returned by `fetchTopPerformers`. -/
structure Performer where
  Symbol : JsVal
  Name : JsVal
  Price : JsNum
  Change : JsNum
  ChangePercent : JsNum
  Volume : JsNum
deriving DecidableEq

/-- The record returned by `fetchTopPerformers`. -/
structure TopPerformers where
  topGainers : List Performer
  topLosers : List Performer
  mostActive : List Performer
deriving DecidableEq

/-- The absolute value `Math.abs(n)`. -/
def JsNum.abs : JsNum → JsNum
  | .nan => .nan
  | .fin q => .fin |q|
  | .inf _ => .inf false

/-- The negation `-n`. -/
def JsNum.neg : JsNum → JsNum
  | .nan => .nan
  | .fin q => .fin (-q)
  | .inf s => .inf (!s)

/-- The helper `generateMockStock` of `generateMockTopPerformers`; it takes the four draws
`rand k` to `rand (k + 3)`: for the price, the size of the change, its sign, and the
volume. -/
def generateMockStock (rand : Nat → ℚ) (k : Nat) (symbol name : String)
    (priceBase changeBase volumeBase : ℚ) : Performer :=
  let price := priceBase + rand k * priceBase * (2 / 10)
  let change := changeBase * (rand (k + 1) * (5 / 10) + 5 / 10)
    * (if rand (k + 2) > 5 / 10 then 1 else -1)
  let changePercent := change / price * 100
  { Symbol := .str symbol
    Name := .str name
    Price := .fin price
    Change := .fin change
    ChangePercent := .fin changePercent
    Volume := .fin (Rat.floor (volumeBase * (rand (k + 3) * 2 + 5 / 10))) }

/-- The templates of the mock gainers: symbol, name, price base, change base, volume
base. -/
def gainerTemplates : List (String × String × ℚ × ℚ × ℚ) :=
  [("AAPL", "Apple Inc.", 180, 5, 10000000),
   ("MSFT", "Microsoft Corporation", 350, 8, 8000000),
   ("AMZN", "Amazon.com Inc.", 150, 4, 9000000),
   ("GOOGL", "Alphabet Inc.", 130, 3, 7000000),
   ("META", "Meta Platforms Inc.", 300, 7, 6000000),
   ("TSLA", "Tesla Inc.", 200, 6, 12000000),
   ("NVDA", "NVIDIA Corporation", 500, 15, 15000000),
   ("V", "Visa Inc.", 250, 5, 5000000),
   ("JPM", "JPMorgan Chase & Co.", 160, 4, 6000000),
   ("JNJ", "Johnson & Johnson", 150, 3, 4000000)]

/-- The templates of the mock losers. -/
def loserTemplates : List (String × String × ℚ × ℚ × ℚ) :=
  [("IBM", "International Business Machines", 140, 3, 5000000),
   ("T", "AT&T Inc.", 18, 5 / 10, 7000000),
   ("GE", "General Electric Company", 120, 2, 6000000),
   ("F", "Ford Motor Company", 12, 3 / 10, 8000000),
   ("GM", "General Motors Company", 40, 1, 6000000),
   ("INTC", "Intel Corporation", 35, 1, 9000000),
   ("VZ", "Verizon Communications Inc.", 40, 1, 5000000),
   ("PFE", "Pfizer Inc.", 30, 8 / 10, 7000000),
   ("KO", "The Coca-Cola Company", 60, 1, 4000000),
   ("DIS", "The Walt Disney Company", 100, 2, 6000000)]

/-- The mock stocks of a list of templates, the first one taking its draws from `rand k`. -/
def mockStocks (rand : Nat → ℚ) : Nat → List (String × String × ℚ × ℚ × ℚ) → List Performer
  | _, [] => []
  | k, (symbol, name, priceBase, changeBase, volumeBase) :: rest =>
    generateMockStock rand k symbol name priceBase changeBase volumeBase
      :: mockStocks rand (k + 4) rest

/-- The function `generateMockTopPerformers`; the gainers take the draws `rand 0` to
`rand 39`, the losers `rand 40` to `rand 79`. -/
def generateMockTopPerformers (rand : Nat → ℚ) : TopPerformers :=
  let topGainers := (mockStocks rand 0 gainerTemplates).map fun stock =>
    { stock with Change := stock.Change.abs, ChangePercent := stock.ChangePercent.abs }
  let topLosers := (mockStocks rand 40 loserTemplates).map fun stock =>
    { stock with Change := stock.Change.abs.neg, ChangePercent := stock.ChangePercent.abs.neg }
  { topGainers := topGainers
    topLosers := topLosers
    mostActive := sortWith (fun a b => b.Volume.sub a.Volume)
      (topGainers.take 5 ++ topLosers.take 5) }

/-- The helper `formatAlphaVantageStock` of `fetchTopPerformers` (lines 508-515). -/
def formatAlphaVantageStock (E : Engine) (stock : JsVal) : Except JsError Performer :=
  if isNullish stock then .error (typeError E)
  else
    match propOf stock "change_percentage" with
    | .str percent =>
      .ok { Symbol := propOf stock "ticker"
            Name := propOf stock "name"
            Price := E.parseFloat (propOf stock "price")
            Change := E.parseFloat (propOf stock "change_amount")
            ChangePercent := E.parseFloat (.str (replaceWithEmpty percent "%"))
            Volume := E.parseIntAuto (propOf stock "volume") }
    | _ => .error (typeError E)

/-- The call `.map(formatAlphaVantageStock)`: the entries in order, or the first error
thrown. -/
def formatStocks (E : Engine) : List JsVal → Except JsError (List Performer)
  | [] => .ok []
  | stock :: rest =>
    match formatAlphaVantageStock E stock with
    | .error e => .error e
    | .ok p =>
      match formatStocks E rest with
      | .error e => .error e
      | .ok ps => .ok (p :: ps)

/-- The body of the `try` block of `fetchTopPerformers` after the response has been read
(lines 495-522). The calls of `slice` and `map` throw on anything but an array. -/
def formatTopPerformers (E : Engine) (gainerLosersData : JsVal) :
    Except JsError TopPerformers :=
  if !truthy gainerLosersData || !truthy (propOf gainerLosersData "top_gainers")
      || !truthy (propOf gainerLosersData "top_losers")
      || !truthy (propOf gainerLosersData "most_actively_traded") then
    .error ⟨none, "Invalid response from Alpha Vantage TOP_GAINERS_LOSERS endpoint"⟩
  else
    match propOf gainerLosersData "top_gainers", propOf gainerLosersData "top_losers",
      propOf gainerLosersData "most_actively_traded" with
    | .arr gainers, .arr losers, .arr active =>
      match formatStocks E (gainers.take 10), formatStocks E (losers.take 10),
        formatStocks E (active.take 10) with
      | .ok topGainers, .ok topLosers, .ok mostActive => .ok ⟨topGainers, topLosers, mostActive⟩
      | _, _, _ => .error (typeError E)
    | _, _, _ => .error (typeError E)

/-- The function `fetchTopPerformers`. -/
def fetchTopPerformers (E : Engine) (fetch : String → FetchResult) (rand : Nat → ℚ) :
    TopPerformers :=
  match fetch moversUrl with
  | .rejected => generateMockTopPerformers rand
  | .body gainerLosersData =>
    match formatTopPerformers E gainerLosersData with
    | .ok performers => performers
    | .error _ => generateMockTopPerformers rand

/-! ## The facade: market capitalisation -/

/-- The object `categories`: the counts under the labels `Mega Cap (>$200B)`,
`Large Cap ($10B-$200B)`, `Mid Cap ($2B-$10B)`, `Small Cap ($300M-$2B)` and
`Micro Cap (<$300M)`. -/
structure Categories where
  megaCap : Nat
  largeCap : Nat
  midCap : Nat
  smallCap : Nat
  microCap : Nat
deriving DecidableEq

/-- The record returned by `fetchMarketCapDistribution`. -/
structure MarketCapDistribution where
  categories : Categories
  timestamp : String
deriving DecidableEq

/-- The function `generateMockMarketCapDistribution`. -/
def generateMockMarketCapDistribution (E : Engine) (now : Int) : MarketCapDistribution :=
  { categories := ⟨42, 178, 185, 83, 12⟩, timestamp := E.isoString now }

/-- The elements spread by `...(v || [])`: those of an array, the characters of a text,
nothing for a falsy value, and a `TypeError` for any other value (not iterable). -/
def spreadOrEmpty (E : Engine) (v : JsVal) : Except JsError (List JsVal) :=
  if !truthy v then .ok []
  else
    match v with
    | .arr xs => .ok xs
    | .str s => .ok (s.data.map fun c => JsVal.str (String.singleton c))
    | _ => .error (typeError E)

/-- The names of the properties that a plain object inherits from `Object.prototype`. -/
def objectPrototypeNames : List String :=
  ["constructor", "hasOwnProperty", "isPrototypeOf", "propertyIsEnumerable",
   "toLocaleString", "toString", "valueOf", "__proto__", "__defineGetter__",
   "__defineSetter__", "__lookupGetter__", "__lookupSetter__"]

/-- The own properties of the object `latestPrices`. -/
abbrev LatestPrices := List (String × JsNum)

/-- The assignment `latestPrices[key] = value`; on the name `__proto__` a number is not
stored. -/
def setPrice (key : String) (value : JsNum) (prices : LatestPrices) : LatestPrices :=
  if key = "__proto__" then prices
  else if prices.any (fun kv => kv.1 = key)
  then prices.map fun kv => if kv.1 = key then (key, value) else kv
  else prices ++ [(key, value)]

/-- Whether the round of the loop of lines 627-629 for one active stock returns: the stock
is not `null`, and its `ticker` (used as a property name) and its `price` (read by
`parseFloat`) can be converted to a string. -/
def activeStockReadable (stock : JsVal) : Bool :=
  !isNullish stock && canToString (propOf stock "ticker") && canToString (propOf stock "price")

/-- The loop `activeStocks.forEach(...)` (lines 627-629): the object `latestPrices`
after it, or the error thrown on an element that cannot be read. -/
def collectPrices (E : Engine) : List JsVal → LatestPrices → Except JsError LatestPrices
  | [], prices => .ok prices
  | stock :: rest, prices =>
    if !activeStockReadable stock then .error (typeError E)
    else collectPrices E rest
      (setPrice (E.toStr (propOf stock "ticker"))
        ((E.parseFloat (propOf stock "price")).orElse (.fin 0)) prices)

/-- The number that `currentPrice` contributes to the product of line 650. An own property
of `latestPrices` is used when truthy; a name inherited from `Object.prototype` gives a
function or an object, whose product with a number is `NaN`; otherwise the stored price is
used. -/
def currentPrice (E : Engine) (prices : LatestPrices) (stock : JsVal) : JsNum :=
  let key := E.toStr (propOf stock "Symbol")
  let stored := (E.parseFloat (propOf stock "Price")).orElse (.fin 0)
  match prices.lookup key with
  | some latest => if latest.truthy then latest else stored
  | none => if key ∈ objectPrototypeNames then .nan else stored

/-- The variable `marketCap` of a record (lines 643-650); the quotient and the product are
rounded to doubles. -/
def marketCapOf (E : Engine) (prices : LatestPrices) (stock : JsVal) : JsNum :=
  let storedMarketCap := (E.parseFloat (propOf stock "Market Cap")).orElse (.fin 0)
  let sharesOutstanding :=
    storedMarketCap.divD ((E.parseFloat (propOf stock "Price")).orElse (.fin 1))
  (currentPrice E prices stock).mulD sharesOutstanding

/-- The counts after the `if` chain of lines 653-663 for one market capitalisation. -/
def countCap (marketCap : JsNum) (c : Categories) : Categories :=
  if marketCap.ge (.fin 200000000000) then { c with megaCap := c.megaCap + 1 }
  else if marketCap.ge (.fin 10000000000) then { c with largeCap := c.largeCap + 1 }
  else if marketCap.ge (.fin 2000000000) then { c with midCap := c.midCap + 1 }
  else if marketCap.ge (.fin 300000000) then { c with smallCap := c.smallCap + 1 }
  else if marketCap.gt (.fin 0) then { c with microCap := c.microCap + 1 }
  else c

/-- Whether the round of the loop of lines 641-664 for one record returns: the record is
not `null`, and its `Symbol` (used as a property name), its `Price` and its `Market Cap`
(read by `parseFloat`) can be converted to a string. -/
def recordReadable (stock : JsVal) : Bool :=
  !isNullish stock && canToString (propOf stock "Symbol") && canToString (propOf stock "Price")
    && canToString (propOf stock "Market Cap")

/-- The loop `financialsData.forEach(...)` (lines 641-664): the counts after it, or the
error thrown on a record that cannot be read. -/
def countStocks (E : Engine) (prices : LatestPrices) :
    List JsVal → Categories → Except JsError Categories
  | [], c => .ok c
  | stock :: rest, c =>
    if !recordReadable stock then .error (typeError E)
    else countStocks E prices rest (countCap (marketCapOf E prices stock) c)

/-- The body of the `try` block of `fetchMarketCapDistribution` after the two responses
have been read (lines 618-664). -/
def marketCapCategories (E : Engine) (financialsData gainerLosersData : JsVal) :
    Except JsError Categories :=
  if isNullish gainerLosersData then .error (typeError E)
  else
    match spreadOrEmpty E (propOf gainerLosersData "top_gainers"),
      spreadOrEmpty E (propOf gainerLosersData "top_losers"),
      spreadOrEmpty E (propOf gainerLosersData "most_actively_traded") with
    | .ok gainers, .ok losers, .ok active =>
      match collectPrices E (gainers ++ losers ++ active) [] with
      | .error e => .error e
      | .ok latestPrices =>
        match financialsData with
        | .arr stocks => countStocks E latestPrices stocks ⟨0, 0, 0, 0, 0⟩
        | _ => .error (typeError E)
    | _, _, _ => .error (typeError E)

/-- The function `fetchMarketCapDistribution`. -/
def fetchMarketCapDistribution (E : Engine) (fetch : String → FetchResult) (now : Int) :
    MarketCapDistribution :=
  match fetch "/api/financials" with
  | .rejected => generateMockMarketCapDistribution E now
  | .body financialsData =>
    match fetch moversUrl with
    | .rejected => generateMockMarketCapDistribution E now
    | .body gainerLosersData =>
      match marketCapCategories E financialsData gainerLosersData with
      | .ok categories => { categories := categories, timestamp := E.isoString now }
      | .error _ => generateMockMarketCapDistribution E now

/-! ## Notions used in the statements -/

/-- The point that `parseHistoricalData` builds from an entry whose value is not `null`:
the date is the key, the prices are read by `parseFloat` and the volume by
`parseInt(., 10)`. -/
def pointOf (E : Engine) (entry : String × JsVal) : PricePoint :=
  { date := entry.1
    open_ := E.parseFloat (propOf entry.2 "1. open")
    high := E.parseFloat (propOf entry.2 "2. high")
    low := E.parseFloat (propOf entry.2 "3. low")
    close := E.parseFloat (propOf entry.2 "4. close")
    volume := E.parseInt10 (propOf entry.2 "5. volume") }

/-- The date of `a` is a valid date strictly earlier than the valid date of `b`. -/
def dateBefore (E : Engine) (a b : PricePoint) : Prop :=
  ∃ x y, E.dateMs a.date = some x ∧ E.dateMs b.date = some y ∧ x < y

/-- The provider fields that `fetchCompanyProfile` reads. -/
def profileFields : List String :=
  ["Symbol", "Description", "FullTimeEmployees", "Industry", "Sector", "Website", "CEO",
   "MarketCapitalization", "PERatio", "DividendYield", "EPS", "Beta", "52WeekHigh",
   "52WeekLow"]

/-! ## Records without undefined fields -/

/-- Whether a value is not `undefined`. -/
def isDefined : JsVal → Bool
  | .undefined => false
  | _ => true

/-- No field of the profile is `undefined`. -/
def CompanyProfile.noUndefined (p : CompanyProfile) : Bool :=
  isDefined p.symbol && isDefined p.description && isDefined p.industry && isDefined p.sector
    && isDefined p.website && isDefined p.ceo

/-- No field of the news item is `undefined`. -/
def NewsItem.noUndefined (n : NewsItem) : Bool :=
  isDefined n.headline && isDefined n.date && isDefined n.source && isDefined n.url
    && isDefined n.summary && isDefined n.sentiment

/-- No field of the entry is `undefined`. -/
def Performer.noUndefined (p : Performer) : Bool :=
  isDefined p.Symbol && isDefined p.Name

/-- No field of the three lists is `undefined`. -/
def TopPerformers.noUndefined (t : TopPerformers) : Bool :=
  t.topGainers.all Performer.noUndefined && t.topLosers.all Performer.noUndefined
    && t.mostActive.all Performer.noUndefined

/-- No field of the market summary is `undefined`. -/
def MarketSummary.noUndefined (m : MarketSummary) : Bool :=
  isDefined m.spxIndex.symbol && isDefined m.marketBreadth.advances
    && isDefined m.marketBreadth.declines

/-- The outcomes of a request to the proxy when the provider has failed: the request is
rejected (the proxy cannot be reached, or its body is not JSON), or the body is the one the
proxy sends with status 500, an object made of `error` and `message`. -/
def upstreamFailed : FetchResult → Bool
  | .rejected => true
  | .body (.obj [(k1, _), (k2, _)]) => decide (k1 = "error") && decide (k2 = "message")
  | .body _ => false

/-! ## The parts of a market summary -/

/-- The quote object that `fetchMarketSummary` reads the index from: the `Global Quote` of
the payload when it is valid, the mock quote otherwise (lines 298-318). -/
def spxQuoteOf (E : Engine) (rand : Nat → ℚ) (now : Int) (spxData : JsVal) : JsVal :=
  if validSpx spxData then propOf spxData "Global Quote" else mockSpxQuote E rand 0 now

/-- The market breadth of `fetchMarketSummary`: the lengths of the two lists of the payload
when it is valid, the counts of the mock summary otherwise (lines 334-346). -/
def breadthOf (gainerLosersData : JsVal) : MarketBreadth :=
  if validGainersLosers gainerLosersData then
    ⟨orElse (propOf (propOf gainerLosersData "top_gainers") "length") (.num (.fin 0)),
     orElse (propOf (propOf gainerLosersData "top_losers") "length") (.num (.fin 0))⟩
  else ⟨.num (.fin 285), .num (.fin 215)⟩

/-- The sector performance of `fetchMarketSummary`: the ranking of the payload when it is
valid, the list of the mock summary otherwise (lines 362-379). -/
def sectorsOf (E : Engine) (sectorData : JsVal) : Except JsError (List SectorChange) :=
  if validSector sectorData then
    formatSectors E (propOf sectorData "Rank A: Real-Time Performance")
  else .ok mockSectorPerformance

/-- The provenance tag of a part (lines 398-400). -/
def tagOf (valid : Bool) : String :=
  if valid then "Alpha Vantage" else "Mock Data"

/-! ## The record of the top performers as an object -/

/-- The object of an entry: the six properties of the literal of `formatAlphaVantageStock`
and of `generateMockStock`, in their order. -/
def Performer.toObject (p : Performer) : JsVal :=
  .obj [("Symbol", p.Symbol), ("Name", p.Name), ("Price", .num p.Price),
    ("Change", .num p.Change), ("ChangePercent", .num p.ChangePercent),
    ("Volume", .num p.Volume)]

/-- The object returned by `fetchTopPerformers`: the three properties of the literals of
lines 518-522 and 598-602. -/
def TopPerformers.toObject (r : TopPerformers) : JsVal :=
  .obj [("topGainers", .arr (r.topGainers.map Performer.toObject)),
    ("topLosers", .arr (r.topLosers.map Performer.toObject)),
    ("mostActive", .arr (r.mostActive.map Performer.toObject))]

/-! ## The parts of the market capitalisation distribution -/

/-- The object `latestPrices` built from the movers payload (lines 619-629), or the error
thrown while building it. -/
def latestPricesOf (E : Engine) (gainerLosersData : JsVal) : Except JsError LatestPrices :=
  if isNullish gainerLosersData then .error (typeError E)
  else
    match spreadOrEmpty E (propOf gainerLosersData "top_gainers"),
      spreadOrEmpty E (propOf gainerLosersData "top_losers"),
      spreadOrEmpty E (propOf gainerLosersData "most_actively_traded") with
    | .ok gainers, .ok losers, .ok active => collectPrices E (gainers ++ losers ++ active) []
    | _, _, _ => .error (typeError E)

/-- The sum of the five counts. -/
def Categories.total (c : Categories) : Nat :=
  c.megaCap + c.largeCap + c.midCap + c.smallCap + c.microCap

/-! ## An engine for evaluating the definitions

`sampleEngine` follows ECMAScript on the inputs named at each of its parts, and is used to
run the definitions on concrete inputs. The theorems do not depend on it: they hold for
every engine. -/

/-- The longest run of decimal digits at the front of a list, and the rest. -/
def takeDigits : List Char → List Char × List Char
  | [] => ([], [])
  | c :: cs =>
    if c.isDigit then ((takeDigits cs).1.cons c, (takeDigits cs).2) else ([], c :: cs)

/-- The number written by a list of decimal digits. -/
def digitsValue (ds : List Char) : Nat :=
  ds.foldl (fun n c => 10 * n + (c.toNat - 48)) 0

/-- The text without its leading blanks. -/
def skipBlanks : List Char → List Char
  | [] => []
  | c :: cs => if c.isWhitespace then skipBlanks cs else c :: cs

/-- An optional sign at the front of a list: whether it is a minus, and the rest. -/
def takeSign : List Char → Bool × List Char
  | '-' :: cs => (true, cs)
  | '+' :: cs => (false, cs)
  | cs => (false, cs)

/-- The number read by `parseFloat` from a text that starts, after blanks, with a decimal
literal without exponent (`12`, `-3.5`, `.5`); `NaN` when it does not. -/
def readDecimal (s : String) : JsNum :=
  let (neg, cs) := takeSign (skipBlanks s.data)
  let (ip, rest) := takeDigits cs
  let fp := match rest with
    | '.' :: more => (takeDigits more).1
    | _ => []
  if ip.isEmpty && fp.isEmpty then .nan
  else
    let q : ℚ := (digitsValue ip : ℚ) + (digitsValue fp : ℚ) / (10 : ℚ) ^ fp.length
    .fin (if neg then -q else q)

/-- The number read by `parseInt(s, 10)` from a text that starts, after blanks, with an
optionally signed run of digits; `NaN` when it does not. -/
def readInteger (s : String) : JsNum :=
  let (neg, cs) := takeSign (skipBlanks s.data)
  let ip := (takeDigits cs).1
  if ip.isEmpty then .nan
  else .fin (if neg then -(digitsValue ip : ℚ) else (digitsValue ip : ℚ))

/-- The number of days from 1970-01-01 to the given day of the proleptic Gregorian
calendar. -/
def daysFromCivil (y m d : Int) : Int :=
  let y := if m ≤ 2 then y - 1 else y
  let era := y / 400
  let yoe := y - era * 400
  let doy := (153 * (if m > 2 then m - 3 else m + 9) + 2) / 5 + d - 1
  let doe := yoe * 365 + yoe / 4 - yoe / 100 + doy
  era * 146097 + doe - 719468

/-- The year, month and day of the given number of days from 1970-01-01. -/
def civilFromDays (z : Int) : Int × Int × Int :=
  let z := z + 719468
  let era := z / 146097
  let doe := z - era * 146097
  let yoe := (doe - doe / 1460 + doe / 36524 - doe / 146096) / 365
  let doy := doe - (365 * yoe + yoe / 4 - yoe / 100)
  let mp := (5 * doy + 2) / 153
  let d := doy - (153 * mp + 2) / 5 + 1
  let m := if mp < 10 then mp + 3 else mp - 9
  (if m ≤ 2 then yoe + era * 400 + 1 else yoe + era * 400, m, d)

/-- The number of days of a month. -/
def daysInMonth (y m : Int) : Int :=
  if m = 2 then (if y % 4 = 0 ∧ (y % 100 ≠ 0 ∨ y % 400 = 0) then 29 else 28)
  else if m = 4 ∨ m = 6 ∨ m = 9 ∨ m = 11 then 30 else 31

/-- The time value of a date-only text of the ECMAScript date format, `YYYY`, `YYYY-MM` or
`YYYY-MM-DD` (read as UTC midnight); `none` for every other text. -/
def isoDateMs (s : String) : Option Int :=
  let isNum (cs : List Char) (n : Nat) : Bool := cs.length = n && cs.all Char.isDigit
  match s.data.splitOn '-' with
  | [y] => if isNum y 4 then some (daysFromCivil (digitsValue y) 1 1 * 86400000) else none
  | [y, m] =>
    if isNum y 4 && isNum m 2 && 1 ≤ digitsValue m && digitsValue m ≤ 12
    then some (daysFromCivil (digitsValue y) (digitsValue m) 1 * 86400000) else none
  | [y, m, d] =>
    if isNum y 4 && isNum m 2 && isNum d 2 && 1 ≤ digitsValue m && digitsValue m ≤ 12
      && 1 ≤ digitsValue d && (digitsValue d : Int) ≤ daysInMonth (digitsValue y) (digitsValue m)
    then some (daysFromCivil (digitsValue y) (digitsValue m) (digitsValue d) * 86400000)
    else none
  | _ => none

/-- The decimal digits of `n`, padded with zeros on the left to `w` characters. -/
def padDigits (w : Nat) (n : Nat) : String :=
  let ds := toString n
  ⟨List.replicate (w - ds.length) '0'⟩ ++ ds

/-- The text `YYYY-MM-DD` of the UTC day of a time value (years 0000 to 9999). -/
def isoDayText (ms : Int) : String :=
  let (y, m, d) := civilFromDays (ms / 86400000)
  padDigits 4 y.toNat ++ "-" ++ padDigits 2 m.toNat ++ "-" ++ padDigits 2 d.toNat

/-- The text of `toISOString()` of a time value (years 0000 to 9999). -/
def isoStringText (ms : Int) : String :=
  let r := (ms % 86400000).toNat
  isoDayText ms ++ "T" ++ padDigits 2 (r / 3600000) ++ ":" ++ padDigits 2 (r / 60000 % 60)
    ++ ":" ++ padDigits 2 (r / 1000 % 60) ++ "." ++ padDigits 3 (r % 1000) ++ "Z"

/-- The text of `n.toFixed(d)`: the nearest decimal with `d` fraction digits, ties away from
zero. -/
def toFixedText (n : JsNum) (d : Nat) : String :=
  match n with
  | .nan => "NaN"
  | .inf neg => if neg then "-Infinity" else "Infinity"
  | .fin q =>
    let scaled : Nat := (Rat.floor (|q| * (10 : ℚ) ^ d + 1 / 2)).toNat
    let ip := toString (scaled / 10 ^ d)
    let body := if d = 0 then ip else ip ++ "." ++ padDigits d (scaled % 10 ^ d)
    if q < 0 then "-" ++ body else body

/-- The text of `n.toString()` for an integer of moderate size; other finite values are
written with six fraction digits. -/
def numText (n : JsNum) : String :=
  match n with
  | .fin q => if q.den = 1 then toString q.num else toFixedText n 6
  | _ => toFixedText n 0

mutual
/-- The conversion `String(v)`. -/
def valueText : JsVal → String
  | .undefined => "undefined"
  | .null => "null"
  | .bool b => if b then "true" else "false"
  | .num n => numText n
  | .str s => s
  | .arr xs => joinText xs
  | .obj _ => "[object Object]"
/-- The method `join` of an array, with the comma as separator. -/
def joinText : List JsVal → String
  | [] => ""
  | x :: rest =>
    (match x with
      | .undefined => ""
      | .null => ""
      | v => valueText v)
    ++ (match rest with
      | [] => ""
      | more => "," ++ joinText more)
end

/-- The number read from a value by `parseFloat`: a text is read by `readDecimal`, a number
is itself, everything else is `NaN`. -/
def sampleParseFloat : JsVal → JsNum
  | .str s => readDecimal s
  | .num n => n
  | _ => .nan

/-- The number read from a value by `parseInt`: a text is read by `readInteger`, a finite
number is cut to its integer part, everything else is `NaN`. -/
def sampleParseInt : JsVal → JsNum
  | .str s => readInteger s
  | .num (.fin q) => .fin (if q < 0 then -(Rat.floor (-q) : ℚ) else (Rat.floor q : ℚ))
  | _ => .nan

/-- An engine for evaluation: decimal literals, date-only texts, ASCII lower case, UTC as
the local time zone. -/
def sampleEngine : Engine where
  parseFloat := sampleParseFloat
  parseInt10 := sampleParseInt
  parseIntAuto := sampleParseInt
  dateMs := isoDateMs
  toStr := valueText
  typeErrorText := "TypeError"
  toLowerCase := fun s => s.map Char.toLower
  numToString := numText
  toFixed := toFixedText
  isoDay := isoDayText
  isoString := isoStringText
  minusDays := fun ms i => ms - 86400000 * i

/-! ## Sample inputs -/

/-- An entry of a time series with the five provider fields. -/
def sampleEntry (date : String) (o h l c v : String) : String × JsVal :=
  (date, .obj [("1. open", .str o), ("2. high", .str h), ("3. low", .str l),
    ("4. close", .str c), ("5. volume", .str v)])

/-- A daily payload with two entries, the newer one first. -/
def sampleDaily : List (String × JsVal) :=
  [("Meta Data", .obj [("2. Symbol", .str "IBM")]),
   ("Time Series (Daily)", .obj [sampleEntry "2024-01-03" "10" "12" "9" "11" "1000",
                                 sampleEntry "2024-01-02" "8" "10" "7" "9" "900"])]

/-- A daily payload whose two keys, `2024-01-01` and `2024-01`, are different texts of
the date format that name the same instant. -/
def sampleSameInstant : List (String × JsVal) :=
  [("Time Series (Daily)", .obj [sampleEntry "2024-01-01" "10" "12" "9" "11" "1000",
                                 sampleEntry "2024-01" "8" "10" "7" "9" "900"])]

/-- The body that the proxy sends with status 500. -/
def sampleProxyFailure : JsVal :=
  .obj [("error", .str "Failed to fetch data from Alpha Vantage"),
        ("message", .str "Alpha Vantage API call frequency exceeded. Please try again later.")]

/-- A news payload whose only item has a publication time and nothing else. -/
def sampleNewsWithoutTitle : JsVal :=
  .obj [("feed", .arr [.obj [("time_published", .str "20240102T103000")]])]

/-- A movers payload whose only gainer has a percentage and nothing else. -/
def sampleMoversWithoutTicker : JsVal :=
  .obj [("top_gainers", .arr [.obj [("change_percentage", .str "1.5%")]]),
        ("top_losers", .arr []), ("most_actively_traded", .arr [])]

/-! ## An engine in a zone with daylight saving time

The sample zone is one hour ahead of UTC and moves to two hours ahead at
2024-03-31T01:00Z, as Central European Time does; the way back in autumn is not
represented. -/

/-- The time at which the sample zone moves its clocks forward: 2024-03-31T01:00Z. -/
def dstStart : Int := 1711846800000

/-- The offset of local time from UTC at a time value (`LocalTZA(t, true)`). -/
def zoneOffset (t : Int) : Int :=
  if dstStart ≤ t then 7200000 else 3600000

/-- The offset that applies to a local time value (`LocalTZA(t, false)`): the hour skipped
at the transition is read with the offset in force before it. -/
def zoneOffsetOfLocal (l : Int) : Int :=
  if dstStart + 7200000 ≤ l then 7200000 else 3600000

/-- The time of `d` after `d.setDate(d.getDate() - i)` in the sample zone: the local
calendar day moves back by `i`, the local time of the day is kept, and the result is
converted back to UTC. -/
def zoneMinusDays (t : Int) (i : Nat) : Int :=
  (t + zoneOffset t - 86400000 * i) - zoneOffsetOfLocal (t + zoneOffset t - 86400000 * i)

/-- The engine of `sampleEngine` with the sample zone as the local time zone. -/
def zoneEngine : Engine :=
  { sampleEngine with minusDays := zoneMinusDays }

/-- Draws that are all `0` but the third one, which is one half: in the first round of
`generateMockHistoricalData` the draw for the open is one half and the draw for the low
is `0`. -/
def sampleDrawsOpenLow : Nat → ℚ :=
  fun n => if n = 2 then 1 / 2 else 0

/-! ## Sample payloads of the market summary -/

/-- A quote payload whose price lies above its high. -/
def sampleQuoteAboveHigh : JsVal :=
  .obj [("Global Quote", .obj [("01. symbol", .str "^GSPC"), ("02. open", .str "3950"),
    ("03. high", .str "4000"), ("04. low", .str "3900"), ("05. price", .str "4100"),
    ("06. volume", .str "1000"), ("08. previous close", .str "3940"),
    ("09. change", .str "160"), ("10. change percent", .str "4.0609%")])]

/-- The network on which the quote request is answered with `sampleQuoteAboveHigh` and the
other two requests fail. -/
def sampleFetchAboveHigh (url : String) : FetchResult :=
  if url = spxUrl then .body sampleQuoteAboveHigh else .rejected

/-- A quote payload of a day on which the index did not move: the change and the percent
change are `0`. -/
def sampleQuoteUnchanged : JsVal :=
  .obj [("Global Quote", .obj [("01. symbol", .str "^GSPC"), ("02. open", .str "4500.0000"),
    ("03. high", .str "4510.0000"), ("04. low", .str "4490.0000"),
    ("05. price", .str "4500.0000"), ("06. volume", .str "1000"),
    ("08. previous close", .str "4500.0000"), ("09. change", .str "0.0000"),
    ("10. change percent", .str "0.0000%")])]

/-- The network on which the quote request is answered with `sampleQuoteUnchanged` and the
other two requests fail. -/
def sampleFetchUnchanged (url : String) : FetchResult :=
  if url = spxUrl then .body sampleQuoteUnchanged else .rejected

/-- The network of `sampleFetchAboveHigh` with a sector ranking whose change is a text. -/
def sampleFetchSectorText (url : String) : FetchResult :=
  if url = spxUrl then .body sampleQuoteAboveHigh
  else if url = sectorUrl then
    .body (.obj [("Rank A: Real-Time Performance", .obj [("Energy", .str "1.5%")])])
  else .rejected

/-- The network of `sampleFetchSectorText` with the change of the ranking written as a
number instead of a text. -/
def sampleFetchSectorNumber (url : String) : FetchResult :=
  if url = spxUrl then .body sampleQuoteAboveHigh
  else if url = sectorUrl then
    .body (.obj [("Rank A: Real-Time Performance", .obj [("Energy", .num (.fin (3 / 2)))])])
  else .rejected

/-- The note with which the provider answers a request over its rate limit. -/
def sampleRateLimitNote : String :=
  "Thank you for using Alpha Vantage! Our standard API call frequency is 5 calls per minute."

/-- The provider that answers every request with the rate-limit note. -/
def sampleNetRateLimited (_ : String) : Upstream :=
  .response (.obj [("Information", .str sampleRateLimitNote)])

/-! ## Sample payloads of the top performers -/

/-- A movers payload whose only gainer has a negative change. -/
def sampleMoversFallingGainer : JsVal :=
  .obj [("top_gainers", .arr [.obj [("ticker", .str "ABC"), ("price", .str "10.5"),
      ("change_amount", .str "-1.5"), ("change_percentage", .str "-12.5%"),
      ("volume", .str "1000")]]),
    ("top_losers", .arr []), ("most_actively_traded", .arr [])]

/-! ## Sample draws of the mock profile -/

/-- Draws that are all `0` but the eighth one, which is nine tenths: in
`generateMockCompanyProfile` the draw for the 52-week high is `0` and the draw for the
52-week low is nine tenths. -/
def sampleDrawsLowHigh : Nat → ℚ :=
  fun n => if n = 7 then 9 / 10 else 0

/-! ## Sample payloads of the company profile and the news -/

/-- A profile payload whose description is the empty text. -/
def sampleProfileEmptyDescription : JsVal :=
  .obj [("Symbol", .str "IBM"), ("Description", .str ""), ("Industry", .str "Software")]

/-- A news payload with two items. -/
def sampleNewsFeed : JsVal :=
  .obj [("feed", .arr [
    .obj [("title", .str "IBM beats estimates"), ("time_published", .str "20240102T103000"),
      ("source", .str "Reuters"), ("url", .str "https://example.com/a"),
      ("summary", .str "Earnings"), ("overall_sentiment_label", .str "Bullish")],
    .obj [("title", .str "IBM note"), ("time_published", .str "2024"),
      ("source", .str "CNBC"), ("url", .str "https://example.com/b"),
      ("summary", .str "Note"), ("overall_sentiment_label", .str "Neutral")]])]

/-! ## Sample payloads of the sector ranking -/

/-- A sector payload with four sectors, one of them with the prefix `GICS ` and one of them
`Information Technology`. -/
def sampleSectorRanking : JsVal :=
  .obj [("Rank A: Real-Time Performance", .obj [("Utilities", .str "-0.50%"),
    ("Information Technology", .str "1.20%"), ("GICS Energy", .str "2.10%"),
    ("Financials", .str "0.30%")])]

/-- The network on which the sector request is answered with `sampleSectorRanking` and the
other two requests fail. -/
def sampleFetchSectorRanking (url : String) : FetchResult :=
  if url = sectorUrl then .body sampleSectorRanking else .rejected

/-- The network on which the sector request is answered with a ranking of three sectors,
the first with a change that is not a number, and the other two requests fail. -/
def sampleFetchSectorUnreadable (url : String) : FetchResult :=
  if url = sectorUrl then
    .body (.obj [("Rank A: Real-Time Performance", .obj [("Energy", .str "N/A"),
      ("Utilities", .str "1.00%"), ("Financials", .str "2.00%")])])
  else .rejected

/-! ## Sample payloads of the market capitalisation distribution -/

/-- The network on which the financials request is answered with the given records and the
movers request with three empty lists, so that no record has a live quote. -/
def sampleFetchFinancials (stocks : List JsVal) (url : String) : FetchResult :=
  if url = "/api/financials" then .body (.arr stocks)
  else .body (.obj [("top_gainers", .arr []), ("top_losers", .arr []),
    ("most_actively_traded", .arr [])])

/-- A financial record with a symbol, a stored price and a stored market capitalisation. -/
def sampleStock (symbol price marketCap : String) : JsVal :=
  .obj [("Symbol", .str symbol), ("Price", .str price), ("Market Cap", .str marketCap)]

/-- A financial record with a market capitalisation of five billion and no price. -/
def sampleStockWithoutPrice : JsVal :=
  .obj [("Symbol", .str "ABC"), ("Market Cap", .str "5000000000")]

/-- A financial record whose price is an object with a property `toString`. -/
def sampleStockUnreadable : JsVal :=
  .obj [("Symbol", .str "ABC"), ("Price", .obj [("toString", .num (.fin 1))]),
    ("Market Cap", .str "5000000000")]

/-- A profile payload whose P/E ratio is an object with a property `toString`. -/
def sampleProfileUnreadable : JsVal :=
  .obj [("Symbol", .str "IBM"), ("PERatio", .obj [("toString", .num (.fin 1))])]

/-- The network on which the request for the daily series of `IBM` is answered with
`sampleDaily` and every other request is rejected. -/
def sampleFetchDaily (url : String) : FetchResult :=
  if url = "/api/alpha-vantage?function=TIME_SERIES_DAILY&symbol=IBM&outputsize=full" then
    .body (.obj sampleDaily)
  else .rejected

/-! # Theorems -/

/-! ## The proxy cache -/

theorem mapGet_mapSet_same (k : String) (e : CacheEntry) (c : Cache) :
    mapGet k (mapSet k e c) = some e := by
  induction c with
  | nil => simp [mapSet, mapGet]
  | cons hd tl ih =>
    obtain ⟨k', e'⟩ := hd
    by_cases h : k' = k
    · simp [mapSet, mapGet, h]
    · simp [mapSet, mapGet, h, ih]

theorem mapGet_mapSet_ne (k k' : String) (e : CacheEntry) (c : Cache) (h : k' ≠ k) :
    mapGet k (mapSet k' e c) = mapGet k c := by
  induction c with
  | nil => simp [mapSet, mapGet, h]
  | cons hd tl ih =>
    obtain ⟨k'', e''⟩ := hd
    by_cases h1 : k'' = k'
    · subst h1
      simp [mapSet, mapGet, h]
    · by_cases h2 : k'' = k
      · subst h2
        simp [mapSet, mapGet, h1]
      · simp [mapSet, mapGet, h1, h2, ih]

theorem refresh_failure (E : Engine) (net : String → Upstream) (cache : Cache) (q : Query)
    (func : String) (t : Int) (err : JsError)
    (h : net (providerUrl func q) = .failure err) :
    refresh E net cache q func t = ⟨errorReply err, cache, some (providerUrl func q)⟩ := by
  simp [refresh, h]

theorem refresh_rejected (E : Engine) (net : String → Upstream) (cache : Cache) (q : Query)
    (func : String) (t : Int) (data : JsVal) (err : JsError)
    (h : net (providerUrl func q) = .response data)
    (hc : checkResponse E func data = .error err) :
    refresh E net cache q func t = ⟨errorReply err, cache, some (providerUrl func q)⟩ := by
  simp [refresh, h, hc]

theorem refresh_accepted (E : Engine) (net : String → Upstream) (cache : Cache) (q : Query)
    (func : String) (t : Int) (data : JsVal)
    (h : net (providerUrl func q) = .response data)
    (hc : checkResponse E func data = .ok ()) :
    refresh E net cache q func t =
      ⟨⟨200, data⟩, mapSet (jsonStringifyQuery q) ⟨t, data⟩ cache,
        some (providerUrl func q)⟩ := by
  simp [refresh, h, hc]

theorem refresh_requested (E : Engine) (net : String → Upstream) (cache : Cache) (q : Query)
    (func : String) (t : Int) :
    (refresh E net cache q func t).requested = some (providerUrl func q) := by
  cases h : net (providerUrl func q) with
  | failure err => rw [refresh_failure E net cache q func t err h]
  | response data =>
    cases hc : checkResponse E func data with
    | error err => rw [refresh_rejected E net cache q func t data err h hc]
    | ok u => cases u; rw [refresh_accepted E net cache q func t data h hc]

theorem refresh_status (E : Engine) (net : String → Upstream) (cache : Cache) (q : Query)
    (func : String) (t : Int) :
    (refresh E net cache q func t).reply.status = 200 ∨
    (refresh E net cache q func t).reply.status = 500 := by
  cases h : net (providerUrl func q) with
  | failure err => rw [refresh_failure E net cache q func t err h]; right; rfl
  | response data =>
    cases hc : checkResponse E func data with
    | error err => rw [refresh_rejected E net cache q func t data err h hc]; right; rfl
    | ok u => cases u; rw [refresh_accepted E net cache q func t data h hc]; left; rfl

theorem proxy_of_function (E : Engine) (net : String → Upstream) (cache : Cache) (q : Query)
    (t1 t2 : Int) (func : String) (hf : queryParam "function" q = some func)
    (hne : func ≠ "") :
    alphaVantageProxy E net cache q t1 t2 =
      match mapGet (jsonStringifyQuery q) cache with
      | some cached =>
        if t1 - cached.timestamp < CACHE_DURATION then ⟨⟨200, cached.data⟩, cache, none⟩
        else refresh E net cache q func t2
      | none => refresh E net cache q func t2 := by
  simp [alphaVantageProxy, hf, hne]

theorem proxy_no_function (E : Engine) (net : String → Upstream) (cache : Cache) (q : Query)
    (t1 t2 : Int) (h : queryParam "function" q = none ∨ queryParam "function" q = some "") :
    alphaVantageProxy E net cache q t1 t2 =
      ⟨⟨400, .obj [("error", .str "Function parameter is required")]⟩, cache, none⟩ := by
  rcases h with h | h <;> simp [alphaVantageProxy, h]

theorem proxy_status_of_function (E : Engine) (net : String → Upstream) (cache : Cache)
    (q : Query) (t1 t2 : Int) (func : String) (hf : queryParam "function" q = some func)
    (hne : func ≠ "") :
    (alphaVantageProxy E net cache q t1 t2).reply.status = 200 ∨
    (alphaVantageProxy E net cache q t1 t2).reply.status = 500 := by
  rw [proxy_of_function E net cache q t1 t2 func hf hne]
  cases mapGet (jsonStringifyQuery q) cache with
  | none => exact refresh_status E net cache q func t2
  | some cached =>
    by_cases hfresh : t1 - cached.timestamp < CACHE_DURATION
    · simp [hfresh]
    · simpa [hfresh] using refresh_status E net cache q func t2

/-- Claim C7. The proxy answers with status 400 exactly when the `function` parameter is
missing or empty; in that case it issues no upstream call, leaves the cache as it was, and
its reply is the same whatever the cache holds and whatever the provider would answer. -/
theorem proxy_bad_request_iff (E : Engine) (net : String → Upstream) (cache : Cache)
    (q : Query) (t1 t2 : Int) :
    ((alphaVantageProxy E net cache q t1 t2).reply.status = 400 ↔
      (queryParam "function" q = none ∨ queryParam "function" q = some "")) ∧
    ((queryParam "function" q = none ∨ queryParam "function" q = some "") →
      (alphaVantageProxy E net cache q t1 t2).requested = none ∧
      (alphaVantageProxy E net cache q t1 t2).cache = cache ∧
      ∀ (net' : String → Upstream) (cache' : Cache) (t1' t2' : Int),
        (alphaVantageProxy E net' cache' q t1' t2').reply =
          (alphaVantageProxy E net cache q t1 t2).reply) := by
  refine ⟨⟨fun hs => ?_, fun h => ?_⟩, fun h => ?_⟩
  · cases hf : queryParam "function" q with
    | none => exact Or.inl rfl
    | some func =>
      by_cases hne : func = ""
      · exact Or.inr (by rw [hne])
      · rcases proxy_status_of_function E net cache q t1 t2 func hf hne with h2 | h5
        · rw [h2] at hs; exact absurd hs (by decide)
        · rw [h5] at hs; exact absurd hs (by decide)
  · rw [proxy_no_function E net cache q t1 t2 h]
  · refine ⟨?_, ?_, fun net' cache' t1' t2' => ?_⟩
    · rw [proxy_no_function E net cache q t1 t2 h]
    · rw [proxy_no_function E net cache q t1 t2 h]
    · rw [proxy_no_function E net cache q t1 t2 h, proxy_no_function E net' cache' q t1' t2' h]

/-- Witness: a request with a symbol and no function. -/
theorem proxy_bad_request_witness :
    (queryParam "function" [("symbol", "IBM")] = none ∨
      queryParam "function" [("symbol", "IBM")] = some "") ∧
    (alphaVantageProxy sampleEngine (fun _ => .response .null) [] [("symbol", "IBM")] 0 0).requested
      = none :=
  ⟨Or.inl (by decide),
    ((proxy_bad_request_iff sampleEngine (fun _ => .response .null) [] [("symbol", "IBM")] 0 0).2
      (Or.inl (by decide))).1⟩

theorem proxy_hit (E : Engine) (net : String → Upstream) (cache : Cache) (q : Query)
    (t1 t2 : Int) (func : String) (hf : queryParam "function" q = some func)
    (hne : func ≠ "") (e : CacheEntry) (he : mapGet (jsonStringifyQuery q) cache = some e)
    (hfresh : t1 - e.timestamp < CACHE_DURATION) :
    alphaVantageProxy E net cache q t1 t2 = ⟨⟨200, e.data⟩, cache, none⟩ := by
  rw [proxy_of_function E net cache q t1 t2 func hf hne, he]
  simp [hfresh]

theorem proxy_stale (E : Engine) (net : String → Upstream) (cache : Cache) (q : Query)
    (t1 t2 : Int) (func : String) (hf : queryParam "function" q = some func)
    (hne : func ≠ "") (e : CacheEntry) (he : mapGet (jsonStringifyQuery q) cache = some e)
    (hstale : CACHE_DURATION ≤ t1 - e.timestamp) :
    alphaVantageProxy E net cache q t1 t2 = refresh E net cache q func t2 := by
  rw [proxy_of_function E net cache q t1 t2 func hf hne, he]
  simp [not_lt.mpr hstale]

theorem proxy_absent (E : Engine) (net : String → Upstream) (cache : Cache) (q : Query)
    (t1 t2 : Int) (func : String) (hf : queryParam "function" q = some func)
    (hne : func ≠ "") (he : mapGet (jsonStringifyQuery q) cache = none) :
    alphaVantageProxy E net cache q t1 t2 = refresh E net cache q func t2 := by
  rw [proxy_of_function E net cache q t1 t2 func hf hne, he]

theorem refresh_cache_cases (E : Engine) (net : String → Upstream) (cache : Cache) (q : Query)
    (func : String) (t : Int) :
    ((refresh E net cache q func t).cache = cache ∧
      (refresh E net cache q func t).reply.status = 500) ∨
    ((refresh E net cache q func t).cache =
        mapSet (jsonStringifyQuery q) ⟨t, (refresh E net cache q func t).reply.body⟩ cache ∧
      (refresh E net cache q func t).reply.status = 200) := by
  cases h : net (providerUrl func q) with
  | failure err => rw [refresh_failure E net cache q func t err h]; left; exact ⟨rfl, rfl⟩
  | response data =>
    cases hc : checkResponse E func data with
    | error err =>
      rw [refresh_rejected E net cache q func t data err h hc]; left; exact ⟨rfl, rfl⟩
    | ok u =>
      cases u; rw [refresh_accepted E net cache q func t data h hc]; right; exact ⟨rfl, rfl⟩

/-- A request never touches the entry of another key, nor a fresh entry of its own key. -/
theorem proxy_preserves_fresh (E : Engine) (net : String → Upstream) (cache : Cache)
    (q : Query) (t1 t2 : Int) (key : String) (e : CacheEntry)
    (he : mapGet key cache = some e) (hfresh : t1 - e.timestamp < CACHE_DURATION) :
    mapGet key (alphaVantageProxy E net cache q t1 t2).cache = some e := by
  cases hf : queryParam "function" q with
  | none => rw [proxy_no_function E net cache q t1 t2 (Or.inl hf)]; exact he
  | some func =>
    by_cases hne : func = ""
    · rw [proxy_no_function E net cache q t1 t2 (Or.inr (by rw [hf, hne]))]; exact he
    · by_cases hk : jsonStringifyQuery q = key
      · rw [proxy_hit E net cache q t1 t2 func hf hne e (by rw [hk]; exact he) hfresh]
        exact he
      · have hcases : (alphaVantageProxy E net cache q t1 t2).cache = cache ∨
            ∃ e', (alphaVantageProxy E net cache q t1 t2).cache =
              mapSet (jsonStringifyQuery q) e' cache := by
          rw [proxy_of_function E net cache q t1 t2 func hf hne]
          have hr := refresh_cache_cases E net cache q func t2
          cases mapGet (jsonStringifyQuery q) cache with
          | none =>
            rcases hr with ⟨h, _⟩ | ⟨h, _⟩
            · exact Or.inl h
            · exact Or.inr ⟨_, h⟩
          | some cached =>
            by_cases hc : t1 - cached.timestamp < CACHE_DURATION
            · left; simp [hc]
            · simp only [hc, if_false]
              rcases hr with ⟨h, _⟩ | ⟨h, _⟩
              · exact Or.inl h
              · exact Or.inr ⟨_, h⟩
        rcases hcases with h | ⟨e', h⟩
        · rw [h]; exact he
        · rw [h, mapGet_mapSet_ne key (jsonStringifyQuery q) e' cache hk]; exact he

theorem runRequests_preserves_fresh (E : Engine) (key : String) (e : CacheEntry)
    (rs : List Request) (cache : Cache) (he : mapGet key cache = some e)
    (hfresh : ∀ r ∈ rs, r.nowCheck - e.timestamp < CACHE_DURATION) :
    mapGet key (runRequests E cache rs) = some e := by
  induction rs generalizing cache with
  | nil => exact he
  | cons r rs ih =>
    simp only [runRequests]
    apply ih
    · exact proxy_preserves_fresh E r.net cache r.query r.nowCheck r.nowStore key e he
        (hfresh r (List.mem_cons_self r rs))
    · intro r' hr'
      exact hfresh r' (List.mem_cons_of_mem r hr')

/-- A request answered from the provider with status 200 has a non-empty `function`, and its
payload is stored under its key with the time of the store. -/
theorem proxy_success_stores (E : Engine) (net : String → Upstream) (cache : Cache)
    (q : Query) (t1 t2 : Int)
    (hcall : (alphaVantageProxy E net cache q t1 t2).requested ≠ none)
    (hok : (alphaVantageProxy E net cache q t1 t2).reply.status = 200) :
    (∃ func, queryParam "function" q = some func ∧ func ≠ "") ∧
    mapGet (jsonStringifyQuery q) (alphaVantageProxy E net cache q t1 t2).cache =
      some ⟨t2, (alphaVantageProxy E net cache q t1 t2).reply.body⟩ := by
  cases hf : queryParam "function" q with
  | none =>
    rw [proxy_no_function E net cache q t1 t2 (Or.inl hf)] at hcall
    exact absurd rfl hcall
  | some func =>
    by_cases hne : func = ""
    · rw [proxy_no_function E net cache q t1 t2 (Or.inr (by rw [hf, hne]))] at hcall
      exact absurd rfl hcall
    · refine ⟨⟨func, rfl, hne⟩, ?_⟩
      have key : alphaVantageProxy E net cache q t1 t2 = refresh E net cache q func t2 := by
        cases he : mapGet (jsonStringifyQuery q) cache with
        | none => exact proxy_absent E net cache q t1 t2 func hf hne he
        | some e =>
          by_cases hfresh : t1 - e.timestamp < CACHE_DURATION
          · rw [proxy_hit E net cache q t1 t2 func hf hne e he hfresh] at hcall
            exact absurd rfl hcall
          · exact proxy_stale E net cache q t1 t2 func hf hne e he (not_lt.mp hfresh)
      rw [key] at hok ⊢
      rcases refresh_cache_cases E net cache q func t2 with ⟨_, h5⟩ | ⟨hc, _⟩
      · rw [h5] at hok; exact absurd hok (by decide)
      · rw [hc]; exact mapGet_mapSet_same _ _ _

theorem truthy_undefined : truthy .undefined = false := rfl

theorem checkResponse_error_of_failure (E : Engine) (func : String)
    (kvs : List (String × JsVal))
    (h : providerFailure func (.response (.obj kvs)) = true) :
    ∃ err, checkResponse E func (.obj kvs) = .error err := by
  simp only [providerFailure, Bool.or_eq_true, Bool.and_eq_true, decide_eq_true_eq] at h
  have hobj : (truthy (.obj kvs) && typeofObject (.obj kvs)) = true := rfl
  simp only [checkResponse, hobj, if_true, getProp, isNullish, Bool.false_eq_true, if_false,
    propOf]
  by_cases hem : truthy ((lookupKey "Error Message" kvs).getD .undefined) = true
  · exact ⟨⟨none, E.toStr ((lookupKey "Error Message" kvs).getD .undefined)⟩,
      by simp only [hem, if_true]⟩
  · simp only [hem, Bool.false_eq_true, false_or, if_false] at h ⊢
    rcases h with h | ⟨hf, hr⟩
    · cases hi : lookupKey "Information" kvs with
      | none => rw [hi] at h; simp at h
      | some info =>
        rw [hi] at h
        cases info with
        | str s =>
          simp only at h
          by_cases hs : truthy (.str s) = true
          · exact ⟨⟨none, "Alpha Vantage API call frequency exceeded. Please try again later."⟩,
              by simp [hs, includesStr, h]⟩
          · have : s = "" := by simpa [truthy] using hs
            subst this
            simp [occursIn] at h
        | _ => simp at h
    · cases hinc : (if truthy ((lookupKey "Information" kvs).getD .undefined) = true
          then includesStr E ((lookupKey "Information" kvs).getD .undefined)
            "API call frequency" else .ok false) with
      | error e => exact ⟨e, rfl⟩
      | ok b =>
        cases b with
        | true => exact ⟨_, rfl⟩
        | false =>
          have hrank : lookupKey "Rank A: Real-Time Performance" kvs = none := by
            simpa using hr
          exact ⟨⟨none, "Invalid sector data structure received from Alpha Vantage"⟩,
            by simp [hf, hrank, truthy_undefined]⟩

/-- A request that issued an upstream call has a non-empty `function` and took the path of a
cache miss. -/
theorem proxy_requested_refresh (E : Engine) (net : String → Upstream) (cache : Cache)
    (q : Query) (t1 t2 : Int)
    (hcall : (alphaVantageProxy E net cache q t1 t2).requested ≠ none) :
    ∃ func, queryParam "function" q = some func ∧ func ≠ "" ∧
      alphaVantageProxy E net cache q t1 t2 = refresh E net cache q func t2 := by
  cases hf : queryParam "function" q with
  | none =>
    rw [proxy_no_function E net cache q t1 t2 (Or.inl hf)] at hcall
    exact absurd rfl hcall
  | some func =>
    by_cases hne : func = ""
    · rw [proxy_no_function E net cache q t1 t2 (Or.inr (by rw [hf, hne]))] at hcall
      exact absurd rfl hcall
    · refine ⟨func, rfl, hne, ?_⟩
      cases he : mapGet (jsonStringifyQuery q) cache with
      | none => exact proxy_absent E net cache q t1 t2 func hf hne he
      | some e =>
        by_cases hfresh : t1 - e.timestamp < CACHE_DURATION
        · rw [proxy_hit E net cache q t1 t2 func hf hne e he hfresh] at hcall
          exact absurd rfl hcall
        · exact proxy_stale E net cache q t1 t2 func hf hne e he (not_lt.mp hfresh)

/-- Claim C4, amended. Let a request with parameters `q` be answered from the provider with
status 200, its payload being stored at time `t`. Then, after any further requests checked
less than thirty minutes after `t`, a request with the same parameters checked at `t'`
with `t' - t` below thirty minutes is answered with the stored payload, without an upstream
call and without a change of the cache; and one checked thirty minutes or more after `t`
issues a new upstream call, whose payload replaces the entry when that call succeeds, the
cache staying as it was when it fails. -/
theorem cache_ttl (E : Engine) (net : String → Upstream) (c0 : Cache) (q : Query)
    (t0 t : Int) (between : List Request) (net' : String → Upstream) (t' t'' : Int)
    (hcall : (alphaVantageProxy E net c0 q t0 t).requested ≠ none)
    (hok : (alphaVantageProxy E net c0 q t0 t).reply.status = 200)
    (hbetween : ∀ r ∈ between, r.nowCheck - t < CACHE_DURATION) :
    (t' - t < CACHE_DURATION →
      alphaVantageProxy E net' (runRequests E (alphaVantageProxy E net c0 q t0 t).cache between)
          q t' t'' =
        ⟨⟨200, (alphaVantageProxy E net c0 q t0 t).reply.body⟩,
          runRequests E (alphaVantageProxy E net c0 q t0 t).cache between, none⟩) ∧
    (CACHE_DURATION ≤ t' - t →
      (∃ func, queryParam "function" q = some func ∧
        (alphaVantageProxy E net' (runRequests E (alphaVantageProxy E net c0 q t0 t).cache between)
          q t' t'').requested = some (providerUrl func q)) ∧
      ((alphaVantageProxy E net' (runRequests E (alphaVantageProxy E net c0 q t0 t).cache between)
          q t' t'').reply.status = 200 →
        mapGet (jsonStringifyQuery q)
          (alphaVantageProxy E net' (runRequests E (alphaVantageProxy E net c0 q t0 t).cache between)
            q t' t'').cache =
          some ⟨t'', (alphaVantageProxy E net'
            (runRequests E (alphaVantageProxy E net c0 q t0 t).cache between) q t' t'').reply.body⟩) ∧
      ((alphaVantageProxy E net' (runRequests E (alphaVantageProxy E net c0 q t0 t).cache between)
          q t' t'').reply.status ≠ 200 →
        (alphaVantageProxy E net' (runRequests E (alphaVantageProxy E net c0 q t0 t).cache between)
          q t' t'').cache = runRequests E (alphaVantageProxy E net c0 q t0 t).cache between)) := by
  obtain ⟨⟨func, hf, hne⟩, hstored⟩ := proxy_success_stores E net c0 q t0 t hcall hok
  have hentry := runRequests_preserves_fresh E (jsonStringifyQuery q)
    ⟨t, (alphaVantageProxy E net c0 q t0 t).reply.body⟩ between
    (alphaVantageProxy E net c0 q t0 t).cache hstored hbetween
  refine ⟨fun hfresh => ?_, fun hstale => ?_⟩
  · exact proxy_hit E net' _ q t' t'' func hf hne _ hentry hfresh
  · rw [proxy_stale E net' _ q t' t'' func hf hne _ hentry hstale]
    refine ⟨⟨func, hf, refresh_requested E net' _ q func t''⟩, fun h200 => ?_, fun hn => ?_⟩
    · rcases refresh_cache_cases E net' (runRequests E (alphaVantageProxy E net c0 q t0 t).cache
        between) q func t'' with ⟨_, h5⟩ | ⟨hc, _⟩
      · rw [h5] at h200; exact absurd h200 (by decide)
      · rw [hc]; exact mapGet_mapSet_same _ _ _
    · rcases refresh_cache_cases E net' (runRequests E (alphaVantageProxy E net c0 q t0 t).cache
        between) q func t'' with ⟨hc, _⟩ | ⟨_, h2⟩
      · exact hc
      · exact absurd h2 hn

/-- Witness: an `OVERVIEW` request stored at time 5 and asked again at time
100, with one request for another symbol in between. -/
theorem cache_ttl_witness :
    (alphaVantageProxy sampleEngine (fun _ => .response (.obj [("Symbol", .str "IBM")])) []
        [("function", "OVERVIEW"), ("symbol", "IBM")] 0 5).requested ≠ none ∧
    (alphaVantageProxy sampleEngine (fun _ => .response (.obj [("Symbol", .str "IBM")])) []
        [("function", "OVERVIEW"), ("symbol", "IBM")] 0 5).reply.status = 200 ∧
    (alphaVantageProxy sampleEngine (fun _ => .failure ⟨none, "down"⟩)
        (runRequests sampleEngine
          (alphaVantageProxy sampleEngine (fun _ => .response (.obj [("Symbol", .str "IBM")])) []
            [("function", "OVERVIEW"), ("symbol", "IBM")] 0 5).cache
          [⟨[("function", "OVERVIEW"), ("symbol", "AAPL")],
            fun _ => .response (.obj [("Symbol", .str "AAPL")]), 50, 60⟩])
        [("function", "OVERVIEW"), ("symbol", "IBM")] 100 101).reply =
      ⟨200, .obj [("Symbol", .str "IBM")]⟩ :=
  ⟨by decide!, by decide!,
    congrArg ProxyResult.reply
      ((cache_ttl sampleEngine (fun _ => .response (.obj [("Symbol", .str "IBM")])) []
        [("function", "OVERVIEW"), ("symbol", "IBM")] 0 5
        [⟨[("function", "OVERVIEW"), ("symbol", "AAPL")],
          fun _ => .response (.obj [("Symbol", .str "AAPL")]), 50, 60⟩]
        (fun _ => .failure ⟨none, "down"⟩) 100 101 (by decide!) (by decide!)
        (by intro r hr; simp only [List.mem_singleton] at hr; subst hr; decide)).1 (by decide))⟩

/-- Counterexample to C4 as stated: an entry stored at time 0 is asked for again at thirty
minutes, the new upstream call fails, and the entry is not replaced: the cache still holds
the payload of time 0. -/
theorem cache_refresh_failure_keeps_entry :
    (alphaVantageProxy sampleEngine (fun _ => .failure ⟨none, "down"⟩)
        [(jsonStringifyQuery [("function", "OVERVIEW")], ⟨0, .obj [("Symbol", .str "IBM")]⟩)]
        [("function", "OVERVIEW")] 1800000 1800001).requested ≠ none ∧
    (alphaVantageProxy sampleEngine (fun _ => .failure ⟨none, "down"⟩)
        [(jsonStringifyQuery [("function", "OVERVIEW")], ⟨0, .obj [("Symbol", .str "IBM")]⟩)]
        [("function", "OVERVIEW")] 1800000 1800001).cache =
      [(jsonStringifyQuery [("function", "OVERVIEW")], ⟨0, .obj [("Symbol", .str "IBM")]⟩)] := by
  decide!

/-- Claim C6, amended. When the proxy issues an upstream call and the outcome is a failure of
the provider (a rejected call; an object whose `Error Message` is truthy; an object whose
`Information` is a text containing `API call frequency`; for `SECTOR`, an object without
`Rank A: Real-Time Performance`), the reply has status 500 and a body made of `error` and
`message`, and the cache is exactly as it was. -/
theorem proxy_failure_reply (E : Engine) (net : String → Upstream) (cache : Cache)
    (q : Query) (t1 t2 : Int) (func : String)
    (hf : queryParam "function" q = some func)
    (hcall : (alphaVantageProxy E net cache q t1 t2).requested ≠ none)
    (hfail : providerFailure func (net (providerUrl func q)) = true) :
    (∃ m, (alphaVantageProxy E net cache q t1 t2).reply =
      ⟨500, .obj [("error", .str "Failed to fetch data from Alpha Vantage"),
                  ("message", .str m)]⟩) ∧
    (alphaVantageProxy E net cache q t1 t2).cache = cache := by
  obtain ⟨func', hf', _, hr⟩ := proxy_requested_refresh E net cache q t1 t2 hcall
  rw [hf] at hf'
  cases hf'
  rw [hr]
  cases hn : net (providerUrl func q) with
  | failure err =>
    rw [refresh_failure E net cache q func t2 err hn]
    exact ⟨⟨_, rfl⟩, rfl⟩
  | response data =>
    rw [hn] at hfail
    cases data with
    | obj kvs =>
      obtain ⟨err, herr⟩ := checkResponse_error_of_failure E func kvs hfail
      rw [refresh_rejected E net cache q func t2 _ err hn herr]
      exact ⟨⟨_, rfl⟩, rfl⟩
    | _ => simp [providerFailure] at hfail

/-- Witness: the rate-limit notice in answer to `SECTOR`. -/
theorem proxy_failure_reply_witness :
    (alphaVantageProxy sampleEngine
        (fun _ => .response (.obj [("Information", .str "Our standard API call frequency is 5")]))
        [] [("function", "SECTOR")] 0 0).cache = [] :=
  (proxy_failure_reply sampleEngine
    (fun _ => .response (.obj [("Information", .str "Our standard API call frequency is 5")]))
    [] [("function", "SECTOR")] 0 0 "SECTOR" (by decide) (by decide!) (by decide!)).2

/-- Counterexample to C6 as stated: a payload whose `Error Message` field is the empty text
is forwarded with status 200 and stored in the cache. -/
theorem proxy_empty_error_message_forwarded :
    (alphaVantageProxy sampleEngine (fun _ => .response (.obj [("Error Message", .str "")]))
        [] [("function", "OVERVIEW")] 0 0).reply = ⟨200, .obj [("Error Message", .str "")]⟩ ∧
    (alphaVantageProxy sampleEngine (fun _ => .response (.obj [("Error Message", .str "")]))
        [] [("function", "OVERVIEW")] 0 0).cache ≠ [] := by
  decide!

/-! ## Sorting -/

theorem insertSorted_perm {α : Type} (cmp : α → α → JsNum) (x : α) (l : List α) :
    (insertSorted cmp x l).Perm (x :: l) := by
  induction l with
  | nil => exact List.Perm.refl _
  | cons y ys ih =>
    by_cases h : (cmp x y).positive = true
    · simp only [insertSorted, h, if_true]
      exact (List.Perm.cons y ih).trans (List.Perm.swap x y ys)
    · simp only [insertSorted, h]
      exact List.Perm.refl _

theorem sortWith_perm {α : Type} (cmp : α → α → JsNum) (l : List α) :
    (sortWith cmp l).Perm l := by
  induction l with
  | nil => exact List.Perm.refl _
  | cons x xs ih =>
    exact (insertSorted_perm cmp x (sortWith cmp xs)).trans (List.Perm.cons x ih)

theorem insertSorted_pairwise {α : Type} (cmp : α → α → JsNum) (key : α → Int) (x : α)
    (l : List α) (hcmp : ∀ b ∈ l, (cmp x b).positive = decide (key b < key x))
    (hl : l.Pairwise (fun a b => key a ≤ key b)) :
    (insertSorted cmp x l).Pairwise (fun a b => key a ≤ key b) := by
  induction l with
  | nil => simp [insertSorted]
  | cons y ys ih =>
    have hy := hcmp y (List.mem_cons_self y ys)
    rw [List.pairwise_cons] at hl
    by_cases h : key y < key x
    · have hp : (cmp x y).positive = true := by rw [hy]; exact decide_eq_true h
      simp only [insertSorted, hp, if_true]
      rw [List.pairwise_cons]
      refine ⟨fun b hb => ?_, ih (fun b hb => hcmp b (List.mem_cons_of_mem y hb)) hl.2⟩
      have hb' : b ∈ x :: ys := (insertSorted_perm cmp x ys).subset hb
      rcases List.mem_cons.mp hb' with rfl | hb''
      · exact le_of_lt h
      · exact hl.1 b hb''
    · have hp : (cmp x y).positive = false := by rw [hy]; exact decide_eq_false h
      simp only [insertSorted, hp, Bool.false_eq_true, if_false]
      have hxy : key x ≤ key y := not_lt.mp h
      rw [List.pairwise_cons]
      refine ⟨fun b hb => ?_, List.pairwise_cons.mpr hl⟩
      rcases List.mem_cons.mp hb with rfl | hb'
      · exact hxy
      · exact le_trans hxy (hl.1 b hb')

theorem sortWith_pairwise {α : Type} (cmp : α → α → JsNum) (key : α → Int) (l : List α)
    (hcmp : ∀ a ∈ l, ∀ b ∈ l, (cmp a b).positive = decide (key b < key a)) :
    (sortWith cmp l).Pairwise (fun a b => key a ≤ key b) := by
  induction l with
  | nil => simp [sortWith]
  | cons x xs ih =>
    simp only [sortWith]
    apply insertSorted_pairwise
    · intro b hb
      exact hcmp x (List.mem_cons_self x xs) b
        (List.mem_cons_of_mem x ((sortWith_perm cmp xs).subset hb))
    · exact ih (fun a ha b hb =>
        hcmp a (List.mem_cons_of_mem x ha) b (List.mem_cons_of_mem x hb))

/-! ## Historical data -/

theorem mockHistoricalLoop_length (E : Engine) (rand : Nat → ℚ) (today : Int)
    (is : List Nat) (price : ℚ) (k : Nat) :
    (mockHistoricalLoop E rand today is price k).length = is.length := by
  induction is generalizing price k with
  | nil => rfl
  | cons i rest ih => simp only [mockHistoricalLoop, List.length_cons, ih]

theorem generateMockHistoricalData_length (E : Engine) (rand : Nat → ℚ) (today : Int)
    (symbol period : String) :
    (generateMockHistoricalData E rand today symbol period).length = mockDays period + 1 := by
  simp [generateMockHistoricalData, mockHistoricalLoop_length]

theorem parsePoint_ok (E : Engine) (entry : String × JsVal) (h : isNullish entry.2 = false) :
    parsePoint E entry = .ok (pointOf E entry) := by
  simp [parsePoint, getProp, h, pointOf]

theorem parsePoints_ok (E : Engine) (entries : List (String × JsVal))
    (h : ∀ e ∈ entries, isNullish e.2 = false) :
    parsePoints E entries = .ok (entries.map (pointOf E)) := by
  induction entries with
  | nil => rfl
  | cons e rest ih =>
    simp only [parsePoints, parsePoint_ok E e (h e (List.mem_cons_self e rest)),
      ih (fun e' he' => h e' (List.mem_cons_of_mem e he')), List.map_cons]

theorem parseHistoricalData_of_series (E : Engine) (kvs : List (String × JsVal)) (fn : String)
    (entries : List (String × JsVal))
    (hkey : lookupKey (timeSeriesKey fn) kvs = some (.obj entries))
    (hvals : ∀ e ∈ entries, isNullish e.2 = false) :
    parseHistoricalData E (.obj kvs) fn =
      .ok (sortWith (compareDates E) (entries.map (pointOf E))) := by
  simp [parseHistoricalData, getProp, isNullish, propOf, hkey, truthy, objectEntries,
    parsePoints_ok E entries hvals]

theorem seriesReadable_absent (kvs : List (String × JsVal)) (fn : String)
    (h : lookupKey (timeSeriesKey fn) kvs = none) : seriesReadable (.obj kvs) fn = true := by
  simp [seriesReadable, propOf, h, objectEntries]

theorem seriesReadable_of_entries (kvs : List (String × JsVal)) (fn : String)
    (entries : List (String × JsVal))
    (hkey : lookupKey (timeSeriesKey fn) kvs = some (.obj entries))
    (h : ∀ e ∈ entries, entryReadable e.2 = true) : seriesReadable (.obj kvs) fn = true := by
  simp only [seriesReadable, propOf, hkey, objectEntries, List.all_eq_true, Bool.or_eq_true]
  exact fun e he => Or.inr (h e he)

theorem entryReadable_not_nullish (values : JsVal) (h : entryReadable values = true) :
    isNullish values = false := by
  simp only [entryReadable, Bool.and_eq_true, Bool.not_eq_true'] at h
  exact h.1

/-- Claim C10, amended. For a payload whose time-series object has `n` entries, each of them
with values that can be read (not `null`, and with the five fields convertible to a string),
`parseHistoricalData` returns exactly `n` points, and they are a rearrangement of the entries
mapped one to one by `pointOf`: the date is the entry's key, open, high, low and close are
read by `parseFloat`, the volume by `parseInt(., 10)`. -/
theorem parseHistoricalData_points (E : Engine) (kvs : List (String × JsVal)) (fn : String)
    (entries : List (String × JsVal))
    (hkey : lookupKey (timeSeriesKey fn) kvs = some (.obj entries))
    (hvals : ∀ e ∈ entries, entryReadable e.2 = true) :
    ∃ points, parseHistoricalData E (.obj kvs) fn = .ok points ∧
      points.length = entries.length ∧ points.Perm (entries.map (pointOf E)) := by
  refine ⟨_, parseHistoricalData_of_series E kvs fn entries hkey
    (fun e he => entryReadable_not_nullish e.2 (hvals e he)), ?_, ?_⟩
  · rw [(sortWith_perm (compareDates E) (entries.map (pointOf E))).length_eq, List.length_map]
  · exact sortWith_perm (compareDates E) (entries.map (pointOf E))

/-- Witness: a daily payload of two entries. -/
theorem parseHistoricalData_points_witness :
    ∃ points, parseHistoricalData sampleEngine (.obj sampleDaily) "TIME_SERIES_DAILY"
        = .ok points ∧
      points.length = 2 ∧
      points.Perm
        ([sampleEntry "2024-01-03" "10" "12" "9" "11" "1000",
          sampleEntry "2024-01-02" "8" "10" "7" "9" "900"].map (pointOf sampleEngine)) :=
  parseHistoricalData_points sampleEngine sampleDaily "TIME_SERIES_DAILY"
    [sampleEntry "2024-01-03" "10" "12" "9" "11" "1000",
     sampleEntry "2024-01-02" "8" "10" "7" "9" "900"] (by decide!) (by decide!)

/-- Counterexample to C10 as stated: a time-series object with one entry whose value is
`null`. The read of `values['1. open']` throws, so `parseHistoricalData` returns no point at
all, and `fetchHistoricalData` answers with the 31 points of the mock series. -/
theorem parseHistoricalData_null_entry_throws :
    parseHistoricalData sampleEngine
      (.obj [("Time Series (Daily)", .obj [("2024-01-02", .null)])]) "TIME_SERIES_DAILY" =
      .error ⟨none, "TypeError"⟩ ∧
    (fetchHistoricalData sampleEngine
      (fun _ => .body (.obj [("Time Series (Daily)", .obj [("2024-01-02", .null)])]))
      (fun _ => 1 / 2) 0 "IBM" "1m").length = 31 := by
  refine ⟨by decide!, ?_⟩
  have h : fetchHistoricalData sampleEngine
      (fun _ => .body (.obj [("Time Series (Daily)", .obj [("2024-01-02", .null)])]))
      (fun _ => 1 / 2) 0 "IBM" "1m" =
      generateMockHistoricalData sampleEngine (fun _ => 1 / 2) 0 "IBM" "1m" := by
    simp only [fetchHistoricalData]
    have hp : parseHistoricalData sampleEngine
        (.obj [("Time Series (Daily)", .obj [("2024-01-02", .null)])])
        (timeSeriesFunction "1m") = .error ⟨none, "TypeError"⟩ := by decide!
    rw [hp]
    split <;> rfl
  rw [h, generateMockHistoricalData_length]
  decide

theorem compareDates_positive (E : Engine) (a b : PricePoint) (x y : Int)
    (ha : E.dateMs a.date = some x) (hb : E.dateMs b.date = some y) :
    (compareDates E a b).positive = decide (y < x) := by
  simp only [compareDates, ha, hb, JsNum.positive]
  congr 1
  rw [eq_iff_iff, Int.cast_pos]
  omega

/-- Claim C9, amended. For a payload that contains the expected time-series key, whose
entries are not `null` and whose keys are valid dates naming pairwise distinct instants, the
series returned by `parseHistoricalData` is in strictly ascending chronological order: the
date of every point is strictly earlier than the date of every later point, whatever the
order of the raw entries. -/
theorem parseHistoricalData_strictly_ascending (E : Engine) (kvs : List (String × JsVal))
    (fn : String) (entries : List (String × JsVal))
    (hkey : lookupKey (timeSeriesKey fn) kvs = some (.obj entries))
    (hvals : ∀ e ∈ entries, isNullish e.2 = false)
    (hvalid : ∀ e ∈ entries, (E.dateMs e.1).isSome = true)
    (hdistinct : entries.Pairwise (fun a b => E.dateMs a.1 ≠ E.dateMs b.1)) :
    ∃ points, parseHistoricalData E (.obj kvs) fn = .ok points ∧
      points.Pairwise (dateBefore E) := by
  refine ⟨_, parseHistoricalData_of_series E kvs fn entries hkey hvals, ?_⟩
  have hmem : ∀ p ∈ entries.map (pointOf E), ∃ x, E.dateMs p.date = some x := by
    intro p hp
    obtain ⟨e, he, rfl⟩ := List.mem_map.mp hp
    exact Option.isSome_iff_exists.mp (hvalid e he)
  have hperm := sortWith_perm (compareDates E) (entries.map (pointOf E))
  have hle : (sortWith (compareDates E) (entries.map (pointOf E))).Pairwise
      (fun a b => (E.dateMs a.date).getD 0 ≤ (E.dateMs b.date).getD 0) := by
    apply sortWith_pairwise (compareDates E) (fun p => (E.dateMs p.date).getD 0)
    intro a ha b hb
    obtain ⟨x, hx⟩ := hmem a ha
    obtain ⟨y, hy⟩ := hmem b hb
    rw [compareDates_positive E a b x y hx hy, hx, hy]
    rfl
  have hne : (sortWith (compareDates E) (entries.map (pointOf E))).Pairwise
      (fun a b => E.dateMs a.date ≠ E.dateMs b.date) := by
    rw [hperm.pairwise_iff (fun h => Ne.symm h), List.pairwise_map]
    exact hdistinct
  refine (hle.and hne).imp_of_mem ?_
  intro a b ha hb hab
  obtain ⟨x, hx⟩ := hmem a (hperm.subset ha)
  obtain ⟨y, hy⟩ := hmem b (hperm.subset hb)
  refine ⟨x, y, hx, hy, ?_⟩
  have h1 : x ≤ y := by simpa [hx, hy] using hab.1
  have h2 : x ≠ y := fun h => hab.2 (by rw [hx, hy, h])
  exact lt_of_le_of_ne h1 h2

/-- Witness: a daily payload of two entries,
the newer one first. -/
theorem parseHistoricalData_strictly_ascending_witness :
    ∃ points, parseHistoricalData sampleEngine (.obj sampleDaily) "TIME_SERIES_DAILY"
        = .ok points ∧
      points.Pairwise (dateBefore sampleEngine) :=
  parseHistoricalData_strictly_ascending sampleEngine sampleDaily "TIME_SERIES_DAILY"
    [sampleEntry "2024-01-03" "10" "12" "9" "11" "1000",
     sampleEntry "2024-01-02" "8" "10" "7" "9" "900"] (by decide!) (by decide) (by decide!)
    (by decide!)

/-- Counterexample to C9 as stated: the keys `2024-01-01` and `2024-01` name the same
instant, so the two points of the result have equal dates and the first is not strictly
earlier than the second. -/
theorem parseHistoricalData_same_instant :
    parseHistoricalData sampleEngine (.obj sampleSameInstant) "TIME_SERIES_DAILY" =
      .ok [⟨"2024-01-01", .fin 10, .fin 12, .fin 9, .fin 11, .fin 1000⟩,
           ⟨"2024-01", .fin 8, .fin 10, .fin 7, .fin 9, .fin 900⟩] ∧
    sampleEngine.dateMs "2024-01-01" = some 1704067200000 ∧
    sampleEngine.dateMs "2024-01" = some 1704067200000 := by
  decide!

/-- Claim C8. The period selects the provider function, the interval and the key read in
the payload: `1d` gives `TIME_SERIES_INTRADAY` with interval `5min` and the key
`Time Series (5min)`; `1w`, `1m`, `3m`, `6m` and `1y` give `TIME_SERIES_DAILY` without
interval and the key `Time Series (Daily)`; `5y` gives `TIME_SERIES_WEEKLY` without interval
and the key `Weekly Time Series`; every other period gives `TIME_SERIES_DAILY` without
interval. The request of `fetchHistoricalData` goes to the URL made of these, and its result
depends on the payload only through the value under that key: when the answer to that URL
holds readable entries under that key, the result is a rearrangement of their points; when
it is an object without that key, the result is empty; and when the request to that URL is
rejected, the result is the mock series. -/
theorem historical_request_mapping (symbol period : String) :
    (period = "1d" →
      timeSeriesFunction period = "TIME_SERIES_INTRADAY" ∧ interval period = "5min" ∧
      timeSeriesKey (timeSeriesFunction period) = "Time Series (5min)" ∧
      historicalUrl symbol period = "/api/alpha-vantage" ++ "?function=" ++ "TIME_SERIES_INTRADAY"
        ++ "&symbol=" ++ symbol ++ "&interval=" ++ "5min" ++ "&outputsize=full") ∧
    (period = "1w" ∨ period = "1m" ∨ period = "3m" ∨ period = "6m" ∨ period = "1y" →
      timeSeriesFunction period = "TIME_SERIES_DAILY" ∧ interval period = "" ∧
      timeSeriesKey (timeSeriesFunction period) = "Time Series (Daily)" ∧
      historicalUrl symbol period = "/api/alpha-vantage" ++ "?function=" ++ "TIME_SERIES_DAILY"
        ++ "&symbol=" ++ symbol ++ "&outputsize=full") ∧
    (period = "5y" →
      timeSeriesFunction period = "TIME_SERIES_WEEKLY" ∧ interval period = "" ∧
      timeSeriesKey (timeSeriesFunction period) = "Weekly Time Series" ∧
      historicalUrl symbol period = "/api/alpha-vantage" ++ "?function=" ++ "TIME_SERIES_WEEKLY"
        ++ "&symbol=" ++ symbol ++ "&outputsize=full") ∧
    (period ≠ "1d" ∧ period ≠ "1w" ∧ period ≠ "1m" ∧ period ≠ "3m" ∧ period ≠ "6m" ∧
        period ≠ "1y" ∧ period ≠ "5y" →
      timeSeriesFunction period = "TIME_SERIES_DAILY" ∧ interval period = "" ∧
      timeSeriesKey (timeSeriesFunction period) = "Time Series (Daily)" ∧
      historicalUrl symbol period = "/api/alpha-vantage" ++ "?function=" ++ "TIME_SERIES_DAILY"
        ++ "&symbol=" ++ symbol ++ "&outputsize=full") ∧
    (∀ (E : Engine) (fetch fetch' : String → FetchResult) (rand : Nat → ℚ) (today : Int),
      fetch (historicalUrl symbol period) = fetch' (historicalUrl symbol period) →
      fetchHistoricalData E fetch rand today symbol period =
        fetchHistoricalData E fetch' rand today symbol period) ∧
    (∀ (E : Engine) (kvs kvs' : List (String × JsVal)),
      lookupKey (timeSeriesKey (timeSeriesFunction period)) kvs =
        lookupKey (timeSeriesKey (timeSeriesFunction period)) kvs' →
      parseHistoricalData E (.obj kvs) (timeSeriesFunction period) =
        parseHistoricalData E (.obj kvs') (timeSeriesFunction period)) ∧
    (∀ (E : Engine) (fetch : String → FetchResult) (rand : Nat → ℚ) (today : Int)
        (kvs entries : List (String × JsVal)),
      fetch (historicalUrl symbol period) = .body (.obj kvs) →
      lookupKey (timeSeriesKey (timeSeriesFunction period)) kvs = some (.obj entries) →
      (∀ e ∈ entries, entryReadable e.2 = true) →
      (fetchHistoricalData E fetch rand today symbol period).Perm
        (entries.map (pointOf E))) ∧
    (∀ (E : Engine) (fetch : String → FetchResult) (rand : Nat → ℚ) (today : Int)
        (kvs : List (String × JsVal)),
      fetch (historicalUrl symbol period) = .body (.obj kvs) →
      lookupKey (timeSeriesKey (timeSeriesFunction period)) kvs = none →
      fetchHistoricalData E fetch rand today symbol period = []) ∧
    (∀ (E : Engine) (fetch : String → FetchResult) (rand : Nat → ℚ) (today : Int),
      fetch (historicalUrl symbol period) = .rejected →
      fetchHistoricalData E fetch rand today symbol period =
        generateMockHistoricalData E rand today symbol period) := by
  refine ⟨?_, ?_, ?_, ?_, ?_, ?_, ?_, ?_, ?_⟩
  · rintro rfl
    simp [timeSeriesFunction, interval, timeSeriesKey, historicalUrl, API_PROXY_URL]
  · rintro (rfl | rfl | rfl | rfl | rfl) <;>
      simp [timeSeriesFunction, interval, timeSeriesKey, historicalUrl, API_PROXY_URL]
  · rintro rfl
    simp [timeSeriesFunction, interval, timeSeriesKey, historicalUrl, API_PROXY_URL]
  · rintro ⟨h1, h2, h3, h4, h5, h6, h7⟩
    simp [timeSeriesFunction, interval, timeSeriesKey, historicalUrl, API_PROXY_URL, h1, h2, h3,
      h4, h5, h6, h7]
  · intro E fetch fetch' rand today h
    simp only [fetchHistoricalData, h]
  · intro E kvs kvs' h
    simp only [parseHistoricalData, getProp, isNullish, propOf, h]
  · intro E fetch rand today kvs entries hf hkey hvals
    simp only [fetchHistoricalData, hf,
      seriesReadable_of_entries kvs (timeSeriesFunction period) entries hkey hvals,
      Bool.not_true, Bool.false_eq_true, if_false,
      parseHistoricalData_of_series E kvs (timeSeriesFunction period) entries hkey
        (fun e he => entryReadable_not_nullish e.2 (hvals e he))]
    exact sortWith_perm (compareDates E) (entries.map (pointOf E))
  · intro E fetch rand today kvs hf hkey
    simp [fetchHistoricalData, hf, seriesReadable_absent kvs _ hkey, parseHistoricalData,
      getProp, isNullish, propOf, hkey, truthy]
  · intro E fetch rand today hf
    simp only [fetchHistoricalData, hf]

/-- Witness: the period `1d`, and the period `1m` on a network that answers the request for
the daily series of `IBM` with two entries, the newer one first, and rejects every other
request: the result is the two points, the older one first. -/
theorem historical_request_mapping_witness :
    (timeSeriesFunction "1d" = "TIME_SERIES_INTRADAY" ∧ interval "1d" = "5min" ∧
      timeSeriesKey (timeSeriesFunction "1d") = "Time Series (5min)" ∧
      historicalUrl "IBM" "1d" = "/api/alpha-vantage" ++ "?function=" ++ "TIME_SERIES_INTRADAY"
        ++ "&symbol=" ++ "IBM" ++ "&interval=" ++ "5min" ++ "&outputsize=full") ∧
    (fetchHistoricalData sampleEngine sampleFetchDaily (fun _ => 1 / 2) 0 "IBM" "1m").Perm
      ([sampleEntry "2024-01-03" "10" "12" "9" "11" "1000",
        sampleEntry "2024-01-02" "8" "10" "7" "9" "900"].map (pointOf sampleEngine)) ∧
    fetchHistoricalData sampleEngine sampleFetchDaily (fun _ => 1 / 2) 0 "IBM" "1m" =
      [⟨"2024-01-02", .fin 8, .fin 10, .fin 7, .fin 9, .fin 900⟩,
       ⟨"2024-01-03", .fin 10, .fin 12, .fin 9, .fin 11, .fin 1000⟩] :=
  ⟨(historical_request_mapping "IBM" "1d").1 rfl,
    (historical_request_mapping "IBM" "1m").2.2.2.2.2.2.1 sampleEngine sampleFetchDaily
      (fun _ => 1 / 2) 0 sampleDaily
      [sampleEntry "2024-01-03" "10" "12" "9" "11" "1000",
       sampleEntry "2024-01-02" "8" "10" "7" "9" "900"] (by decide) (by decide!) (by decide!),
    by decide!⟩

/-- Claim C2, amended. When the payload is an object that does not contain the time-series
key of the selected function, or holds an empty object under it, `fetchHistoricalData`
returns the empty series. The series of the mock generator, which has at least one point,
is what it returns when the request is rejected or the payload is `null`. -/
theorem fetchHistoricalData_missing_series (E : Engine) (fetch : String → FetchResult)
    (rand : Nat → ℚ) (today : Int) (symbol period : String) :
    (∀ kvs : List (String × JsVal),
      fetch (historicalUrl symbol period) = .body (.obj kvs) →
      (lookupKey (timeSeriesKey (timeSeriesFunction period)) kvs = none ∨
        lookupKey (timeSeriesKey (timeSeriesFunction period)) kvs = some (.obj [])) →
      fetchHistoricalData E fetch rand today symbol period = []) ∧
    (fetch (historicalUrl symbol period) = .rejected ∨
        fetch (historicalUrl symbol period) = .body .null →
      fetchHistoricalData E fetch rand today symbol period =
        generateMockHistoricalData E rand today symbol period ∧
      0 < (fetchHistoricalData E fetch rand today symbol period).length) := by
  refine ⟨fun kvs hf hm => ?_, fun hf => ?_⟩
  · rcases hm with hm | hm
    · simp [fetchHistoricalData, hf, seriesReadable_absent kvs _ hm, parseHistoricalData,
        getProp, isNullish, propOf, hm, truthy]
    · simp [fetchHistoricalData, hf,
        seriesReadable_of_entries kvs _ [] hm (fun e he => absurd he (List.not_mem_nil e)),
        parseHistoricalData, getProp, isNullish, propOf, hm, truthy, objectEntries,
        parsePoints, sortWith]
  · have h : fetchHistoricalData E fetch rand today symbol period =
        generateMockHistoricalData E rand today symbol period := by
      rcases hf with hf | hf
      · simp [fetchHistoricalData, hf]
      · simp [fetchHistoricalData, hf, parseHistoricalData, getProp, isNullish]
    rw [h, generateMockHistoricalData_length]
    exact ⟨rfl, Nat.succ_pos _⟩

/-- Witness: the failure body of the proxy. -/
theorem fetchHistoricalData_missing_series_witness :
    fetchHistoricalData sampleEngine
      (fun _ => .body (.obj [("error", .str "Failed to fetch data from Alpha Vantage")]))
      (fun _ => 0) 0 "IBM" "1y" = [] :=
  (fetchHistoricalData_missing_series sampleEngine
    (fun _ => .body (.obj [("error", .str "Failed to fetch data from Alpha Vantage")]))
    (fun _ => 0) 0 "IBM" "1y").1 [("error", .str "Failed to fetch data from Alpha Vantage")]
    rfl (Or.inl (by decide))

/-- Counterexample to C2 as stated: on the failure body of the proxy, which has no
time-series key, `fetchHistoricalData` returns the empty series and not the series of the
mock generator, which has 31 points for the period `1m`. -/
theorem fetchHistoricalData_returns_empty :
    fetchHistoricalData sampleEngine (fun _ => .body sampleProxyFailure) (fun _ => 1 / 2) 0
      "IBM" "1m" = [] ∧
    (generateMockHistoricalData sampleEngine (fun _ => 1 / 2) 0 "IBM" "1m").length = 31 := by
  refine ⟨by decide!, ?_⟩
  rw [generateMockHistoricalData_length]
  decide

/-! ## Company profile -/

theorem orElse_undefined (d : JsVal) : orElse .undefined d = d := rfl

/-- Claim C3, amended. When the payload is a non-empty object that contains none of the
recognised profile fields, `fetchCompanyProfile` does not fall back to the mock profile: it
returns the normalised profile, in which description, industry, sector, chief executive and
website have their defaults and every number is the one read from the text `0` (times 100
for the dividend yield). The mock profile, whose symbol is the requested symbol, is returned
when the request fails or the payload is `null` or an object without properties. -/
theorem fetchCompanyProfile_unrecognised (E : Engine) (fetch : String → FetchResult)
    (rand : Nat → ℚ) (symbol : String) :
    (∀ kvs : List (String × JsVal),
      fetch (profileUrl symbol) = .body (.obj kvs) → kvs ≠ [] →
      (∀ f ∈ profileFields, lookupKey f kvs = none) →
      (fetchCompanyProfile E fetch rand symbol).description =
        .str ("No description available for " ++ symbol) ∧
      (fetchCompanyProfile E fetch rand symbol).industry = .str "Unknown" ∧
      (fetchCompanyProfile E fetch rand symbol).sector = .str "Unknown" ∧
      (fetchCompanyProfile E fetch rand symbol).ceo = .str "Unknown" ∧
      (fetchCompanyProfile E fetch rand symbol).website =
        .str ("https://www." ++ E.toLowerCase symbol ++ ".com") ∧
      (fetchCompanyProfile E fetch rand symbol).employees = E.parseInt10 (.str "0") ∧
      (fetchCompanyProfile E fetch rand symbol).marketCap = E.parseFloat (.str "0") ∧
      (fetchCompanyProfile E fetch rand symbol).peRatio = E.parseFloat (.str "0") ∧
      (fetchCompanyProfile E fetch rand symbol).dividendYield =
        (E.parseFloat (.str "0")).mulD (.fin 100) ∧
      (fetchCompanyProfile E fetch rand symbol).eps = E.parseFloat (.str "0") ∧
      (fetchCompanyProfile E fetch rand symbol).beta = E.parseFloat (.str "0") ∧
      (fetchCompanyProfile E fetch rand symbol).fiftyTwoWeekHigh = E.parseFloat (.str "0") ∧
      (fetchCompanyProfile E fetch rand symbol).fiftyTwoWeekLow = E.parseFloat (.str "0")) ∧
    (fetch (profileUrl symbol) = .rejected ∨ fetch (profileUrl symbol) = .body .null ∨
        fetch (profileUrl symbol) = .body (.obj []) →
      fetchCompanyProfile E fetch rand symbol = generateMockCompanyProfile E rand symbol ∧
      (fetchCompanyProfile E fetch rand symbol).symbol = .str symbol) := by
  refine ⟨fun kvs hf hne hnone => ?_, fun h => ?_⟩
  · have hlen : (objectKeys (.obj kvs)).length ≠ 0 := by
      simpa [objectKeys, objectEntries] using hne
    have hl : ∀ f ∈ profileFields, propOf (.obj kvs) f = .undefined := by
      intro f hfm
      simp [propOf, hnone f hfm]
    have hread : profileReadable (.obj kvs) = true := by
      simp only [profileReadable, numericProfileFields, List.all_cons, List.all_nil,
        Bool.and_true, Bool.and_eq_true]
      refine ⟨?_, ?_, ?_, ?_, ?_, ?_, ?_, ?_⟩ <;>
        · rw [hl _ (by decide), orElse_undefined]
          rfl
    have hp : fetchCompanyProfile E fetch rand symbol = formatProfile E symbol (.obj kvs) := by
      simp [fetchCompanyProfile, hf, truthy, hlen, hread]
    simp only [profileFields, List.forall_mem_cons] at hl
    obtain ⟨_, h2, h3, h4, h5, h6, h7, h8, h9, h10, h11, h12, h13, h14, _⟩ := hl
    rw [hp]
    simp only [formatProfile, h2, h3, h4, h5, h6, h7, h8, h9, h10, h11, h12, h13, h14,
      orElse_undefined, and_self]
  · have hp : fetchCompanyProfile E fetch rand symbol =
        generateMockCompanyProfile E rand symbol := by
      rcases h with h | h | h <;>
        simp [fetchCompanyProfile, h, truthy, objectKeys, objectEntries]
    rw [hp]
    exact ⟨rfl, rfl⟩

/-- Witness: the failure body of the proxy. -/
theorem fetchCompanyProfile_unrecognised_witness :
    (fetchCompanyProfile sampleEngine (fun _ => .body sampleProxyFailure) (fun _ => 0)
      "IBM").website = .str ("https://www." ++ sampleEngine.toLowerCase "IBM" ++ ".com") :=
  ((fetchCompanyProfile_unrecognised sampleEngine (fun _ => .body sampleProxyFailure)
    (fun _ => 0) "IBM").1
    [("error", .str "Failed to fetch data from Alpha Vantage"),
     ("message", .str "Alpha Vantage API call frequency exceeded. Please try again later.")]
    rfl (by decide) (by decide)).2.2.2.2.1

/-- Counterexample to C3 as stated: on the failure body of the proxy the profile returned
is not the mock profile: its industry is `Unknown` where the mock has `Technology`, and its
symbol is not the requested symbol. -/
theorem fetchCompanyProfile_not_mock :
    fetchCompanyProfile sampleEngine (fun _ => .body sampleProxyFailure) (fun _ => 1 / 2)
      "IBM" ≠ generateMockCompanyProfile sampleEngine (fun _ => 1 / 2) "IBM" ∧
    (fetchCompanyProfile sampleEngine (fun _ => .body sampleProxyFailure) (fun _ => 1 / 2)
      "IBM").industry = .str "Unknown" ∧
    (generateMockCompanyProfile sampleEngine (fun _ => 1 / 2) "IBM").industry =
      .str "Technology" ∧
    (fetchCompanyProfile sampleEngine (fun _ => .body sampleProxyFailure) (fun _ => 1 / 2)
      "IBM").symbol ≠ .str "IBM" := by
  decide!

/-! ## The fallback of the facade -/

theorem isDefined_orElse (a d : JsVal) (h : isDefined d = true) :
    isDefined (orElse a d) = true := by
  unfold orElse
  by_cases ha : truthy a = true
  · rw [if_pos ha]
    cases a <;> first | rfl | (simp [truthy] at ha)
  · rw [if_neg ha]; exact h

theorem generateMockMarketSummary_noUndefined (E : Engine) (rand : Nat → ℚ) (k : Nat)
    (now : Int) : (generateMockMarketSummary E rand k now).noUndefined = true := rfl

theorem formatSpxIndex_symbol (E : Engine) (q : JsVal) (i : SpxIndex)
    (h : formatSpxIndex E q = .ok i) : isDefined i.symbol = true := by
  unfold formatSpxIndex at h
  cases hp : optionalReplacePercent E (propOf q "10. change percent") with
  | error e => rw [hp] at h; cases h
  | ok percent =>
    rw [hp] at h
    simp only [Except.ok.injEq] at h
    rw [← h]
    exact isDefined_orElse _ _ rfl

theorem fetchMarketSummary_noUndefined (E : Engine) (fetch : String → FetchResult)
    (rand : Nat → ℚ) (now : Int) : (fetchMarketSummary E fetch rand now).noUndefined = true := by
  simp only [fetchMarketSummary]
  split
  · exact generateMockMarketSummary_noUndefined E rand _ now
  · split
    · exact generateMockMarketSummary_noUndefined E rand _ now
    · rename_i spxIndex hspx
      simp only [MarketSummary.noUndefined, Bool.and_eq_true]
      refine ⟨⟨formatSpxIndex_symbol E _ spxIndex hspx, ?_⟩, ?_⟩
      · split
        · exact isDefined_orElse _ _ rfl
        · rfl
      · split
        · exact isDefined_orElse _ _ rfl
        · rfl

theorem generateMockCompanyProfile_noUndefined (E : Engine) (rand : Nat → ℚ)
    (symbol : String) : (generateMockCompanyProfile E rand symbol).noUndefined = true := rfl

theorem ratFloor_eq (q : ℚ) : Rat.floor q = ⌊q⌋ := rfl

theorem elementAt_defined (a b c d e : String) (r : ℚ) (h0 : 0 ≤ r) (h1 : r < 1) :
    isDefined (elementAt [a, b, c, d, e] (Rat.floor (r * 5))) = true := by
  rw [ratFloor_eq]
  have hlo : (0 : Int) ≤ ⌊r * 5⌋ := Int.floor_nonneg.mpr (by positivity)
  have hhi : ⌊r * 5⌋ < 5 := Int.floor_lt.mpr (by push_cast; linarith)
  generalize ⌊r * 5⌋ = f at hlo hhi
  interval_cases f <;> rfl

theorem mockNewsItem_noUndefined (E : Engine) (rand : Nat → ℚ) (today : Int)
    (symbol : String) (i : Nat) (headline : String) (hi : i < 5)
    (hrand : ∀ n, 0 ≤ rand n ∧ rand n < 1) :
    (mockNewsItem E rand today symbol i headline).noUndefined = true := by
  have hs := elementAt_defined "Bullish" "Somewhat-Bullish" "Neutral" "Somewhat-Bearish"
    "Bearish" (rand i) (hrand i).1 (hrand i).2
  have hsrc : isDefined (elementAt ["Bloomberg", "Reuters", "CNBC", "Wall Street Journal",
      "Financial Times"] (i : Int)) = true := by
    interval_cases i <;> rfl
  simp only [NewsItem.noUndefined, mockNewsItem, hs, hsrc, Bool.and_true]
  rfl

theorem generateMockNews_noUndefined (E : Engine) (rand : Nat → ℚ) (today : Int)
    (symbol : String) (hrand : ∀ n, 0 ≤ rand n ∧ rand n < 1) :
    (generateMockNews E rand today symbol).all NewsItem.noUndefined = true := by
  simp only [generateMockNews, mockHeadlines, List.length_cons, List.length_nil,
    List.range_succ, List.range_zero, List.nil_append, List.cons_append, List.zipWith_cons_cons,
    List.zipWith_nil_right, List.all_cons, List.all_nil, Bool.and_true, Bool.and_eq_true]
  refine ⟨?_, ?_, ?_, ?_, ?_⟩ <;>
    exact mockNewsItem_noUndefined E rand today symbol _ _ (by decide) hrand

theorem mockStocks_symbols (rand : Nat → ℚ) (k : Nat)
    (ts : List (String × String × ℚ × ℚ × ℚ)) :
    ∀ p ∈ mockStocks rand k ts, p.noUndefined = true := by
  induction ts generalizing k with
  | nil => intro p hp; cases hp
  | cons t rest ih =>
    obtain ⟨symbol, name, priceBase, changeBase, volumeBase⟩ := t
    intro p hp
    simp only [mockStocks, List.mem_cons] at hp
    rcases hp with rfl | hp
    · rfl
    · exact ih (k + 4) p hp

theorem generateMockTopPerformers_noUndefined (rand : Nat → ℚ) :
    (generateMockTopPerformers rand).noUndefined = true := by
  have hg : ∀ p ∈ (generateMockTopPerformers rand).topGainers, p.noUndefined = true := by
    intro p hp
    simp only [generateMockTopPerformers, List.mem_map] at hp
    obtain ⟨q, hq, rfl⟩ := hp
    exact mockStocks_symbols rand 0 gainerTemplates q hq
  have hl : ∀ p ∈ (generateMockTopPerformers rand).topLosers, p.noUndefined = true := by
    intro p hp
    simp only [generateMockTopPerformers, List.mem_map] at hp
    obtain ⟨q, hq, rfl⟩ := hp
    exact mockStocks_symbols rand 40 loserTemplates q hq
  have ha : ∀ p ∈ (generateMockTopPerformers rand).mostActive, p.noUndefined = true := by
    intro p hp
    have hp' := (sortWith_perm _ _).subset hp
    rcases List.mem_append.mp hp' with h | h
    · exact hg p (List.mem_of_mem_take h)
    · exact hl p (List.mem_of_mem_take h)
  simp only [TopPerformers.noUndefined, Bool.and_eq_true, List.all_eq_true]
  exact ⟨⟨hg, hl⟩, ha⟩

theorem upstreamFailed_cases (r : FetchResult) (h : upstreamFailed r = true) :
    r = .rejected ∨ ∃ e m, r = .body (.obj [("error", e), ("message", m)]) := by
  unfold upstreamFailed at h
  split at h
  · exact Or.inl rfl
  · rename_i k1 v1 k2 v2
    simp only [Bool.and_eq_true, decide_eq_true_eq] at h
    obtain ⟨rfl, rfl⟩ := h
    exact Or.inr ⟨v1, v2, rfl⟩
  · cases h

theorem validSpx_of_failed (r : FetchResult) (h : upstreamFailed r = true) :
    validSpx (bodyOrNull r) = false := by
  rcases upstreamFailed_cases r h with rfl | ⟨e, m, rfl⟩
  · rfl
  · simp [validSpx, bodyOrNull, propOf, lookupKey, truthy]

theorem validGainersLosers_of_failed (r : FetchResult) (h : upstreamFailed r = true) :
    validGainersLosers (bodyOrNull r) = false := by
  rcases upstreamFailed_cases r h with rfl | ⟨e, m, rfl⟩
  · rfl
  · simp [validGainersLosers, bodyOrNull, propOf, lookupKey, truthy]

theorem validSector_of_failed (r : FetchResult) (h : upstreamFailed r = true) :
    validSector (bodyOrNull r) = false := by
  rcases upstreamFailed_cases r h with rfl | ⟨e, m, rfl⟩
  · rfl
  · simp [validSector, bodyOrNull, propOf, lookupKey, truthy]

theorem formatSpxIndex_mockSpxQuote (E : Engine) (rand : Nat → ℚ) (k : Nat) (now : Int) :
    ∃ i, formatSpxIndex E (mockSpxQuote E rand k now) = .ok i := by
  simp [formatSpxIndex, mockSpxQuote, propOf, lookupKey, optionalReplacePercent, isNullish]

theorem fetchMarketSummary_of_failed (E : Engine) (fetch : String → FetchResult)
    (rand : Nat → ℚ) (now : Int) (h1 : upstreamFailed (fetch spxUrl) = true)
    (h2 : upstreamFailed (fetch moversUrl) = true)
    (h3 : upstreamFailed (fetch sectorUrl) = true) :
    (fetchMarketSummary E fetch rand now).dataSource = ⟨"Mock Data", "Mock Data", "Mock Data"⟩ ∧
    (fetchMarketSummary E fetch rand now).sectorPerformance = mockSectorPerformance ∧
    (fetchMarketSummary E fetch rand now).marketBreadth =
      ⟨.num (.fin 285), .num (.fin 215)⟩ := by
  obtain ⟨i, hi⟩ := formatSpxIndex_mockSpxQuote E rand 0 now
  simp [fetchMarketSummary, validSpx_of_failed _ h1, validGainersLosers_of_failed _ h2,
    validSector_of_failed _ h3, hi, generateMockMarketSummary]

theorem fetchStockNews_of_failed (E : Engine) (fetch : String → FetchResult)
    (rand : Nat → ℚ) (now : Int) (symbol : String)
    (h : upstreamFailed (fetch (newsUrl symbol)) = true) :
    fetchStockNews E fetch rand now symbol = generateMockNews E rand now symbol := by
  rcases upstreamFailed_cases _ h with hr | ⟨e, m, hr⟩
  · simp [fetchStockNews, hr]
  · simp [fetchStockNews, hr, propOf, lookupKey, truthy]

theorem fetchTopPerformers_of_failed (E : Engine) (fetch : String → FetchResult)
    (rand : Nat → ℚ) (h : upstreamFailed (fetch moversUrl) = true) :
    fetchTopPerformers E fetch rand = generateMockTopPerformers rand := by
  rcases upstreamFailed_cases _ h with hr | ⟨e, m, hr⟩
  · simp [fetchTopPerformers, hr]
  · simp [fetchTopPerformers, hr, formatTopPerformers, propOf, lookupKey, truthy]

theorem fetchMarketCapDistribution_of_rejected (E : Engine) (fetch : String → FetchResult)
    (now : Int) (h : fetch "/api/financials" = .rejected ∨ fetch moversUrl = .rejected) :
    fetchMarketCapDistribution E fetch now = generateMockMarketCapDistribution E now := by
  rcases h with h | h
  · simp [fetchMarketCapDistribution, h]
  · cases hf : fetch "/api/financials" with
    | rejected => simp [fetchMarketCapDistribution, hf]
    | body d => simp [fetchMarketCapDistribution, hf, h]

theorem fetchHistoricalData_cases (E : Engine) (fetch : String → FetchResult)
    (rand : Nat → ℚ) (today : Int) (symbol period : String) :
    fetchHistoricalData E fetch rand today symbol period =
        generateMockHistoricalData E rand today symbol period ∨
    ∃ data, fetch (historicalUrl symbol period) = .body data ∧
      parseHistoricalData E data (timeSeriesFunction period) =
        .ok (fetchHistoricalData E fetch rand today symbol period) := by
  cases hf : fetch (historicalUrl symbol period) with
  | rejected => left; simp only [fetchHistoricalData, hf]
  | body data =>
    by_cases hr : (!seriesReadable data (timeSeriesFunction period)) = true
    · left
      simp only [fetchHistoricalData, hf, hr, if_true]
    · cases hp : parseHistoricalData E data (timeSeriesFunction period) with
      | error e =>
        left
        simp only [fetchHistoricalData, hf, hr, hp, if_false, Bool.false_eq_true]
      | ok points =>
        right
        exact ⟨data, rfl,
          by simp only [fetchHistoricalData, hf, hr, hp, if_false, Bool.false_eq_true]⟩

theorem fetchCompanyProfile_cases (E : Engine) (fetch : String → FetchResult)
    (rand : Nat → ℚ) (symbol : String) :
    fetchCompanyProfile E fetch rand symbol = generateMockCompanyProfile E rand symbol ∨
    ∃ data, fetch (profileUrl symbol) = .body data ∧
      fetchCompanyProfile E fetch rand symbol = formatProfile E symbol data := by
  cases hf : fetch (profileUrl symbol) with
  | rejected => left; simp only [fetchCompanyProfile, hf]
  | body data =>
    by_cases hc : (!truthy data || decide ((objectKeys data).length = 0)) = true
    · left; simp only [fetchCompanyProfile, hf, hc, if_true]
    · by_cases hr : (!profileReadable data) = true
      · left; simp only [fetchCompanyProfile, hf, hc, hr, if_true]; rfl
      · right; exact ⟨data, rfl, by simp only [fetchCompanyProfile, hf, hc, hr]; rfl⟩

theorem fetchStockNews_cases (E : Engine) (fetch : String → FetchResult) (rand : Nat → ℚ)
    (today : Int) (symbol : String) :
    fetchStockNews E fetch rand today symbol = generateMockNews E rand today symbol ∨
    ∃ data feed, fetch (newsUrl symbol) = .body data ∧ propOf data "feed" = .arr feed ∧
      formatNews E feed = .ok (fetchStockNews E fetch rand today symbol) := by
  cases hf : fetch (newsUrl symbol) with
  | rejected => left; simp only [fetchStockNews, hf]
  | body data =>
    by_cases hc : (!truthy data) = true
    · left; simp only [fetchStockNews, hf, hc, if_true]
    · cases hfeed : propOf data "feed" with
      | arr feed =>
        cases hn : formatNews E feed with
        | error e => left; simp only [fetchStockNews, hf, hc, hfeed, hn]; rfl
        | ok items =>
          right
          exact ⟨data, feed, rfl, hfeed, by simp only [fetchStockNews, hf, hc, hfeed, hn]; rfl⟩
      | _ => left; simp only [fetchStockNews, hf, hc, hfeed]; rfl

theorem fetchTopPerformers_cases (E : Engine) (fetch : String → FetchResult)
    (rand : Nat → ℚ) :
    fetchTopPerformers E fetch rand = generateMockTopPerformers rand ∨
    ∃ data, fetch moversUrl = .body data ∧
      formatTopPerformers E data = .ok (fetchTopPerformers E fetch rand) := by
  cases hf : fetch moversUrl with
  | rejected => left; simp only [fetchTopPerformers, hf]
  | body data =>
    cases hp : formatTopPerformers E data with
    | error e => left; simp only [fetchTopPerformers, hf, hp]
    | ok performers => right; exact ⟨data, rfl, by simp only [fetchTopPerformers, hf, hp]⟩

theorem fetchMarketCapDistribution_cases (E : Engine) (fetch : String → FetchResult)
    (now : Int) :
    fetchMarketCapDistribution E fetch now = generateMockMarketCapDistribution E now ∨
    ∃ financialsData gainerLosersData,
      fetch "/api/financials" = .body financialsData ∧
      fetch moversUrl = .body gainerLosersData ∧
      marketCapCategories E financialsData gainerLosersData =
        .ok (fetchMarketCapDistribution E fetch now).categories := by
  cases hf : fetch "/api/financials" with
  | rejected => left; simp only [fetchMarketCapDistribution, hf]
  | body financialsData =>
    cases hg : fetch moversUrl with
    | rejected => left; simp only [fetchMarketCapDistribution, hf, hg]
    | body gainerLosersData =>
      cases hp : marketCapCategories E financialsData gainerLosersData with
      | error e => left; simp only [fetchMarketCapDistribution, hf, hg, hp]
      | ok categories =>
        right
        exact ⟨financialsData, gainerLosersData, rfl, rfl,
          by simp only [fetchMarketCapDistribution, hf, hg, hp]⟩

/-- Claim C1, amended. Every facade operation returns a value on every upstream outcome: the
record normalised from the payload when the body of its `try` block runs to the end, and
the value of its mock generator when that body throws. When the provider has failed (the
request is rejected, or the body is the failure body of the proxy), `fetchStockNews` and
`fetchTopPerformers` return the value of their mock generator and `fetchMarketSummary` a
summary whose three parts are mock data; when the request is rejected, so do
`fetchHistoricalData`, `fetchCompanyProfile` and `fetchMarketCapDistribution`. None of these
fallback values has an undefined field, and the summary of `fetchMarketSummary` has none on
any outcome. -/
theorem facade_fallback (E : Engine) (fetch : String → FetchResult) (rand : Nat → ℚ)
    (now : Int) (symbol period : String) (hrand : ∀ n, 0 ≤ rand n ∧ rand n < 1) :
    (fetchHistoricalData E fetch rand now symbol period =
        generateMockHistoricalData E rand now symbol period ∨
      ∃ data, fetch (historicalUrl symbol period) = .body data ∧
        parseHistoricalData E data (timeSeriesFunction period) =
          .ok (fetchHistoricalData E fetch rand now symbol period)) ∧
    (fetchCompanyProfile E fetch rand symbol = generateMockCompanyProfile E rand symbol ∨
      ∃ data, fetch (profileUrl symbol) = .body data ∧
        fetchCompanyProfile E fetch rand symbol = formatProfile E symbol data) ∧
    (fetchStockNews E fetch rand now symbol = generateMockNews E rand now symbol ∨
      ∃ data feed, fetch (newsUrl symbol) = .body data ∧ propOf data "feed" = .arr feed ∧
        formatNews E feed = .ok (fetchStockNews E fetch rand now symbol)) ∧
    (fetchTopPerformers E fetch rand = generateMockTopPerformers rand ∨
      ∃ data, fetch moversUrl = .body data ∧
        formatTopPerformers E data = .ok (fetchTopPerformers E fetch rand)) ∧
    (fetchMarketCapDistribution E fetch now = generateMockMarketCapDistribution E now ∨
      ∃ financialsData gainerLosersData,
        fetch "/api/financials" = .body financialsData ∧
        fetch moversUrl = .body gainerLosersData ∧
        marketCapCategories E financialsData gainerLosersData =
          .ok (fetchMarketCapDistribution E fetch now).categories) ∧
    (fetch (historicalUrl symbol period) = .rejected →
      fetchHistoricalData E fetch rand now symbol period =
        generateMockHistoricalData E rand now symbol period) ∧
    (fetch (profileUrl symbol) = .rejected →
      fetchCompanyProfile E fetch rand symbol = generateMockCompanyProfile E rand symbol) ∧
    (upstreamFailed (fetch (newsUrl symbol)) = true →
      fetchStockNews E fetch rand now symbol = generateMockNews E rand now symbol) ∧
    (upstreamFailed (fetch moversUrl) = true →
      fetchTopPerformers E fetch rand = generateMockTopPerformers rand) ∧
    (fetch "/api/financials" = .rejected ∨ fetch moversUrl = .rejected →
      fetchMarketCapDistribution E fetch now = generateMockMarketCapDistribution E now) ∧
    (upstreamFailed (fetch spxUrl) = true ∧ upstreamFailed (fetch moversUrl) = true ∧
        upstreamFailed (fetch sectorUrl) = true →
      (fetchMarketSummary E fetch rand now).dataSource =
        ⟨"Mock Data", "Mock Data", "Mock Data"⟩ ∧
      (fetchMarketSummary E fetch rand now).sectorPerformance = mockSectorPerformance ∧
      (fetchMarketSummary E fetch rand now).marketBreadth =
        ⟨.num (.fin 285), .num (.fin 215)⟩) ∧
    (generateMockCompanyProfile E rand symbol).noUndefined = true ∧
    (generateMockNews E rand now symbol).all NewsItem.noUndefined = true ∧
    (generateMockTopPerformers rand).noUndefined = true ∧
    (fetchMarketSummary E fetch rand now).noUndefined = true := by
  refine ⟨fetchHistoricalData_cases E fetch rand now symbol period,
    fetchCompanyProfile_cases E fetch rand symbol,
    fetchStockNews_cases E fetch rand now symbol,
    fetchTopPerformers_cases E fetch rand,
    fetchMarketCapDistribution_cases E fetch now,
    fun h => ?_, fun h => ?_, fetchStockNews_of_failed E fetch rand now symbol,
    fetchTopPerformers_of_failed E fetch rand,
    fetchMarketCapDistribution_of_rejected E fetch now,
    fun h => fetchMarketSummary_of_failed E fetch rand now h.1 h.2.1 h.2.2,
    generateMockCompanyProfile_noUndefined E rand symbol,
    generateMockNews_noUndefined E rand now symbol hrand,
    generateMockTopPerformers_noUndefined rand,
    fetchMarketSummary_noUndefined E fetch rand now⟩
  · simp [fetchHistoricalData, h]
  · simp [fetchCompanyProfile, h]

/-- Witness: every request is rejected and every draw is one half. -/
theorem facade_fallback_witness :
    fetchStockNews sampleEngine (fun _ => .rejected) (fun _ => 1 / 2) 0 "IBM" =
      generateMockNews sampleEngine (fun _ => 1 / 2) 0 "IBM" :=
  (facade_fallback sampleEngine (fun _ => .rejected) (fun _ => 1 / 2) 0 "IBM" "1y"
    (fun _ => ⟨by norm_num, by norm_num⟩)).2.2.2.2.2.2.2.1 rfl

/-- Counterexample to C1 as stated: on the failure body of the proxy `fetchCompanyProfile`
returns a profile whose symbol is `undefined`; on a feed item without title
`fetchStockNews` returns an item whose headline is `undefined`; on a gainer without ticker
`fetchTopPerformers` returns an entry whose symbol is `undefined`. -/
theorem facade_returns_undefined_fields :
    (fetchCompanyProfile sampleEngine (fun _ => .body sampleProxyFailure) (fun _ => 1 / 2)
      "IBM").symbol = .undefined ∧
    (fetchStockNews sampleEngine (fun _ => .body sampleNewsWithoutTitle) (fun _ => 1 / 2) 0
      "IBM").map NewsItem.headline = [.undefined] ∧
    (fetchTopPerformers sampleEngine (fun _ => .body sampleMoversWithoutTicker)
      (fun _ => 1 / 2)).topGainers.map Performer.Symbol = [.undefined] := by
  decide!

/-! ## The cache key -/

theorem hex_roundtrip (n : Nat) (h : n < 32) :
    Char.ofNat (hexValue (hexDigit (n / 16)) * 16 + hexValue (hexDigit (n % 16))) =
      Char.ofNat n := by
  interval_cases n <;> decide

theorem decodeFront_quoteJsonChar (c : Char) (x : List Char) :
    decodeFront (quoteJsonChar c ++ x) = some (c, x) := by
  unfold quoteJsonChar
  simp only []
  split_ifs with h1 h2 h3 h4 h5 h6 h7 h8
  · subst h1; rfl
  · subst h2; rfl
  · subst h3; rfl
  · subst h4; rfl
  · subst h5; rfl
  · subst h6; rfl
  · subst h7; rfl
  · have hc : Char.ofNat c.toNat = c := Char.ofNat_toNat c
    simp only [List.cons_append, List.nil_append, decodeFront, if_true]
    rw [hex_roundtrip c.toNat h8, hc]
  · simp only [List.cons_append, List.nil_append, decodeFront, h2, if_false]

theorem decodeFront_quote (x : List Char) :
    decodeFront (Char.ofNat 34 :: x) = some (Char.ofNat 34, x) := by
  simp [decodeFront]

theorem quoteJsonChar_ne_quote (c : Char) (x y : List Char) :
    quoteJsonChar c ++ x ≠ Char.ofNat 34 :: y := by
  intro h
  have h1 := decodeFront_quoteJsonChar c x
  rw [h, decodeFront_quote] at h1
  simp only [Option.some.injEq, Prod.mk.injEq] at h1
  obtain ⟨hc, hx⟩ := h1
  subst hc
  subst hx
  simp [quoteJsonChar] at h

/-- The body of a JSON string followed by the closing quote determines the string and what
follows the quote. -/
theorem quoted_body_inj (s s' : List Char) (x x' : List Char)
    (h : s.flatMap quoteJsonChar ++ Char.ofNat 34 :: x =
      s'.flatMap quoteJsonChar ++ Char.ofNat 34 :: x') : s = s' ∧ x = x' := by
  induction s generalizing s' with
  | nil =>
    cases s' with
    | nil => simpa using h
    | cons c' t' =>
      simp only [List.flatMap_nil, List.nil_append, List.flatMap_cons, List.append_assoc] at h
      exact absurd h.symm (quoteJsonChar_ne_quote c' _ _)
  | cons c t ih =>
    cases s' with
    | nil =>
      simp only [List.flatMap_nil, List.nil_append, List.flatMap_cons, List.append_assoc] at h
      exact absurd h (quoteJsonChar_ne_quote c _ _)
    | cons c' t' =>
      simp only [List.flatMap_cons, List.append_assoc] at h
      have h1 := decodeFront_quoteJsonChar c (t.flatMap quoteJsonChar ++ Char.ofNat 34 :: x)
      rw [h, decodeFront_quoteJsonChar] at h1
      simp only [Option.some.injEq, Prod.mk.injEq] at h1
      obtain ⟨hc, hrest⟩ := h1
      obtain ⟨ht, hx⟩ := ih t' hrest.symm
      exact ⟨by rw [hc, ht], hx⟩

theorem quoteJsonChars_inj (s s' : String) (x x' : List Char)
    (h : quoteJsonChars s ++ x = quoteJsonChars s' ++ x') : s = s' ∧ x = x' := by
  simp only [quoteJsonChars, List.cons_append, List.append_assoc, List.singleton_append,
    List.cons.injEq, true_and] at h
  obtain ⟨hs, hx⟩ := quoted_body_inj s.data s'.data x x' h
  exact ⟨String.ext hs, hx⟩

theorem entryChars_inj (kv kv' : String × String) (x x' : List Char)
    (h : entryChars kv ++ x = entryChars kv' ++ x') : kv = kv' ∧ x = x' := by
  simp only [entryChars, List.append_assoc, List.cons_append] at h
  obtain ⟨hk, h2⟩ := quoteJsonChars_inj kv.1 kv'.1 _ _ h
  simp only [List.cons.injEq, true_and] at h2
  obtain ⟨hv, hx⟩ := quoteJsonChars_inj kv.2 kv'.2 _ _ h2
  exact ⟨Prod.ext hk hv, hx⟩

theorem entryChars_ne_brace (kv : String × String) (x y : List Char) :
    entryChars kv ++ x ≠ Char.ofNat 125 :: y := by
  simp only [entryChars, quoteJsonChars, List.cons_append, ne_eq, List.cons.injEq, not_and]
  intro h
  exact absurd h (by decide)

theorem entriesChars_inj (q q' : Query) (x x' : List Char)
    (h : entriesChars q ++ Char.ofNat 125 :: x = entriesChars q' ++ Char.ofNat 125 :: x') :
    q = q' := by
  induction q generalizing q' with
  | nil =>
    cases q' with
    | nil => rfl
    | cons kv' rest' =>
      simp only [entriesChars, List.nil_append, List.append_assoc] at h
      exact absurd h.symm (entryChars_ne_brace kv' _ _)
  | cons kv rest ih =>
    cases q' with
    | nil =>
      simp only [entriesChars, List.nil_append, List.append_assoc] at h
      exact absurd h (entryChars_ne_brace kv _ _)
    | cons kv' rest' =>
      simp only [entriesChars, List.append_assoc] at h
      obtain ⟨hkv, hrest⟩ := entryChars_inj kv kv' _ _ h
      subst hkv
      cases rest with
      | nil =>
        cases rest' with
        | nil => rfl
        | cons a b =>
          simp only [List.nil_append, List.cons_append, List.cons.injEq] at hrest
          exact absurd hrest.1 (by decide)
      | cons a b =>
        cases rest' with
        | nil =>
          simp only [List.nil_append, List.cons_append, List.cons.injEq] at hrest
          exact absurd hrest.1 (by decide)
        | cons a' b' =>
          simp only [List.cons_append, List.cons.injEq, true_and] at hrest
          rw [ih (a' :: b') hrest]

/-- The cache key determines the parameters and their order. -/
theorem jsonStringifyQuery_inj (q q' : Query)
    (h : jsonStringifyQuery q = jsonStringifyQuery q') : q = q' := by
  have h1 := congrArg String.data h
  simp only [jsonStringifyQuery, List.cons.injEq, true_and] at h1
  exact entriesChars_inj q q' [] [] h1

/-- Claim C5, amended. Two requests get the same cache key exactly when their query objects
list the same parameter names and values in the same order. After a request with parameters
`q` has been answered from the provider and stored at time `t`, a request listing the same
parameters in the same order within thirty minutes is served from that entry; a request
whose list differs, be it only in the order, does not read that entry: under its key it
finds what the cache held before. -/
theorem cache_key_order (E : Engine) (net net' : String → Upstream) (c0 : Cache)
    (q q' : Query) (t0 t t' t'' : Int)
    (hcall : (alphaVantageProxy E net c0 q t0 t).requested ≠ none)
    (hok : (alphaVantageProxy E net c0 q t0 t).reply.status = 200)
    (hfresh : t' - t < CACHE_DURATION) :
    (jsonStringifyQuery q' = jsonStringifyQuery q ↔ q' = q) ∧
    (q' = q →
      alphaVantageProxy E net' (alphaVantageProxy E net c0 q t0 t).cache q' t' t'' =
        ⟨⟨200, (alphaVantageProxy E net c0 q t0 t).reply.body⟩,
          (alphaVantageProxy E net c0 q t0 t).cache, none⟩) ∧
    (q' ≠ q →
      mapGet (jsonStringifyQuery q') (alphaVantageProxy E net c0 q t0 t).cache =
        mapGet (jsonStringifyQuery q') c0) := by
  refine ⟨⟨jsonStringifyQuery_inj q' q, fun h => by rw [h]⟩, fun h => ?_, fun h => ?_⟩
  · subst h
    obtain ⟨⟨func, hf, hne⟩, hstored⟩ := proxy_success_stores E net c0 q' t0 t hcall hok
    exact proxy_hit E net' _ q' t' t'' func hf hne _ hstored hfresh
  · obtain ⟨func, _, _, hr⟩ := proxy_requested_refresh E net c0 q t0 t hcall
    have hkey : jsonStringifyQuery q ≠ jsonStringifyQuery q' :=
      fun hk => h (jsonStringifyQuery_inj q' q hk.symm)
    rw [hr] at hok ⊢
    rcases refresh_cache_cases E net c0 q func t with ⟨hc, _⟩ | ⟨hc, _⟩
    · rw [hc]
    · rw [hc, mapGet_mapSet_ne _ _ _ _ hkey]

/-- Witness: the same request twice. -/
theorem cache_key_order_witness :
    (alphaVantageProxy sampleEngine (fun _ => .failure ⟨none, "down"⟩)
      (alphaVantageProxy sampleEngine (fun _ => .response (.obj [("Symbol", .str "IBM")])) []
        [("function", "OVERVIEW"), ("symbol", "IBM")] 0 5).cache
      [("function", "OVERVIEW"), ("symbol", "IBM")] 100 101).requested = none :=
  congrArg ProxyResult.requested
    ((cache_key_order sampleEngine (fun _ => .response (.obj [("Symbol", .str "IBM")]))
      (fun _ => .failure ⟨none, "down"⟩) []
      [("function", "OVERVIEW"), ("symbol", "IBM")] [("function", "OVERVIEW"), ("symbol", "IBM")]
      0 5 100 101 (by decide!) (by decide!) (by decide)).2.1 rfl)

/-- Counterexample to C5 as stated: the requests `function=OVERVIEW&symbol=IBM` and
`symbol=IBM&function=OVERVIEW` carry the same parameters and get different cache keys; after
the first has been stored, the second is not served from the cache but goes to the
provider. -/
theorem cache_key_depends_on_order :
    jsonStringifyQuery [("function", "OVERVIEW"), ("symbol", "IBM")] ≠
      jsonStringifyQuery [("symbol", "IBM"), ("function", "OVERVIEW")] ∧
    (alphaVantageProxy sampleEngine (fun _ => .response (.obj [("Symbol", .str "IBM")]))
      (alphaVantageProxy sampleEngine (fun _ => .response (.obj [("Symbol", .str "IBM")])) []
        [("function", "OVERVIEW"), ("symbol", "IBM")] 0 5).cache
      [("symbol", "IBM"), ("function", "OVERVIEW")] 100 101).requested ≠ none := by
  decide!

/-! ## The mock historical series -/

theorem mockHistoricalLoop_dates (E : Engine) (rand : Nat → ℚ) (today : Int)
    (is : List Nat) (price : ℚ) (k : Nat) :
    (mockHistoricalLoop E rand today is price k).map PricePoint.date =
      is.map fun i => E.isoDay (E.minusDays today i) := by
  induction is generalizing price k with
  | nil => rfl
  | cons i rest ih => simp only [mockHistoricalLoop, List.map_cons, ih]

/-- The dates of the mock series are the texts of today moved back by `days`, ..., `1`, `0`
days, in this order. -/
theorem generateMockHistoricalData_dates (E : Engine) (rand : Nat → ℚ) (today : Int)
    (symbol period : String) :
    (generateMockHistoricalData E rand today symbol period).map PricePoint.date =
      (List.range (mockDays period + 1)).reverse.map fun i =>
        E.isoDay (E.minusDays today i) := by
  simp only [generateMockHistoricalData, mockHistoricalLoop_dates]

theorem mockHistoricalLoop_bounds (E : Engine) (rand : Nat → ℚ) (today : Int)
    (hrand : ∀ n, 0 ≤ rand n ∧ rand n < 1) (is : List Nat) (price : ℚ) (k : Nat) :
    ∀ p ∈ mockHistoricalLoop E rand today is price k,
      p.close.ge p.low = true ∧ p.high.ge p.close = true ∧ p.close.ge p.open_ = true ∧
      p.high.ge p.open_ = true ∧ p.volume.ge (.fin 0) = true := by
  induction is generalizing price k with
  | nil => intro p hp; cases hp
  | cons i rest ih =>
    intro p hp
    simp only [mockHistoricalLoop, List.mem_cons] at hp
    rcases hp with rfl | hp
    · have hpos : (0 : ℚ) < max 1 (price * (1 + (rand k - 48 / 100) * 2 / 100)) :=
        lt_of_lt_of_le one_pos (le_max_left _ _)
      have h2 := (hrand (k + 2)).1
      have h3 := (hrand (k + 3)).1
      have h4 := (hrand (k + 4)).1
      have hfloor : (0 : ℚ) ≤ ((Rat.floor (rand (k + 1) * 10000000) : Int) : ℚ) := by
        have : (0 : Int) ≤ Rat.floor (rand (k + 1) * 10000000) := by
          rw [ratFloor_eq]; exact Int.floor_nonneg.mpr (by have := (hrand (k + 1)).1; positivity)
        exact_mod_cast this
      simp only [JsNum.ge, decide_eq_true_eq]
      refine ⟨?_, ?_, ?_, ?_, ?_⟩
      · nlinarith
      · nlinarith
      · nlinarith
      · nlinarith
      · linarith
    · exact ih _ _ p hp

/-- What holds of the mock series for draws in `[0, 1)`: in every point the close lies
between the low and the high, the open is at most the close and the high, and the volume is
not negative. The open is not bounded from below by the low. -/
theorem generateMockHistoricalData_bounds (E : Engine) (rand : Nat → ℚ) (today : Int)
    (symbol period : String) (hrand : ∀ n, 0 ≤ rand n ∧ rand n < 1) :
    ∀ p ∈ generateMockHistoricalData E rand today symbol period,
      p.close.ge p.low = true ∧ p.high.ge p.close = true ∧ p.close.ge p.open_ = true ∧
      p.high.ge p.open_ = true ∧ p.volume.ge (.fin 0) = true :=
  mockHistoricalLoop_bounds E rand today hrand _ _ _

/-- Claim C11. The code at the failing input: for the symbol `IBM`, the period `1m` and
draws that are `0` but for the open of the first round, which is one half, the first point
has the low 65.3664 and the open 65.039568: the open lies below the low. -/
theorem generateMockHistoricalData_open_below_low :
    (∀ n, 0 ≤ sampleDrawsOpenLow n ∧ sampleDrawsOpenLow n < 1) ∧
    ((generateMockHistoricalData sampleEngine sampleDrawsOpenLow 0 "IBM" "1m").map
      fun p => (p.low, p.open_)).head? = some (.fin (653664 / 10000), .fin (65039568 / 1000000)) ∧
    ((generateMockHistoricalData sampleEngine sampleDrawsOpenLow 0 "IBM" "1m").map
      fun p => p.open_.ge p.low).head? = some false := by
  refine ⟨fun n => ?_, by decide!, by decide!⟩
  unfold sampleDrawsOpenLow
  split <;> norm_num

/-- What holds of the dates when the date texts can be read as whole days (`dayOf`) on which
moving today back by `i` days gives the day `i` before today's: the dates of the mock series
are strictly ascending, and the point of index `i` from the end is dated `i` days before
today. -/
theorem generateMockHistoricalData_whole_days (E : Engine) (rand : Nat → ℚ) (today : Int)
    (symbol period : String) (dayOf : String → Int)
    (hday : ∀ i, dayOf (E.isoDay (E.minusDays today i)) = dayOf (E.isoDay today) - i) :
    ((generateMockHistoricalData E rand today symbol period).map PricePoint.date).Pairwise
      (fun a b => dayOf a < dayOf b) ∧
    ∀ i, i ≤ mockDays period →
      (((generateMockHistoricalData E rand today symbol period).map PricePoint.date).reverse[i]?).map
        dayOf = some (dayOf (E.isoDay today) - i) := by
  rw [generateMockHistoricalData_dates]
  constructor
  · rw [List.pairwise_map, List.pairwise_reverse]
    refine List.Pairwise.imp_of_mem ?_ (List.pairwise_lt_range _)
    intro a b _ _ hab
    rw [hday, hday]
    omega
  · intro i hi
    rw [← List.map_reverse, List.reverse_reverse, List.getElem?_map,
      List.getElem?_range (by omega)]
    simp [hday]

/-- Claim C12. The code at the failing input: in a zone that moves from one to two hours
ahead of UTC on 2024-03-31 at 01:00 UTC, with the clock at 2024-03-31T23:30Z (01:30 of
April 1 in local time), the last two points of the series are both dated 2024-03-31. -/
theorem generateMockHistoricalData_duplicate_date :
    ((generateMockHistoricalData zoneEngine (fun _ => 0) 1711927800000 "IBM" "1m").map
      PricePoint.date).reverse.take 3 = ["2024-03-31", "2024-03-31", "2024-03-30"] ∧
    zoneEngine.isoString 1711927800000 = "2024-03-31T23:30:00.000Z" ∧
    zoneEngine.isoString (zoneEngine.minusDays 1711927800000 1) = "2024-03-31T00:30:00.000Z" := by
  decide!

/-! ## The market summary -/

theorem generateMockMarketSummary_ordered (E : Engine) (rand : Nat → ℚ) (k : Nat) (now : Int) :
    (generateMockMarketSummary E rand k now).spxIndex.high.ge
        (generateMockMarketSummary E rand k now).spxIndex.price = true ∧
    (generateMockMarketSummary E rand k now).spxIndex.price.ge
        (generateMockMarketSummary E rand k now).spxIndex.low = true := by
  simp only [generateMockMarketSummary, JsNum.ge, decide_eq_true_eq]
  exact ⟨le_max_right _ _, min_le_right _ _⟩

/-- Claim C14. For every outcome of the random source, the record of
`generateMockMarketSummary` has `spxIndex.high >= spxIndex.price >= spxIndex.low`, 285
advances and 215 declines, and the three provenance tags `Mock Data`. -/
theorem generateMockMarketSummary_invariants (E : Engine) (rand : Nat → ℚ) (k : Nat)
    (now : Int) :
    (generateMockMarketSummary E rand k now).spxIndex.high.ge
        (generateMockMarketSummary E rand k now).spxIndex.price = true ∧
    (generateMockMarketSummary E rand k now).spxIndex.price.ge
        (generateMockMarketSummary E rand k now).spxIndex.low = true ∧
    (generateMockMarketSummary E rand k now).marketBreadth.advances = .num (.fin 285) ∧
    (generateMockMarketSummary E rand k now).marketBreadth.declines = .num (.fin 215) ∧
    (generateMockMarketSummary E rand k now).dataSource.spx = "Mock Data" ∧
    (generateMockMarketSummary E rand k now).dataSource.breadth = "Mock Data" ∧
    (generateMockMarketSummary E rand k now).dataSource.sectors = "Mock Data" :=
  ⟨(generateMockMarketSummary_ordered E rand k now).1,
    (generateMockMarketSummary_ordered E rand k now).2, rfl, rfl, rfl, rfl, rfl⟩

theorem formatSpxIndex_mockSpxQuote_eq (E : Engine) (rand : Nat → ℚ) (k : Nat) (now : Int) :
    formatSpxIndex E (mockSpxQuote E rand k now) =
      .ok { symbol := .str "^GSPC"
            price := (E.parseFloat (.str (E.numToString
              (generateMockMarketSummary E rand k now).spxIndex.price))).orElse (.fin (450025 / 100))
            change := (E.parseFloat (.str (E.toFixed
              ((generateMockMarketSummary E rand k now).spxIndex.price.mul (.fin (5 / 1000))) 2))).orElse
                (.fin (1575 / 100))
            changePercent := (E.parseFloat (.str (replaceWithEmpty "0.5%" "%"))).orElse
              (.fin (35 / 100))
            open_ := (E.parseFloat (.str (E.numToString
              (generateMockMarketSummary E rand k now).spxIndex.price))).orElse (.fin (448550 / 100))
            high := (E.parseFloat (.str (E.numToString
              (generateMockMarketSummary E rand k now).spxIndex.high))).orElse (.fin (451075 / 100))
            low := (E.parseFloat (.str (E.numToString
              (generateMockMarketSummary E rand k now).spxIndex.low))).orElse (.fin (447525 / 100))
            previousClose := (E.parseFloat (.str (E.toFixed
              ((generateMockMarketSummary E rand k now).spxIndex.price.mul (.fin (995 / 1000))) 2))).orElse
                (.fin (448450 / 100))
            volume := (E.parseFloat (.str (E.toFixed (.fin (rand (k + 8) * 5000000000)) 0))).orElse
              (.fin 2500000000) } := by
  rfl

theorem JsNum.orElse_fin (q : ℚ) (d : JsNum) (h : q ≠ 0) : (JsNum.fin q).orElse d = .fin q := by
  simp [JsNum.orElse, JsNum.truthy, h]

/-- The result of `fetchMarketSummary` is the record of the mock generator when the body of
the `try` block throws, and otherwise the record put together from the three parts. -/
theorem fetchMarketSummary_cases (E : Engine) (fetch : String → FetchResult)
    (rand : Nat → ℚ) (now : Int) :
    (∃ k, fetchMarketSummary E fetch rand now = generateMockMarketSummary E rand k now) ∨
    (∃ spxIndex sectorPerformance,
      formatSpxIndex E (spxQuoteOf E rand now (bodyOrNull (fetch spxUrl))) = .ok spxIndex ∧
      sectorsOf E (bodyOrNull (fetch sectorUrl)) = .ok sectorPerformance ∧
      fetchMarketSummary E fetch rand now =
        { spxIndex := spxIndex
          marketBreadth := breadthOf (bodyOrNull (fetch moversUrl))
          sectorPerformance := sectorPerformance
          sentiment := none
          timestamp := E.isoString now
          dataSource := ⟨tagOf (validSpx (bodyOrNull (fetch spxUrl))),
            tagOf (validGainersLosers (bodyOrNull (fetch moversUrl))),
            tagOf (validSector (bodyOrNull (fetch sectorUrl)))⟩ }) := by
  cases hs : sectorsOf E (bodyOrNull (fetch sectorUrl)) with
  | error e =>
    left
    refine ⟨if validGainersLosers (bodyOrNull (fetch moversUrl)) then
        (if validSpx (bodyOrNull (fetch spxUrl)) then 0 else 9)
      else (if validSpx (bodyOrNull (fetch spxUrl)) then 0 else 9) + 8, ?_⟩
    simp only [sectorsOf] at hs
    simp only [fetchMarketSummary, generateMockMarketSummary, hs]
  | ok sp =>
    cases hq : formatSpxIndex E (spxQuoteOf E rand now (bodyOrNull (fetch spxUrl))) with
    | error e =>
      left
      refine ⟨if validSector (bodyOrNull (fetch sectorUrl)) then
          (if validGainersLosers (bodyOrNull (fetch moversUrl)) then
            (if validSpx (bodyOrNull (fetch spxUrl)) then 0 else 9)
          else (if validSpx (bodyOrNull (fetch spxUrl)) then 0 else 9) + 8)
        else (if validGainersLosers (bodyOrNull (fetch moversUrl)) then
            (if validSpx (bodyOrNull (fetch spxUrl)) then 0 else 9)
          else (if validSpx (bodyOrNull (fetch spxUrl)) then 0 else 9) + 8) + 8, ?_⟩
      simp only [sectorsOf, spxQuoteOf] at hs hq
      simp only [fetchMarketSummary, generateMockMarketSummary, hs, hq]
    | ok idx =>
      right
      refine ⟨idx, sp, rfl, rfl, ?_⟩
      simp only [sectorsOf, spxQuoteOf] at hs hq
      simp only [fetchMarketSummary, generateMockMarketSummary, hs, hq, breadthOf, tagOf]


/-- Claim C13. The claim fails on a result built from a provider quote: with the quote
`sampleQuoteAboveHigh` (price 4100, high 4000, low 3900) the index of the summary is taken
from the provider and its high lies below its price. -/
theorem fetchMarketSummary_price_above_high :
    (fetchMarketSummary sampleEngine sampleFetchAboveHigh (fun _ => 0) 0).dataSource.spx
      = "Alpha Vantage" ∧
    (fetchMarketSummary sampleEngine sampleFetchAboveHigh (fun _ => 0) 0).spxIndex.price
      = .fin 4100 ∧
    (fetchMarketSummary sampleEngine sampleFetchAboveHigh (fun _ => 0) 0).spxIndex.high
      = .fin 4000 ∧
    (fetchMarketSummary sampleEngine sampleFetchAboveHigh (fun _ => 0) 0).spxIndex.high.ge
      (fetchMarketSummary sampleEngine sampleFetchAboveHigh (fun _ => 0) 0).spxIndex.price
      = false := by
  decide!

/-- Claim C13, amended. In every result of `fetchMarketSummary` whose index quote is not the
provider's (`dataSource.spx` is `Mock Data`: the mock quote or the whole-call fallback), the
price lies between the low and the high, when the draws lie in `[0, 1)` and `parseFloat`
reads back the price, the high and the low written by `toString`. -/
theorem fetchMarketSummary_mock_quote_ordered (E : Engine) (fetch : String → FetchResult)
    (rand : Nat → ℚ) (now : Int) (hrand : ∀ n, 0 ≤ rand n ∧ rand n < 1)
    (hprice : E.parseFloat (.str (E.numToString
      (generateMockMarketSummary E rand 0 now).spxIndex.price))
        = (generateMockMarketSummary E rand 0 now).spxIndex.price)
    (hhigh : E.parseFloat (.str (E.numToString
      (generateMockMarketSummary E rand 0 now).spxIndex.high))
        = (generateMockMarketSummary E rand 0 now).spxIndex.high)
    (hlow : E.parseFloat (.str (E.numToString
      (generateMockMarketSummary E rand 0 now).spxIndex.low))
        = (generateMockMarketSummary E rand 0 now).spxIndex.low)
    (hmock : (fetchMarketSummary E fetch rand now).dataSource.spx = "Mock Data") :
    (fetchMarketSummary E fetch rand now).spxIndex.price.ge
      (fetchMarketSummary E fetch rand now).spxIndex.low = true ∧
    (fetchMarketSummary E fetch rand now).spxIndex.high.ge
      (fetchMarketSummary E fetch rand now).spxIndex.price = true := by
  rcases fetchMarketSummary_cases E fetch rand now with ⟨k, hk⟩ | ⟨idx, sp, hq, -, hres⟩
  · rw [hk]
    exact ⟨(generateMockMarketSummary_ordered E rand k now).2,
      (generateMockMarketSummary_ordered E rand k now).1⟩
  · rw [hres] at hmock ⊢
    have hv : validSpx (bodyOrNull (fetch spxUrl)) = false := by
      cases hv : validSpx (bodyOrNull (fetch spxUrl)) with
      | false => rfl
      | true => simp [tagOf, hv] at hmock
    have hmockq := formatSpxIndex_mockSpxQuote_eq E rand 0 now
    rw [hprice, hhigh, hlow] at hmockq
    simp only [spxQuoteOf, hv, Bool.false_eq_true, if_false] at hq
    rw [hmockq] at hq
    have hidx := (Except.ok.inj hq).symm
    have h0 := (hrand 0).1
    have h4 := (hrand 4).1
    have h5 := (hrand 5).1
    have hp : (4500 + rand 0 * 200 : ℚ) ≠ 0 := by linarith
    have hh : max (4520 + rand 4 * 50) (4500 + rand 0 * 200 : ℚ) ≠ 0 :=
      ne_of_gt (lt_of_lt_of_le (by linarith) (le_max_right _ _))
    have hl : min (4470 + rand 5 * 40) (4500 + rand 0 * 200 : ℚ) ≠ 0 :=
      ne_of_gt (lt_min (by linarith) (by linarith))
    simp only [hidx, generateMockMarketSummary, JsNum.orElse_fin _ _ hp, JsNum.orElse_fin _ _ hh,
      JsNum.orElse_fin _ _ hl, JsNum.ge, decide_eq_true_eq]
    exact ⟨min_le_right _ _, le_max_right _ _⟩

/-- The amended claim C13 at a failing network with every draw one half: the mock quote has
price 4600, high 4600 and low 4490. -/
theorem fetchMarketSummary_mock_quote_ordered_witness :
    (fetchMarketSummary sampleEngine (fun _ => .rejected) (fun _ => 1 / 2) 0).spxIndex.low
      = .fin 4490 ∧
    (fetchMarketSummary sampleEngine (fun _ => .rejected) (fun _ => 1 / 2) 0).spxIndex.price.ge
      (fetchMarketSummary sampleEngine (fun _ => .rejected) (fun _ => 1 / 2) 0).spxIndex.low
        = true ∧
    (fetchMarketSummary sampleEngine (fun _ => .rejected) (fun _ => 1 / 2) 0).spxIndex.high.ge
      (fetchMarketSummary sampleEngine (fun _ => .rejected) (fun _ => 1 / 2) 0).spxIndex.price
        = true :=
  ⟨by decide!, fetchMarketSummary_mock_quote_ordered sampleEngine (fun _ => .rejected)
    (fun _ => 1 / 2) 0 (fun _ => by norm_num) (by decide!) (by decide!) (by decide!)
    (by decide!)⟩

/-! ## The index quote of the provider -/

/-- A result of `fetchMarketSummary` tagged `Alpha Vantage` for the index has its index
built by `formatSpxIndex` from the `Global Quote` of the payload. -/
theorem fetchMarketSummary_real_quote (E : Engine) (fetch : String → FetchResult)
    (rand : Nat → ℚ) (now : Int)
    (h : (fetchMarketSummary E fetch rand now).dataSource.spx = "Alpha Vantage") :
    validSpx (bodyOrNull (fetch spxUrl)) = true ∧
    formatSpxIndex E (propOf (bodyOrNull (fetch spxUrl)) "Global Quote")
      = .ok (fetchMarketSummary E fetch rand now).spxIndex := by
  rcases fetchMarketSummary_cases E fetch rand now with ⟨k, hk⟩ | ⟨idx, sp, hq, -, hres⟩
  · rw [hk] at h
    have hm : (generateMockMarketSummary E rand k now).dataSource.spx = "Mock Data" := rfl
    rw [hm] at h
    exact absurd h (by decide)
  · rw [hres] at h ⊢
    have hv : validSpx (bodyOrNull (fetch spxUrl)) = true := by
      cases hv : validSpx (bodyOrNull (fetch spxUrl)) with
      | true => rfl
      | false => simp [tagOf, hv] at h
    simp only [spxQuoteOf, hv, if_true] at hq
    exact ⟨hv, hq⟩

/-- The numeric fields of the index built from a quote object: each one is the number
parsed from the field of the provider, or the hard-coded default when that number is `0`
or `NaN`. -/
theorem formatSpxIndex_fields (E : Engine) (spxQuote : JsVal) (spxIndex : SpxIndex)
    (h : formatSpxIndex E spxQuote = .ok spxIndex) :
    spxIndex.price = (E.parseFloat (propOf spxQuote "05. price")).orElse (.fin (450025 / 100)) ∧
    spxIndex.change = (E.parseFloat (propOf spxQuote "09. change")).orElse (.fin (1575 / 100)) ∧
    spxIndex.open_ = (E.parseFloat (propOf spxQuote "02. open")).orElse (.fin (448550 / 100)) ∧
    spxIndex.high = (E.parseFloat (propOf spxQuote "03. high")).orElse (.fin (451075 / 100)) ∧
    spxIndex.low = (E.parseFloat (propOf spxQuote "04. low")).orElse (.fin (447525 / 100)) ∧
    spxIndex.previousClose =
      (E.parseFloat (propOf spxQuote "08. previous close")).orElse (.fin (448450 / 100)) ∧
    spxIndex.volume = (E.parseFloat (propOf spxQuote "06. volume")).orElse (.fin 2500000000) := by
  unfold formatSpxIndex at h
  split at h
  · cases h
  · cases h
    exact ⟨rfl, rfl, rfl, rfl, rfl, rfl, rfl⟩

/-- A number other than `0` and `NaN` is kept by `|| default`. -/
theorem JsNum.orElse_of_truthy (a d : JsNum) (h : a.truthy = true) : a.orElse d = a := by
  simp [JsNum.orElse, h]

/-- Claim C15. The code at the failing input: the quote `sampleQuoteUnchanged` passes the
validation and supplies a change of `0.0000` and a percent change of `0.0000%`, which
`parseFloat` reads as `0`; the summary reports the hard-coded `15.75` and `0.35` instead,
while the price, which is not `0`, is the provider's. -/
theorem fetchMarketSummary_zero_change_replaced :
    (fetchMarketSummary sampleEngine sampleFetchUnchanged (fun _ => 0) 0).dataSource.spx
      = "Alpha Vantage" ∧
    sampleEngine.parseFloat (propOf (propOf sampleQuoteUnchanged "Global Quote") "09. change")
      = .fin 0 ∧
    (fetchMarketSummary sampleEngine sampleFetchUnchanged (fun _ => 0) 0).spxIndex.change
      = .fin (1575 / 100) ∧
    (fetchMarketSummary sampleEngine sampleFetchUnchanged (fun _ => 0) 0).spxIndex.changePercent
      = .fin (35 / 100) ∧
    (fetchMarketSummary sampleEngine sampleFetchUnchanged (fun _ => 0) 0).spxIndex.price
      = .fin 4500 := by
  decide!

/-! ## The provenance tags of the market summary -/

/-- Claim C16. The claim fails when the formatting of one part throws: the networks
`sampleFetchSectorText` and `sampleFetchSectorNumber` give the same valid quote and the same
movers outcome and differ only in the sector payload, and the tag of the index quote is
`Alpha Vantage` with the first and `Mock Data` with the second. -/
theorem fetchMarketSummary_tag_follows_other_payload :
    sampleFetchSectorText spxUrl = sampleFetchSectorNumber spxUrl ∧
    sampleFetchSectorText moversUrl = sampleFetchSectorNumber moversUrl ∧
    validSpx (bodyOrNull (sampleFetchSectorNumber spxUrl)) = true ∧
    (fetchMarketSummary sampleEngine sampleFetchSectorText (fun _ => 0) 0).dataSource.spx
      = "Alpha Vantage" ∧
    (fetchMarketSummary sampleEngine sampleFetchSectorNumber (fun _ => 0) 0).dataSource.spx
      = "Mock Data" := by
  decide!

/-- A result without the field `sentiment` is the record put together from the three
parts. -/
theorem fetchMarketSummary_composed (E : Engine) (fetch : String → FetchResult)
    (rand : Nat → ℚ) (now : Int)
    (h : (fetchMarketSummary E fetch rand now).sentiment = none) :
    ∃ spxIndex sectorPerformance,
      formatSpxIndex E (spxQuoteOf E rand now (bodyOrNull (fetch spxUrl))) = .ok spxIndex ∧
      sectorsOf E (bodyOrNull (fetch sectorUrl)) = .ok sectorPerformance ∧
      fetchMarketSummary E fetch rand now =
        { spxIndex := spxIndex
          marketBreadth := breadthOf (bodyOrNull (fetch moversUrl))
          sectorPerformance := sectorPerformance
          sentiment := none
          timestamp := E.isoString now
          dataSource := ⟨tagOf (validSpx (bodyOrNull (fetch spxUrl))),
            tagOf (validGainersLosers (bodyOrNull (fetch moversUrl))),
            tagOf (validSector (bodyOrNull (fetch sectorUrl)))⟩ } := by
  rcases fetchMarketSummary_cases E fetch rand now with ⟨k, hk⟩ | hc
  · rw [hk] at h
    cases h
  · exact hc

theorem tagOf_real_iff (b : Bool) : tagOf b = "Alpha Vantage" ↔ b = true := by
  cases b <;> simp [tagOf]

theorem tagOf_mock_iff (b : Bool) : tagOf b = "Mock Data" ↔ b = false := by
  cases b <;> simp [tagOf]

/-- Claim C16, amended. In a result of `fetchMarketSummary` put together from the three
parts (the record of lines 382-402, which has no `sentiment`), each tag is `Alpha Vantage`
when the test of the source on its payload succeeds and `Mock Data` when it fails: the
payload and its `Global Quote` are truthy and the latter has a key; `top_gainers` and
`top_losers` are truthy; `Rank A: Real-Time Performance` is truthy. Between two such results,
for the same draws and clock, a tag and the part it labels are the same whenever the
sub-fetch of that part has the same outcome. -/
theorem fetchMarketSummary_tags (E : Engine) (fetch fetch2 : String → FetchResult)
    (rand : Nat → ℚ) (now : Int)
    (h : (fetchMarketSummary E fetch rand now).sentiment = none)
    (h2 : (fetchMarketSummary E fetch2 rand now).sentiment = none) :
    (((fetchMarketSummary E fetch rand now).dataSource.spx = "Alpha Vantage"
        ↔ validSpx (bodyOrNull (fetch spxUrl)) = true) ∧
      ((fetchMarketSummary E fetch rand now).dataSource.spx = "Mock Data"
        ↔ validSpx (bodyOrNull (fetch spxUrl)) = false) ∧
      ((fetchMarketSummary E fetch rand now).dataSource.breadth = "Alpha Vantage"
        ↔ validGainersLosers (bodyOrNull (fetch moversUrl)) = true) ∧
      ((fetchMarketSummary E fetch rand now).dataSource.breadth = "Mock Data"
        ↔ validGainersLosers (bodyOrNull (fetch moversUrl)) = false) ∧
      ((fetchMarketSummary E fetch rand now).dataSource.sectors = "Alpha Vantage"
        ↔ validSector (bodyOrNull (fetch sectorUrl)) = true) ∧
      ((fetchMarketSummary E fetch rand now).dataSource.sectors = "Mock Data"
        ↔ validSector (bodyOrNull (fetch sectorUrl)) = false)) ∧
    (fetch spxUrl = fetch2 spxUrl →
      (fetchMarketSummary E fetch rand now).dataSource.spx
        = (fetchMarketSummary E fetch2 rand now).dataSource.spx ∧
      (fetchMarketSummary E fetch rand now).spxIndex
        = (fetchMarketSummary E fetch2 rand now).spxIndex) ∧
    (fetch moversUrl = fetch2 moversUrl →
      (fetchMarketSummary E fetch rand now).dataSource.breadth
        = (fetchMarketSummary E fetch2 rand now).dataSource.breadth ∧
      (fetchMarketSummary E fetch rand now).marketBreadth
        = (fetchMarketSummary E fetch2 rand now).marketBreadth) ∧
    (fetch sectorUrl = fetch2 sectorUrl →
      (fetchMarketSummary E fetch rand now).dataSource.sectors
        = (fetchMarketSummary E fetch2 rand now).dataSource.sectors ∧
      (fetchMarketSummary E fetch rand now).sectorPerformance
        = (fetchMarketSummary E fetch2 rand now).sectorPerformance) := by
  obtain ⟨idx, sp, hq, hs, hres⟩ := fetchMarketSummary_composed E fetch rand now h
  obtain ⟨idx2, sp2, hq2, hs2, hres2⟩ := fetchMarketSummary_composed E fetch2 rand now h2
  rw [hres, hres2]
  refine ⟨⟨tagOf_real_iff _, tagOf_mock_iff _, tagOf_real_iff _, tagOf_mock_iff _,
    tagOf_real_iff _, tagOf_mock_iff _⟩, ?_, ?_, ?_⟩
  · intro he
    rw [← he, hq] at hq2
    exact ⟨by simp only [he], Except.ok.inj hq2⟩
  · intro he
    exact ⟨by simp only [he], by simp only [he]⟩
  · intro he
    rw [← he, hs] at hs2
    exact ⟨by simp only [he], Except.ok.inj hs2⟩

/-- The amended claim C16 at two networks that give the same sector outcome (a failure) and
different quotes: both results are put together from the parts, the first with the index of
the provider and the second with the mock one, and the sector parts agree. -/
theorem fetchMarketSummary_tags_witness :
    (fetchMarketSummary sampleEngine sampleFetchAboveHigh (fun _ => 0) 0).dataSource.spx
      = "Alpha Vantage" ∧
    (fetchMarketSummary sampleEngine (fun _ => .rejected) (fun _ => 0) 0).dataSource.spx
      = "Mock Data" ∧
    (fetchMarketSummary sampleEngine sampleFetchAboveHigh (fun _ => 0) 0).dataSource.sectors
        = (fetchMarketSummary sampleEngine (fun _ => .rejected) (fun _ => 0) 0).dataSource.sectors ∧
    (fetchMarketSummary sampleEngine sampleFetchAboveHigh (fun _ => 0) 0).sectorPerformance
        = (fetchMarketSummary sampleEngine (fun _ => .rejected) (fun _ => 0) 0).sectorPerformance :=
  ⟨by decide!, by decide!,
    (fetchMarketSummary_tags sampleEngine sampleFetchAboveHigh (fun _ => .rejected) (fun _ => 0) 0
      (by decide!) (by decide!)).2.2.2 (by decide!)⟩

/-! ## The sector request over the rate limit -/

/-- The check of the proxy on a payload that is a rate-limit note. -/
theorem checkResponse_rate_limited (E : Engine) (func s : String)
    (hs : occursIn "API call frequency".data s.data = true) :
    checkResponse E func (.obj [("Information", .str s)]) =
      .error ⟨none, "Alpha Vantage API call frequency exceeded. Please try again later."⟩ := by
  have hne : s ≠ "" := by
    rintro rfl
    simp [occursIn] at hs
  simp [checkResponse, getProp, isNullish, propOf, lookupKey, truthy, typeofObject, includesStr,
    hs, hne]

/-- With an invalid sector payload the summary has the sector list of the mock generator and
the sector tag `Mock Data`, in the record put together from the parts and in the whole-call
fallback alike. -/
theorem fetchMarketSummary_mock_sectors (E : Engine) (fetch : String → FetchResult)
    (rand : Nat → ℚ) (now : Int) (h : validSector (bodyOrNull (fetch sectorUrl)) = false) :
    (fetchMarketSummary E fetch rand now).dataSource.sectors = "Mock Data" ∧
    (fetchMarketSummary E fetch rand now).sectorPerformance = mockSectorPerformance := by
  rcases fetchMarketSummary_cases E fetch rand now with ⟨k, hk⟩ | ⟨idx, sp, -, hs, hres⟩
  · rw [hk]
    exact ⟨rfl, rfl⟩
  · rw [hres]
    simp only [sectorsOf, h, Bool.false_eq_true, if_false] at hs
    exact ⟨by simp [tagOf, h], (Except.ok.inj hs).symm⟩

/-- Claim C17. When the proxy asks the provider for `function=SECTOR` and the answer is an
object `Information: s` with `s` containing `API call frequency`, the proxy replies with
status 500 and the failure body, which has no `Rank A: Real-Time Performance`; and
`fetchMarketSummary`, reading that body for its sector request, returns a summary tagged
`Mock Data` for the sectors whose sector list has ten entries in descending order of
change. -/
theorem sector_rate_limit_summary (E : Engine) (net : String → Upstream) (cache : Cache)
    (q : Query) (t1 t2 : Int) (s : String) (fetch : String → FetchResult) (rand : Nat → ℚ)
    (now : Int)
    (hf : queryParam "function" q = some "SECTOR")
    (hcall : (alphaVantageProxy E net cache q t1 t2).requested ≠ none)
    (hnet : net (providerUrl "SECTOR" q) = .response (.obj [("Information", .str s)]))
    (hs : occursIn "API call frequency".data s.data = true)
    (hfetch : fetch sectorUrl = .body (alphaVantageProxy E net cache q t1 t2).reply.body) :
    (alphaVantageProxy E net cache q t1 t2).reply =
      ⟨500, .obj [("error", .str "Failed to fetch data from Alpha Vantage"),
        ("message", .str "Alpha Vantage API call frequency exceeded. Please try again later.")]⟩ ∧
    propOf (alphaVantageProxy E net cache q t1 t2).reply.body "Rank A: Real-Time Performance"
      = .undefined ∧
    (fetchMarketSummary E fetch rand now).dataSource.sectors = "Mock Data" ∧
    (fetchMarketSummary E fetch rand now).sectorPerformance.length = 10 ∧
    (fetchMarketSummary E fetch rand now).sectorPerformance.Pairwise
      (fun a b => a.change.ge b.change = true) := by
  obtain ⟨func, hf2, -, hr⟩ := proxy_requested_refresh E net cache q t1 t2 hcall
  rw [hf] at hf2
  cases hf2
  have hreply : (alphaVantageProxy E net cache q t1 t2).reply =
      ⟨500, .obj [("error", .str "Failed to fetch data from Alpha Vantage"),
        ("message",
          .str "Alpha Vantage API call frequency exceeded. Please try again later.")]⟩ := by
    rw [hr, refresh_rejected E net cache q "SECTOR" t2 _ _ hnet
      (checkResponse_rate_limited E "SECTOR" s hs)]
    rfl
  rw [hreply] at hfetch
  have hv : validSector (bodyOrNull (fetch sectorUrl)) = false := by
    rw [hfetch]
    rfl
  obtain ⟨htag, hsec⟩ := fetchMarketSummary_mock_sectors E fetch rand now hv
  rw [hreply, htag, hsec]
  exact ⟨rfl, rfl, rfl, rfl, by decide!⟩

/-- The claim C17 at an empty cache and a provider that answers with the rate-limit note:
the call goes upstream, the reply has status 500, and the summary read from it has the
ten mock sectors. -/
theorem sector_rate_limit_summary_witness :
    (alphaVantageProxy sampleEngine sampleNetRateLimited [] [("function", "SECTOR")] 0 0).requested
      ≠ none ∧
    (alphaVantageProxy sampleEngine sampleNetRateLimited [] [("function", "SECTOR")] 0 0).reply.status
      = 500 ∧
    (fetchMarketSummary sampleEngine
      (fun _ => .body (alphaVantageProxy sampleEngine sampleNetRateLimited []
        [("function", "SECTOR")] 0 0).reply.body) (fun _ => 0) 0).dataSource.sectors
      = "Mock Data" ∧
    (fetchMarketSummary sampleEngine
      (fun _ => .body (alphaVantageProxy sampleEngine sampleNetRateLimited []
        [("function", "SECTOR")] 0 0).reply.body) (fun _ => 0) 0).sectorPerformance.length
      = 10 :=
  ⟨by decide!,
    congrArg Reply.status (sector_rate_limit_summary sampleEngine sampleNetRateLimited []
      [("function", "SECTOR")] 0 0 sampleRateLimitNote
      (fun _ => .body (alphaVantageProxy sampleEngine sampleNetRateLimited []
        [("function", "SECTOR")] 0 0).reply.body) (fun _ => 0) 0
      (by decide) (by decide!) (by decide!) (by decide!) rfl).1,
    (sector_rate_limit_summary sampleEngine sampleNetRateLimited []
      [("function", "SECTOR")] 0 0 sampleRateLimitNote
      (fun _ => .body (alphaVantageProxy sampleEngine sampleNetRateLimited []
        [("function", "SECTOR")] 0 0).reply.body) (fun _ => 0) 0
      (by decide) (by decide!) (by decide!) (by decide!) rfl).2.2.1,
    (sector_rate_limit_summary sampleEngine sampleNetRateLimited []
      [("function", "SECTOR")] 0 0 sampleRateLimitNote
      (fun _ => .body (alphaVantageProxy sampleEngine sampleNetRateLimited []
        [("function", "SECTOR")] 0 0).reply.body) (fun _ => 0) 0
      (by decide) (by decide!) (by decide!) (by decide!) rfl).2.2.2.1⟩

/-! ## The signs of the top performers -/

/-- The changes of the entries built by `formatStocks` are the numbers parsed from the
`change_amount` of the stocks, in order. -/
theorem formatStocks_changes (E : Engine) (stocks : List JsVal) (ps : List Performer)
    (h : formatStocks E stocks = .ok ps) :
    ps.map Performer.Change = stocks.map fun stock => E.parseFloat (propOf stock "change_amount") := by
  induction stocks generalizing ps with
  | nil =>
    simp only [formatStocks] at h
    cases h
    rfl
  | cons stock rest ih =>
    simp only [formatStocks] at h
    cases hp : formatAlphaVantageStock E stock with
    | error e => simp [hp] at h
    | ok p =>
      cases hr : formatStocks E rest with
      | error e => simp [hp, hr] at h
      | ok rs =>
        simp only [hp, hr] at h
        cases h
        have hc : p.Change = E.parseFloat (propOf stock "change_amount") := by
          unfold formatAlphaVantageStock at hp
          split at hp
          · cases hp
          · split at hp
            · cases hp
              rfl
            · cases hp
        simp only [List.map_cons, hc, ih rs hr]

/-- The lists of a record built by `formatTopPerformers` come from the first ten entries of
the arrays of the payload. -/
theorem formatTopPerformers_lists (E : Engine) (data : JsVal) (r : TopPerformers)
    (h : formatTopPerformers E data = .ok r) :
    ∃ gainers losers active, propOf data "top_gainers" = .arr gainers ∧
      propOf data "top_losers" = .arr losers ∧
      propOf data "most_actively_traded" = .arr active ∧
      formatStocks E (gainers.take 10) = .ok r.topGainers ∧
      formatStocks E (losers.take 10) = .ok r.topLosers ∧
      formatStocks E (active.take 10) = .ok r.mostActive := by
  unfold formatTopPerformers at h
  split at h
  · cases h
  · split at h
    · rename_i gainers losers active hg hl ha
      split at h
      · rename_i tg tl ma h1 h2 h3
        cases h
        exact ⟨gainers, losers, active, hg, hl, ha, h1, h2, h3⟩
      · cases h
    · cases h

/-- The changes of the mock gainers are not negative and those of the mock losers are not
positive, for every draw. -/
theorem generateMockTopPerformers_change_signs (rand : Nat → ℚ) :
    (∀ p ∈ (generateMockTopPerformers rand).topGainers, p.Change.ge (.fin 0) = true) ∧
    (∀ p ∈ (generateMockTopPerformers rand).topLosers, (JsNum.fin 0).ge p.Change = true) := by
  have hfin : ∀ k l, ∀ p ∈ mockStocks rand k l, ∃ c, p.Change = .fin c := by
    intro k l
    induction l generalizing k with
    | nil => intro p hp; simp [mockStocks] at hp
    | cons t rest ih =>
      obtain ⟨s, n, pb, cb, vb⟩ := t
      intro p hp
      simp only [mockStocks, List.mem_cons] at hp
      rcases hp with rfl | hp
      · exact ⟨_, rfl⟩
      · exact ih _ p hp
  constructor
  · intro p hp
    simp only [generateMockTopPerformers, List.mem_map] at hp
    obtain ⟨stock, hstock, rfl⟩ := hp
    obtain ⟨c, hc⟩ := hfin _ _ stock hstock
    simp [hc, JsNum.abs, JsNum.ge]
  · intro p hp
    simp only [generateMockTopPerformers, List.mem_map] at hp
    obtain ⟨stock, hstock, rfl⟩ := hp
    obtain ⟨c, hc⟩ := hfin _ _ stock hstock
    simp [hc, JsNum.abs, JsNum.neg, JsNum.ge]

/-- Claim C18. The claim fails on a result built from a payload: the gainer of
`sampleMoversFallingGainer` has the `change_amount` `-1.5`, the record is built from the
payload, and the change of its only gainer is `-1.5`. -/
theorem fetchTopPerformers_negative_gainer :
    formatTopPerformers sampleEngine sampleMoversFallingGainer
      = .ok (fetchTopPerformers sampleEngine (fun _ => .body sampleMoversFallingGainer)
          (fun _ => 0)) ∧
    (fetchTopPerformers sampleEngine (fun _ => .body sampleMoversFallingGainer)
      (fun _ => 0)).topGainers.map Performer.Change = [.fin (-3 / 2)] ∧
    (fetchTopPerformers sampleEngine (fun _ => .body sampleMoversFallingGainer)
      (fun _ => 0)).topGainers.map (fun p => p.Change.ge (.fin 0)) = [false] := by
  decide!

/-- Claim C18, amended. Every result of `fetchTopPerformers` is either the record of the mock
generator, in which every gainer has a change of at least `0` and every loser a change of at
most `0`, or a record built from the payload, in which the changes are the numbers parsed
from the `change_amount` of the first ten entries of `top_gainers` and of `top_losers`,
whatever their sign. -/
theorem fetchTopPerformers_change_signs (E : Engine) (fetch : String → FetchResult)
    (rand : Nat → ℚ) :
    (fetchTopPerformers E fetch rand = generateMockTopPerformers rand ∧
      (∀ p ∈ (fetchTopPerformers E fetch rand).topGainers, p.Change.ge (.fin 0) = true) ∧
      (∀ p ∈ (fetchTopPerformers E fetch rand).topLosers, (JsNum.fin 0).ge p.Change = true)) ∨
    (∃ data gainers losers, fetch moversUrl = .body data ∧
      propOf data "top_gainers" = .arr gainers ∧ propOf data "top_losers" = .arr losers ∧
      (fetchTopPerformers E fetch rand).topGainers.map Performer.Change
        = (gainers.take 10).map (fun stock => E.parseFloat (propOf stock "change_amount")) ∧
      (fetchTopPerformers E fetch rand).topLosers.map Performer.Change
        = (losers.take 10).map (fun stock => E.parseFloat (propOf stock "change_amount"))) := by
  rcases fetchTopPerformers_cases E fetch rand with hm | ⟨data, hfetch, hok⟩
  · left
    rw [hm]
    exact ⟨rfl, generateMockTopPerformers_change_signs rand⟩
  · right
    obtain ⟨gainers, losers, active, hg, hl, -, h1, h2, -⟩ :=
      formatTopPerformers_lists E data _ hok
    exact ⟨data, gainers, losers, hfetch, hg, hl, formatStocks_changes E _ _ h1,
      formatStocks_changes E _ _ h2⟩

/-! ## The mock top performers -/

/-- The shape of a mock stock for draws in `[0, 1)`: a positive price, a volume of at least
`0`, and finite changes. -/
theorem generateMockStock_shape (rand : Nat → ℚ) (hrand : ∀ n, 0 ≤ rand n ∧ rand n < 1)
    (k : Nat) (symbol name : String) (priceBase changeBase volumeBase : ℚ)
    (hp : 0 < priceBase) (hv : 0 ≤ volumeBase) :
    (generateMockStock rand k symbol name priceBase changeBase volumeBase).Price.gt (.fin 0)
      = true ∧
    (generateMockStock rand k symbol name priceBase changeBase volumeBase).Volume.ge (.fin 0)
      = true ∧
    (∃ c, (generateMockStock rand k symbol name priceBase changeBase volumeBase).Change
      = .fin c) ∧
    ∃ c, (generateMockStock rand k symbol name priceBase changeBase volumeBase).ChangePercent
      = .fin c := by
  have h0 := (hrand k).1
  have h3 := (hrand (k + 3)).1
  refine ⟨?_, ?_, ⟨_, rfl⟩, ⟨_, rfl⟩⟩
  · simp only [generateMockStock, JsNum.gt, decide_eq_true_eq]
    nlinarith [mul_nonneg h0 hp.le]
  · simp only [generateMockStock, JsNum.ge, decide_eq_true_eq, ratFloor_eq]
    exact Int.cast_nonneg.mpr (Int.floor_nonneg.mpr (mul_nonneg hv (by linarith)))

/-- The shape of the mock stocks of a list of templates with positive price bases and
volume bases of at least `0`. -/
theorem mockStocks_shape (rand : Nat → ℚ) (hrand : ∀ n, 0 ≤ rand n ∧ rand n < 1)
    (templates : List (String × String × ℚ × ℚ × ℚ))
    (ht : ∀ t ∈ templates, 0 < t.2.2.1 ∧ 0 ≤ t.2.2.2.2) (k : Nat) :
    ∀ p ∈ mockStocks rand k templates,
      p.Price.gt (.fin 0) = true ∧ p.Volume.ge (.fin 0) = true ∧
      (∃ c, p.Change = .fin c) ∧ ∃ c, p.ChangePercent = .fin c := by
  induction templates generalizing k with
  | nil => intro p hp; simp [mockStocks] at hp
  | cons t rest ih =>
    obtain ⟨s, n, pb, cb, vb⟩ := t
    intro p hp
    simp only [mockStocks, List.mem_cons] at hp
    rcases hp with rfl | hp
    · exact generateMockStock_shape rand hrand k s n pb cb vb
        (ht _ (List.mem_cons_self _ _)).1 (ht _ (List.mem_cons_self _ _)).2
    · exact ih (fun t h => ht t (List.mem_cons_of_mem _ h)) _ p hp

theorem gainerTemplates_positive : ∀ t ∈ gainerTemplates, 0 < t.2.2.1 ∧ 0 ≤ t.2.2.2.2 := by
  intro t ht
  simp only [gainerTemplates, List.mem_cons, List.mem_singleton, List.not_mem_nil,
    or_false] at ht
  rcases ht with rfl | rfl | rfl | rfl | rfl | rfl | rfl | rfl | rfl | rfl <;> norm_num

theorem loserTemplates_positive : ∀ t ∈ loserTemplates, 0 < t.2.2.1 ∧ 0 ≤ t.2.2.2.2 := by
  intro t ht
  simp only [loserTemplates, List.mem_cons, List.mem_singleton, List.not_mem_nil,
    or_false] at ht
  rcases ht with rfl | rfl | rfl | rfl | rfl | rfl | rfl | rfl | rfl | rfl <;> norm_num

theorem mockStocks_length (rand : Nat → ℚ) (templates : List (String × String × ℚ × ℚ × ℚ))
    (k : Nat) : (mockStocks rand k templates).length = templates.length := by
  induction templates generalizing k with
  | nil => rfl
  | cons t rest ih =>
    obtain ⟨s, n, pb, cb, vb⟩ := t
    simp [mockStocks, ih]

/-- The entries of the mock list `mostActive` are gainers or losers of the record. -/
theorem generateMockTopPerformers_mostActive_mem (rand : Nat → ℚ) (p : Performer)
    (hp : p ∈ (generateMockTopPerformers rand).mostActive) :
    p ∈ (generateMockTopPerformers rand).topGainers ∨
    p ∈ (generateMockTopPerformers rand).topLosers := by
  simp only [generateMockTopPerformers] at hp ⊢
  have hp2 := (sortWith_perm _ _).subset hp
  rcases List.mem_append.mp hp2 with h | h
  · exact Or.inl (List.mem_of_mem_take h)
  · exact Or.inr (List.mem_of_mem_take h)

/-- Claim C19. For draws in `[0, 1)`, the record of `generateMockTopPerformers` has ten
gainers, each with a change and a percent change of at least `0`, and ten losers, each with
a change and a percent change of at most `0`; every entry of the three lists has a price
above `0` and a volume of at least `0`. -/
theorem generateMockTopPerformers_invariants (rand : Nat → ℚ)
    (hrand : ∀ n, 0 ≤ rand n ∧ rand n < 1) :
    (generateMockTopPerformers rand).topGainers.length = 10 ∧
    (generateMockTopPerformers rand).topLosers.length = 10 ∧
    (∀ p ∈ (generateMockTopPerformers rand).topGainers,
      p.Change.ge (.fin 0) = true ∧ p.ChangePercent.ge (.fin 0) = true) ∧
    (∀ p ∈ (generateMockTopPerformers rand).topLosers,
      (JsNum.fin 0).ge p.Change = true ∧ (JsNum.fin 0).ge p.ChangePercent = true) ∧
    (∀ p, p ∈ (generateMockTopPerformers rand).topGainers ∨
        p ∈ (generateMockTopPerformers rand).topLosers ∨
        p ∈ (generateMockTopPerformers rand).mostActive →
      p.Price.gt (.fin 0) = true ∧ p.Volume.ge (.fin 0) = true) := by
  have hg : ∀ p ∈ (generateMockTopPerformers rand).topGainers,
      (p.Change.ge (.fin 0) = true ∧ p.ChangePercent.ge (.fin 0) = true) ∧
      p.Price.gt (.fin 0) = true ∧ p.Volume.ge (.fin 0) = true := by
    intro p hp
    simp only [generateMockTopPerformers, List.mem_map] at hp
    obtain ⟨stock, hstock, rfl⟩ := hp
    obtain ⟨h1, h2, ⟨c, hc⟩, ⟨d, hd⟩⟩ :=
      mockStocks_shape rand hrand gainerTemplates gainerTemplates_positive 0 stock hstock
    exact ⟨by simp [hc, hd, JsNum.abs, JsNum.ge], h1, h2⟩
  have hl : ∀ p ∈ (generateMockTopPerformers rand).topLosers,
      ((JsNum.fin 0).ge p.Change = true ∧ (JsNum.fin 0).ge p.ChangePercent = true) ∧
      p.Price.gt (.fin 0) = true ∧ p.Volume.ge (.fin 0) = true := by
    intro p hp
    simp only [generateMockTopPerformers, List.mem_map] at hp
    obtain ⟨stock, hstock, rfl⟩ := hp
    obtain ⟨h1, h2, ⟨c, hc⟩, ⟨d, hd⟩⟩ :=
      mockStocks_shape rand hrand loserTemplates loserTemplates_positive 40 stock hstock
    exact ⟨by simp [hc, hd, JsNum.abs, JsNum.neg, JsNum.ge], h1, h2⟩
  refine ⟨?_, ?_, fun p hp => (hg p hp).1, fun p hp => (hl p hp).1, ?_⟩
  · simp only [generateMockTopPerformers, List.length_map, mockStocks_length]
    rfl
  · simp only [generateMockTopPerformers, List.length_map, mockStocks_length]
    rfl
  · intro p hp
    rcases hp with hp | hp | hp
    · exact (hg p hp).2
    · exact (hl p hp).2
    · rcases generateMockTopPerformers_mostActive_mem rand p hp with h | h
      · exact (hg p h).2
      · exact (hl p h).2

/-- The claim C19 with every draw one half: the first gainer has the price 198, the change
3.75 and the volume 15000000. -/
theorem generateMockTopPerformers_invariants_witness :
    ((generateMockTopPerformers (fun _ => 1 / 2)).topGainers.map
      fun p => (p.Price, p.Change, p.Volume)).head?
        = some (.fin 198, .fin (375 / 100), .fin 15000000) ∧
    (generateMockTopPerformers (fun _ => 1 / 2)).topGainers.length = 10 ∧
    (generateMockTopPerformers (fun _ => 1 / 2)).topLosers.length = 10 :=
  ⟨by decide!,
    (generateMockTopPerformers_invariants (fun _ => 1 / 2) (fun _ => by norm_num)).1,
    (generateMockTopPerformers_invariants (fun _ => 1 / 2) (fun _ => by norm_num)).2.1⟩

/-! ## The provenance of the top performers -/

/-- The object of a record of top performers has the three lists as its properties and
nothing else. -/
theorem TopPerformers.toObject_keys (r : TopPerformers) :
    objectKeys r.toObject = ["topGainers", "topLosers", "mostActive"] ∧
    propOf r.toObject "dataSource" = .undefined := by
  constructor
  · rfl
  · simp [TopPerformers.toObject, propOf, lookupKey]

/-- Claim C20. The claim fails on a failing network: the record returned is the one of the
mock generator, its properties are the three lists, and it has no `dataSource`. -/
theorem fetchTopPerformers_fallback_untagged :
    fetchTopPerformers sampleEngine (fun _ => .rejected) (fun _ => 0)
      = generateMockTopPerformers (fun _ => 0) ∧
    objectKeys (fetchTopPerformers sampleEngine (fun _ => .rejected) (fun _ => 0)).toObject
      = ["topGainers", "topLosers", "mostActive"] ∧
    propOf (fetchTopPerformers sampleEngine (fun _ => .rejected) (fun _ => 0)).toObject
      "dataSource" = .undefined := by
  refine ⟨rfl, rfl, ?_⟩
  exact (TopPerformers.toObject_keys _).2

/-- Claim C20, amended. Whenever `fetchTopPerformers` falls back (the request fails, or the
body of the `try` block throws on the payload), the record it returns is the one of
`generateMockTopPerformers`: its properties are the three lists, and it has no `dataSource`
or other provenance property. -/
theorem fetchTopPerformers_fallback_record (E : Engine) (fetch : String → FetchResult)
    (rand : Nat → ℚ)
    (h : fetch moversUrl = .rejected ∨
      ∃ data e, fetch moversUrl = .body data ∧ formatTopPerformers E data = .error e) :
    fetchTopPerformers E fetch rand = generateMockTopPerformers rand ∧
    objectKeys (fetchTopPerformers E fetch rand).toObject
      = ["topGainers", "topLosers", "mostActive"] ∧
    propOf (fetchTopPerformers E fetch rand).toObject "dataSource" = .undefined := by
  refine ⟨?_, (TopPerformers.toObject_keys _).1, (TopPerformers.toObject_keys _).2⟩
  rcases h with h | ⟨data, e, h, he⟩
  · simp only [fetchTopPerformers, h]
  · simp only [fetchTopPerformers, h, he]

/-- The amended claim C20 at the body that the proxy sends with status 500. -/
theorem fetchTopPerformers_fallback_record_witness :
    (∃ data e, (fun _ => FetchResult.body sampleProxyFailure) moversUrl = .body data ∧
      formatTopPerformers sampleEngine data = .error e) ∧
    fetchTopPerformers sampleEngine (fun _ => .body sampleProxyFailure) (fun _ => 1 / 2)
      = generateMockTopPerformers (fun _ => 1 / 2) ∧
    propOf (fetchTopPerformers sampleEngine (fun _ => .body sampleProxyFailure)
      (fun _ => 1 / 2)).toObject "dataSource" = .undefined :=
  ⟨⟨sampleProxyFailure, ⟨none, "Invalid response from Alpha Vantage TOP_GAINERS_LOSERS endpoint"⟩,
      rfl, by decide!⟩,
    (fetchTopPerformers_fallback_record sampleEngine (fun _ => .body sampleProxyFailure)
      (fun _ => 1 / 2) (Or.inr ⟨sampleProxyFailure,
        ⟨none, "Invalid response from Alpha Vantage TOP_GAINERS_LOSERS endpoint"⟩, rfl,
        by decide!⟩)).1,
    (fetchTopPerformers_fallback_record sampleEngine (fun _ => .body sampleProxyFailure)
      (fun _ => 1 / 2) (Or.inr ⟨sampleProxyFailure,
        ⟨none, "Invalid response from Alpha Vantage TOP_GAINERS_LOSERS endpoint"⟩, rfl,
        by decide!⟩)).2.2⟩

/-! ## The length of the mock historical series -/

/-- Claim C27. The claim fails for the period `1m`: the series has 31 points, not 30. -/
theorem generateMockHistoricalData_one_month_length :
    (generateMockHistoricalData sampleEngine (fun _ => 0) 0 "IBM" "1m").length = 31 ∧
    ((generateMockHistoricalData sampleEngine (fun _ => 0) 0 "IBM" "1m").map
      PricePoint.date).head? = some "1969-12-02" ∧
    ((generateMockHistoricalData sampleEngine (fun _ => 0) 0 "IBM" "1m").map
      PricePoint.date).getLast? = some "1970-01-01" := by
  decide!

/-- Claim C27, amended. For every symbol and period, `generateMockHistoricalData` emits one
point for each `i` from `days` down to `0`, dated today moved back by `i` days, where `days`
is 30 for `1m`, 90 for `3m`, 180 for `6m`, 365 for `1y`, 1825 for `5y` and 365 for any other
period: that is `days + 1` points, 31, 91, 181, 366, 1826 and 366. -/
theorem generateMockHistoricalData_point_count (E : Engine) (rand : Nat → ℚ) (today : Int)
    (symbol period : String) :
    (generateMockHistoricalData E rand today symbol period).length =
      (if period = "1m" then 31 else if period = "3m" then 91
        else if period = "6m" then 181 else if period = "1y" then 366
        else if period = "5y" then 1826 else 366) ∧
    (generateMockHistoricalData E rand today symbol period).length = mockDays period + 1 ∧
    (generateMockHistoricalData E rand today symbol period).map PricePoint.date =
      (List.range (mockDays period + 1)).reverse.map fun i =>
        E.isoDay (E.minusDays today i) := by
  refine ⟨?_, generateMockHistoricalData_length E rand today symbol period,
    generateMockHistoricalData_dates E rand today symbol period⟩
  rw [generateMockHistoricalData_length]
  unfold mockDays
  repeat' split
  all_goals rfl

/-! ## Rounding to a double -/

/-- The function `twoPow` is the power of two. -/
theorem twoPow_eq (k : Int) : twoPow k = (2 : ℚ) ^ k := by
  unfold twoPow
  split
  · rename_i h
    obtain ⟨n, rfl⟩ := Int.eq_ofNat_of_zero_le h
    simp
  · rename_i h
    have hk : 0 ≤ -k := by omega
    obtain ⟨n, hn⟩ := Int.eq_ofNat_of_zero_le hk
    have hk2 : k = -(n : Int) := by omega
    rw [hn, hk2]
    simp

/-- With enough fuel, `halvings` is the binary logarithm rounded down. -/
theorem halvings_spec (fuel n : Nat) (h1 : 1 ≤ n) (h2 : n ≤ fuel) :
    2 ^ halvings fuel n ≤ n ∧ n < 2 ^ (halvings fuel n + 1) := by
  induction fuel generalizing n with
  | zero => omega
  | succ fuel ih =>
    by_cases hn : n < 2
    · have : n = 1 := by omega
      subst this
      simp [halvings]
    · simp only [halvings, hn, if_false]
      have ih2 := ih (n / 2) (by omega) (by omega)
      constructor
      · rw [pow_succ]
        have := Nat.div_mul_le_self n 2
        nlinarith [ih2.1]
      · rw [pow_succ]
        have := Nat.lt_succ_iff.mpr (Nat.le_refl (n / 2))
        have h3 : n < (n / 2 + 1) * 2 := by omega
        nlinarith [ih2.2]

/-- A positive number lies in its binade. -/
theorem binade_spec (a : ℚ) (ha : 0 < a) :
    (2 : ℚ) ^ binade a ≤ a ∧ a < (2 : ℚ) ^ (binade a + 1) := by
  have hnum : 0 < a.num := Rat.num_pos.mpr ha
  have hden : 0 < a.den := a.den_pos
  have hn := halvings_spec a.num.natAbs a.num.natAbs (by omega) (Nat.le_refl _)
  have hd := halvings_spec a.den a.den (by omega) (Nat.le_refl _)
  set ln := halvings a.num.natAbs a.num.natAbs with hln
  set ld := halvings a.den a.den with hld
  have hnumq : (a.num : ℚ) = (a.num.natAbs : ℚ) := by
    have h : ((a.num.natAbs : Int) : ℚ) = (a.num : ℚ) := by
      rw [Int.natAbs_of_nonneg (le_of_lt hnum)]
    rw [← h, Int.cast_natCast]
  have haeq : a = (a.num.natAbs : ℚ) / (a.den : ℚ) := by
    rw [← hnumq]
    exact (Rat.num_div_den a).symm
  have hdq : (0 : ℚ) < (a.den : ℚ) := by exact_mod_cast hden
  have h1 : ((2 : ℚ) ^ ln) ≤ (a.num.natAbs : ℚ) := by exact_mod_cast hn.1
  have h2 : (a.num.natAbs : ℚ) < (2 : ℚ) ^ (ln + 1) := by exact_mod_cast hn.2
  have h3 : ((2 : ℚ) ^ ld) ≤ (a.den : ℚ) := by exact_mod_cast hd.1
  have h4 : (a.den : ℚ) < (2 : ℚ) ^ (ld + 1) := by exact_mod_cast hd.2
  have hpos : ∀ k : Int, (0 : ℚ) < (2 : ℚ) ^ k := fun k => zpow_pos (by norm_num) k
  have two0 : (2 : ℚ) ≠ 0 := by norm_num
  -- lower: 2^(e0-1) < a ; upper: a < 2^(e0+1)
  have hlow : (2 : ℚ) ^ ((ln : Int) - (ld : Int) - 1) < a := by
    have e : (2 : ℚ) ^ ((ln : Int) - (ld : Int) - 1) = (2 : ℚ) ^ ln / (2 : ℚ) ^ (ld + 1) := by
      rw [show ((ln : Int) - (ld : Int) - 1) = (ln : Int) - ((ld + 1 : Nat) : Int) by
          push_cast; ring,
        zpow_sub₀ two0, zpow_natCast, zpow_natCast]
    rw [e, haeq, div_lt_div_iff₀ (by positivity) hdq]
    calc (2 : ℚ) ^ ln * (a.den : ℚ) < (2 : ℚ) ^ ln * (2 : ℚ) ^ (ld + 1) := by
          apply mul_lt_mul_of_pos_left h4 (by positivity)
      _ ≤ (a.num.natAbs : ℚ) * (2 : ℚ) ^ (ld + 1) := by
          apply mul_le_mul_of_nonneg_right h1 (by positivity)
  have hup : a < (2 : ℚ) ^ ((ln : Int) - (ld : Int) + 1) := by
    have e : (2 : ℚ) ^ ((ln : Int) - (ld : Int) + 1) = (2 : ℚ) ^ (ln + 1) / (2 : ℚ) ^ ld := by
      rw [show ((ln : Int) - (ld : Int) + 1) = ((ln + 1 : Nat) : Int) - (ld : Int) by
          push_cast; ring,
        zpow_sub₀ two0, zpow_natCast, zpow_natCast]
    rw [e, haeq, div_lt_div_iff₀ hdq (by positivity)]
    calc (a.num.natAbs : ℚ) * (2 : ℚ) ^ ld < (2 : ℚ) ^ (ln + 1) * (2 : ℚ) ^ ld := by
          apply mul_lt_mul_of_pos_right h2 (by positivity)
      _ ≤ (2 : ℚ) ^ (ln + 1) * (a.den : ℚ) := by
          apply mul_le_mul_of_nonneg_left h3 (by positivity)
  unfold binade
  simp only [← hln, ← hld, twoPow_eq]
  by_cases hc : a < (2 : ℚ) ^ ((ln : Int) - (ld : Int))
  · simp only [hc, if_true]
    refine ⟨le_of_lt hlow, ?_⟩
    rw [show ((ln : Int) - (ld : Int) - 1 + 1) = (ln : Int) - (ld : Int) by ring]
    exact hc
  · simp only [hc, if_false]
    exact ⟨not_lt.mp hc, hup⟩

/-- Rounding to an integer keeps a number at most an integer that it does not exceed. -/
theorem roundHalfEven_le (x : ℚ) (m : Int) (h : x ≤ m) : roundHalfEven x ≤ m := by
  have hf : ((⌊x⌋ : Int) : ℚ) ≤ x := Int.floor_le x
  have hfm : ⌊x⌋ ≤ m := by exact_mod_cast le_trans hf h
  unfold roundHalfEven
  simp only [show Rat.floor x = ⌊x⌋ from rfl]
  split_ifs with h1 h2 h3
  · exact hfm
  · have : ((⌊x⌋ : Int) : ℚ) < m := by linarith
    have : ⌊x⌋ < m := by exact_mod_cast this
    omega
  · exact hfm
  · have : ((⌊x⌋ : Int) : ℚ) < m := by linarith
    have : ⌊x⌋ < m := by exact_mod_cast this
    omega

/-- Rounding to an integer keeps a number at least an integer that it is not below. -/
theorem le_roundHalfEven (x : ℚ) (m : Int) (h : (m : ℚ) ≤ x) : m ≤ roundHalfEven x := by
  have hfm : m ≤ ⌊x⌋ := Int.le_floor.mpr h
  unfold roundHalfEven
  simp only [show Rat.floor x = ⌊x⌋ from rfl]
  split_ifs <;> omega

/-- The spacing as a power of two. -/
theorem ulp_eq (a : ℚ) : ulp a = (2 : ℚ) ^ (max (binade a) (-1022) - 52) := by
  unfold ulp
  rw [twoPow_eq]

/-- The spacing is positive. -/
theorem ulp_pos (a : ℚ) : 0 < ulp a := by
  rw [ulp_eq]
  exact zpow_pos (by norm_num) _

/-- The rounded magnitude is not negative. -/
theorem roundMagnitude_nonneg (q : ℚ) (hq : 0 ≤ q) : 0 ≤ roundMagnitude q := by
  unfold roundMagnitude
  have h : (0 : Int) ≤ roundHalfEven (q / ulp q) :=
    le_roundHalfEven _ 0 (by simpa using div_nonneg hq (ulp_pos q).le)
  exact mul_nonneg (by exact_mod_cast h) (ulp_pos q).le

/-- The binade grows with the number. -/
theorem binade_mono (a b : ℚ) (ha : 0 < a) (hab : a ≤ b) : binade a ≤ binade b := by
  by_contra h
  have h1 := binade_spec a ha
  have h2 := binade_spec b (lt_of_lt_of_le ha hab)
  have h3 : (2 : ℚ) ^ (binade b + 1) ≤ (2 : ℚ) ^ binade a :=
    zpow_le_zpow_right₀ (by norm_num) (by omega)
  linarith [h1.1, h2.2]

/-- Rounding keeps a positive number below a double that it does not exceed. -/
theorem roundMagnitude_le (q hi : ℚ) (hq : 0 < q) (h : q ≤ hi) (hhi : roundMagnitude hi = hi) :
    roundMagnitude q ≤ hi := by
  have hhipos : 0 < hi := lt_of_lt_of_le hq h
  have hb := binade_mono q hi hq h
  have two0 : (2 : ℚ) ≠ 0 := by norm_num
  have hu := ulp_pos q
  rcases eq_or_lt_of_le (max_le_max_right (-1022) hb) with heq | hlt
  · have hulp : ulp hi = ulp q := by rw [ulp_eq, ulp_eq, heq]
    unfold roundMagnitude at hhi ⊢
    rw [hulp] at hhi
    have hdiv : hi / ulp q = (roundHalfEven (hi / ulp q) : ℚ) := by
      rw [div_eq_iff (ne_of_gt hu)]
      exact hhi.symm
    have hle : q / ulp q ≤ (roundHalfEven (hi / ulp q) : ℚ) := by
      rw [← hdiv]
      exact div_le_div_of_nonneg_right h hu.le
    have hn := roundHalfEven_le _ _ hle
    calc (roundHalfEven (q / ulp q) : ℚ) * ulp q
        ≤ (roundHalfEven (hi / ulp q) : ℚ) * ulp q :=
          mul_le_mul_of_nonneg_right (by exact_mod_cast hn) hu.le
      _ = hi := hhi
  · have hEh : max (binade hi) (-1022) = binade hi := by
      rcases max_cases (binade hi) (-1022) with ⟨h1, _⟩ | ⟨h1, _⟩
      · exact h1
      · have := le_max_right (binade q) (-1022)
        omega
    have hq2 := (binade_spec q hq).2
    have hEq : binade q ≤ max (binade q) (-1022) := le_max_left _ _
    have hlt2 : q < (2 : ℚ) ^ (max (binade q) (-1022) + 1) :=
      lt_of_lt_of_le hq2 (zpow_le_zpow_right₀ (by norm_num) (by omega))
    have hsplit : (2 : ℚ) ^ (max (binade q) (-1022) + 1) = (2 : ℚ) ^ (53 : Int) * ulp q := by
      rw [ulp_eq, ← zpow_add₀ two0]
      congr 1
      ring
    have hdiv : q / ulp q ≤ (((2 : Int) ^ 53 : Int) : ℚ) := by
      rw [div_le_iff₀ hu]
      have : ((((2 : Int) ^ 53 : Int)) : ℚ) = (2 : ℚ) ^ (53 : Int) := by norm_num
      rw [this, ← hsplit]
      exact hlt2.le
    have hn := roundHalfEven_le _ _ hdiv
    have h53 : ((((2 : Int) ^ 53 : Int)) : ℚ) = (2 : ℚ) ^ (53 : Int) := by norm_num
    unfold roundMagnitude
    calc (roundHalfEven (q / ulp q) : ℚ) * ulp q
        ≤ (((2 : Int) ^ 53 : Int) : ℚ) * ulp q :=
          mul_le_mul_of_nonneg_right (by exact_mod_cast hn) hu.le
      _ = (2 : ℚ) ^ (max (binade q) (-1022) + 1) := by rw [h53, hsplit]
      _ ≤ (2 : ℚ) ^ binade hi := zpow_le_zpow_right₀ (by norm_num) (by omega)
      _ ≤ hi := (binade_spec hi hhipos).1

/-- Rounding keeps a number above a positive double that it is not below. -/
theorem le_roundMagnitude (lo q : ℚ) (hlo : 0 < lo) (h : lo ≤ q)
    (hlo2 : roundMagnitude lo = lo) : lo ≤ roundMagnitude q := by
  have hq : 0 < q := lt_of_lt_of_le hlo h
  have hb := binade_mono lo q hlo h
  have two0 : (2 : ℚ) ≠ 0 := by norm_num
  have hu := ulp_pos q
  rcases eq_or_lt_of_le (max_le_max_right (-1022) hb) with heq | hlt
  · have hulp : ulp lo = ulp q := by rw [ulp_eq, ulp_eq, heq]
    unfold roundMagnitude at hlo2 ⊢
    rw [hulp] at hlo2
    have hdiv : lo / ulp q = (roundHalfEven (lo / ulp q) : ℚ) := by
      rw [div_eq_iff (ne_of_gt hu)]
      exact hlo2.symm
    have hle : (roundHalfEven (lo / ulp q) : ℚ) ≤ q / ulp q := by
      rw [← hdiv]
      exact div_le_div_of_nonneg_right h hu.le
    have hn := le_roundHalfEven _ _ hle
    calc lo = (roundHalfEven (lo / ulp q) : ℚ) * ulp q := hlo2.symm
      _ ≤ (roundHalfEven (q / ulp q) : ℚ) * ulp q :=
          mul_le_mul_of_nonneg_right (by exact_mod_cast hn) hu.le
  · have hEq : max (binade q) (-1022) = binade q := by
      rcases max_cases (binade q) (-1022) with ⟨h1, _⟩ | ⟨h1, _⟩
      · exact h1
      · have := le_max_right (binade lo) (-1022)
        omega
    have hq1 := (binade_spec q hq).1
    have hsplit : (2 : ℚ) ^ binade q = (2 : ℚ) ^ (52 : Int) * ulp q := by
      rw [ulp_eq, hEq, ← zpow_add₀ two0]
      congr 1
      ring
    have h52 : ((((2 : Int) ^ 52 : Int)) : ℚ) = (2 : ℚ) ^ (52 : Int) := by norm_num
    have hdiv : (((2 : Int) ^ 52 : Int) : ℚ) ≤ q / ulp q := by
      rw [le_div_iff₀ hu, h52, ← hsplit]
      exact hq1
    have hn := le_roundHalfEven _ _ hdiv
    have hlo3 := (binade_spec lo hlo).2
    have hElo : binade lo ≤ max (binade lo) (-1022) := le_max_left _ _
    unfold roundMagnitude
    calc lo ≤ (2 : ℚ) ^ (binade lo + 1) := hlo3.le
      _ ≤ (2 : ℚ) ^ binade q := zpow_le_zpow_right₀ (by norm_num) (by omega)
      _ = (((2 : Int) ^ 52 : Int) : ℚ) * ulp q := by rw [h52, hsplit]
      _ ≤ (roundHalfEven (q / ulp q) : ℚ) * ulp q :=
          mul_le_mul_of_nonneg_right (by exact_mod_cast hn) hu.le

/-- A positive number that is a double: rounding gives the number itself. -/
theorem roundDouble_fixed (a : ℚ) (ha : 0 < a) (h : roundDouble a = .fin a) :
    roundMagnitude a = a ∧ a < twoPow 1024 := by
  unfold roundDouble at h
  rw [abs_of_pos ha] at h
  simp only [ne_of_gt ha, if_false, not_lt_of_gt ha] at h
  split at h
  · exact absurd h (by simp)
  · rename_i hlt
    have h2 : roundMagnitude a = a := by
      injection h
    exact ⟨h2, by rw [h2] at hlt; exact not_le.mp hlt⟩

/-- Rounding to a double keeps a number between two doubles, the lower one not negative, that
it lies between. -/
theorem roundDouble_between (lo hi q : ℚ) (hlo0 : 0 ≤ lo) (hlo : roundDouble lo = .fin lo)
    (hhi : roundDouble hi = .fin hi) (h1 : lo ≤ q) (h2 : q ≤ hi) :
    ∃ r, roundDouble q = .fin r ∧ lo ≤ r ∧ r ≤ hi := by
  rcases eq_or_lt_of_le (le_trans hlo0 h1) with hq0 | hq
  · subst hq0
    exact ⟨0, by simp [roundDouble], h1, h2⟩
  · have hhipos : 0 < hi := lt_of_lt_of_le hq h2
    obtain ⟨hfix, hfin⟩ := roundDouble_fixed hi hhipos hhi
    have hup := roundMagnitude_le q hi hq h2 hfix
    have hlow : lo ≤ roundMagnitude q := by
      rcases eq_or_lt_of_le hlo0 with h0 | hpos
      · rw [← h0]
        exact roundMagnitude_nonneg q hq.le
      · exact le_roundMagnitude lo q hpos h1 (roundDouble_fixed lo hpos hlo).1
    refine ⟨roundMagnitude q, ?_, hlow, hup⟩
    unfold roundDouble
    rw [abs_of_pos hq]
    simp only [ne_of_gt hq, if_false, not_lt_of_gt hq, not_le.mpr (lt_of_le_of_lt hup hfin)]

/-- The rounded product of a draw in `[0, 1)` with a double `c` lies between `0` and `c`. -/
theorem mulD_draw (r c : ℚ) (hr0 : 0 ≤ r) (hr1 : r < 1) (hc : 0 ≤ c)
    (hdc : roundDouble c = .fin c) :
    ∃ x, (JsNum.fin r).mulD (.fin c) = .fin x ∧ 0 ≤ x ∧ x ≤ c := by
  have h := roundDouble_between 0 c (r * c) (le_refl 0) (by simp [roundDouble]) hdc
    (mul_nonneg hr0 hc) (by nlinarith)
  simpa [JsNum.mulD, JsNum.mul] using h

/-- The rounded sum of two numbers lies between two doubles that their sum lies between. -/
theorem addD_between (a b lo hi : ℚ) (hlo0 : 0 ≤ lo) (hlo : roundDouble lo = .fin lo)
    (hhi : roundDouble hi = .fin hi) (h1 : lo ≤ a + b) (h2 : a + b ≤ hi) :
    ∃ y, (JsNum.fin a).addD (.fin b) = .fin y ∧ lo ≤ y ∧ y ≤ hi := by
  have h := roundDouble_between lo hi (a + b) hlo0 hlo hhi h1 h2
  simpa [JsNum.addD, JsNum.add] using h

/-- A field `Math.random() * c + b` of a mock record lies between `b` and `c + b`. -/
theorem mockScaled_between (r c b : ℚ) (hr0 : 0 ≤ r) (hr1 : r < 1) (hc : 0 ≤ c) (hb : 0 ≤ b)
    (hdc : roundDouble c = .fin c) (hdb : roundDouble b = .fin b)
    (hdcb : roundDouble (c + b) = .fin (c + b)) :
    ∃ y, ((JsNum.fin r).mulD (.fin c)).addD (.fin b) = .fin y ∧ b ≤ y ∧ y ≤ c + b := by
  obtain ⟨x, hx, hx0, hxc⟩ := mulD_draw r c hr0 hr1 hc hdc
  rw [hx]
  exact addD_between x b b (c + b) hb hdb hdcb (by linarith) (by linarith)

/-- A field `b + Math.random() * c` of a mock record lies between `b` and `b + c`. -/
theorem mockOffset_between (r c b : ℚ) (hr0 : 0 ≤ r) (hr1 : r < 1) (hc : 0 ≤ c) (hb : 0 ≤ b)
    (hdc : roundDouble c = .fin c) (hdb : roundDouble b = .fin b)
    (hdcb : roundDouble (b + c) = .fin (b + c)) :
    ∃ y, (JsNum.fin b).addD ((JsNum.fin r).mulD (.fin c)) = .fin y ∧ b ≤ y ∧
      y ≤ b + c := by
  obtain ⟨x, hx, hx0, hxc⟩ := mulD_draw r c hr0 hr1 hc hdc
  rw [hx]
  exact addD_between b x b (b + c) hb hdb hdcb (by linarith) (by linarith)

/-- A field `Math.floor(Math.random() * c) + b` of a mock record lies between `b` and
`c + b`. -/
theorem mockFloored_between (r c b : ℚ) (hr0 : 0 ≤ r) (hr1 : r < 1) (hc : 0 ≤ c)
    (hb : 0 ≤ b) (hdc : roundDouble c = .fin c) (hdb : roundDouble b = .fin b)
    (hdcb : roundDouble (c + b) = .fin (c + b)) :
    ∃ y, ((JsNum.fin r).mulD (.fin c)).floor.addD (.fin b) = .fin y ∧ b ≤ y ∧
      y ≤ c + b := by
  obtain ⟨x, hx, hx0, hxc⟩ := mulD_draw r c hr0 hr1 hc hdc
  rw [hx]
  have hf0 : (0 : ℚ) ≤ ((Rat.floor x : Int) : ℚ) := by
    rw [ratFloor_eq]
    exact Int.cast_nonneg.mpr (Int.floor_nonneg.mpr hx0)
  have hfx : ((Rat.floor x : Int) : ℚ) ≤ x := by
    rw [ratFloor_eq]
    exact Int.floor_le x
  exact addD_between _ b b (c + b) hb hdb hdcb (by linarith) (by linarith)

/-! ## The mock company profile -/

/-- Claim C24. The code at the failing input: with the draw for the high at `0` and the draw
for the low at nine tenths, the mock profile has the 52-week high 100 and the 52-week low
140. -/
theorem generateMockCompanyProfile_high_below_low :
    (∀ n, 0 ≤ sampleDrawsLowHigh n ∧ sampleDrawsLowHigh n < 1) ∧
    (generateMockCompanyProfile sampleEngine sampleDrawsLowHigh "IBM").fiftyTwoWeekHigh
      = .fin 100 ∧
    (generateMockCompanyProfile sampleEngine sampleDrawsLowHigh "IBM").fiftyTwoWeekLow
      = .fin 140 ∧
    (generateMockCompanyProfile sampleEngine sampleDrawsLowHigh "IBM").fiftyTwoWeekHigh.ge
      (generateMockCompanyProfile sampleEngine sampleDrawsLowHigh "IBM").fiftyTwoWeekLow
      = false := by
  refine ⟨fun n => ?_, by decide!, by decide!, by decide!⟩
  unfold sampleDrawsLowHigh
  split <;> norm_num

/-- What holds of the 52-week range of the mock profile for draws in `[0, 1)`: the low is
from 50 to 150 and the high is from 100 to 300. -/
theorem generateMockCompanyProfile_week_range (E : Engine) (rand : Nat → ℚ) (symbol : String)
    (hrand : ∀ n, 0 ≤ rand n ∧ rand n < 1) :
    (generateMockCompanyProfile E rand symbol).fiftyTwoWeekLow.ge (.fin 50) = true ∧
    (JsNum.fin 150).ge (generateMockCompanyProfile E rand symbol).fiftyTwoWeekLow = true ∧
    (generateMockCompanyProfile E rand symbol).fiftyTwoWeekHigh.ge (.fin 100) = true ∧
    (JsNum.fin 300).ge (generateMockCompanyProfile E rand symbol).fiftyTwoWeekHigh = true := by
  obtain ⟨h, hh, hh1, hh2⟩ := mockOffset_between (rand 6) 200 100 (hrand 6).1 (hrand 6).2
    (by norm_num) (by norm_num) (by decide!) (by decide!) (by decide!)
  obtain ⟨l, hl, hl1, hl2⟩ := mockOffset_between (rand 7) 100 50 (hrand 7).1 (hrand 7).2
    (by norm_num) (by norm_num) (by decide!) (by decide!) (by decide!)
  simp only [generateMockCompanyProfile, hh, hl, JsNum.ge, decide_eq_true_eq]
  norm_num at hh2 hl2
  exact ⟨hl1, hl2, hh1, hh2⟩

/-- Claim C28. The claim fails for the market capitalisation: with the draw at 0.9995 the
mock profile has the market capitalisation 1,000,500,000,000, above one trillion. -/
theorem generateMockCompanyProfile_cap_above_trillion :
    (0 : ℚ) ≤ 9995 / 10000 ∧ (9995 / 10000 : ℚ) < 1 ∧
    (generateMockCompanyProfile sampleEngine (fun _ => 9995 / 10000) "IBM").marketCap
      = .fin 1000500000000 ∧
    (JsNum.fin 1000000000000).ge
      (generateMockCompanyProfile sampleEngine (fun _ => 9995 / 10000) "IBM").marketCap
      = false := by
  decide!

/-- Claim C28, amended. For draws in `[0, 1)`, the mock profile has employees from 1,000 to
101,000, a market capitalisation from 1e9 to 1.001e12 (one trillion plus one billion), a P/E
ratio from 5 to 35 and a beta from 0.5 to 2.5, the bounds included. -/
theorem generateMockCompanyProfile_ranges (E : Engine) (rand : Nat → ℚ) (symbol : String)
    (hrand : ∀ n, 0 ≤ rand n ∧ rand n < 1) :
    ((generateMockCompanyProfile E rand symbol).employees.ge (.fin 1000) = true ∧
      (JsNum.fin 101000).ge (generateMockCompanyProfile E rand symbol).employees = true) ∧
    ((generateMockCompanyProfile E rand symbol).marketCap.ge (.fin 1000000000) = true ∧
      (JsNum.fin 1001000000000).ge (generateMockCompanyProfile E rand symbol).marketCap
        = true) ∧
    ((generateMockCompanyProfile E rand symbol).peRatio.ge (.fin 5) = true ∧
      (JsNum.fin 35).ge (generateMockCompanyProfile E rand symbol).peRatio = true) ∧
    ((generateMockCompanyProfile E rand symbol).beta.ge (.fin (1 / 2)) = true ∧
      (JsNum.fin (5 / 2)).ge (generateMockCompanyProfile E rand symbol).beta = true) := by
  obtain ⟨e, he, he1, he2⟩ := mockFloored_between (rand 0) 100000 1000 (hrand 0).1 (hrand 0).2
    (by norm_num) (by norm_num) (by decide!) (by decide!) (by decide!)
  obtain ⟨m, hm, hm1, hm2⟩ := mockFloored_between (rand 1) 1000000000000 1000000000
    (hrand 1).1 (hrand 1).2 (by norm_num) (by norm_num) (by decide!) (by decide!) (by decide!)
  obtain ⟨p, hp, hp1, hp2⟩ := mockScaled_between (rand 2) 30 5 (hrand 2).1 (hrand 2).2
    (by norm_num) (by norm_num) (by decide!) (by decide!) (by decide!)
  obtain ⟨b, hb, hb1, hb2⟩ := mockScaled_between (rand 5) 2 (1 / 2) (hrand 5).1 (hrand 5).2
    (by norm_num) (by norm_num) (by decide!) (by decide!) (by decide!)
  simp only [generateMockCompanyProfile, he, hm, hp, hb, JsNum.ge, decide_eq_true_eq]
  norm_num at he2 hm2 hp2 hb2
  exact ⟨⟨he1, he2⟩, ⟨hm1, hm2⟩, ⟨hp1, hp2⟩, ⟨hb1, hb2⟩⟩

/-- The amended claim C28 with every draw one half: 51,000 employees, a market
capitalisation of 501 billion, a P/E ratio of 20 and a beta of 1.5. -/
theorem generateMockCompanyProfile_ranges_witness :
    (generateMockCompanyProfile sampleEngine (fun _ => 1 / 2) "IBM").employees = .fin 51000 ∧
    (generateMockCompanyProfile sampleEngine (fun _ => 1 / 2) "IBM").marketCap
      = .fin 501000000000 ∧
    (generateMockCompanyProfile sampleEngine (fun _ => 1 / 2) "IBM").peRatio = .fin 20 ∧
    (generateMockCompanyProfile sampleEngine (fun _ => 1 / 2) "IBM").beta = .fin (3 / 2) ∧
    (JsNum.fin 1001000000000).ge
      (generateMockCompanyProfile sampleEngine (fun _ => 1 / 2) "IBM").marketCap = true :=
  ⟨by decide!, by decide!, by decide!, by decide!,
    (generateMockCompanyProfile_ranges sampleEngine (fun _ => 1 / 2) "IBM"
      (fun _ => by norm_num)).2.1.2⟩

/-- The bounds 35 and 2.5 are reached: with every draw the largest double below `1`, the
products are rounded and the mock profile has 100,999 employees, the market capitalisation
1,000,999,999,999, the P/E ratio 35 and the beta 2.5. -/
theorem generateMockCompanyProfile_largest_draw :
    roundDouble (9007199254740991 / 9007199254740992) =
      .fin (9007199254740991 / 9007199254740992) ∧
    (generateMockCompanyProfile sampleEngine (fun _ => 9007199254740991 / 9007199254740992)
      "IBM").employees = .fin 100999 ∧
    (generateMockCompanyProfile sampleEngine (fun _ => 9007199254740991 / 9007199254740992)
      "IBM").marketCap = .fin 1000999999999 ∧
    (generateMockCompanyProfile sampleEngine (fun _ => 9007199254740991 / 9007199254740992)
      "IBM").peRatio = .fin 35 ∧
    (generateMockCompanyProfile sampleEngine (fun _ => 9007199254740991 / 9007199254740992)
      "IBM").beta = .fin (5 / 2) := by
  decide!

/-! ## The list `mostActive` of the mock top performers -/

/-- A list sorted by a comparator that orders the elements by a key is in the order of the
key: insertion keeps the order. -/
theorem insertSorted_ordered {α β : Type} [LinearOrder β] (cmp : α → α → JsNum) (key : α → β)
    (x : α) (l : List α) (hcmp : ∀ b ∈ l, (cmp x b).positive = decide (key b < key x))
    (hl : l.Pairwise (fun a b => key a ≤ key b)) :
    (insertSorted cmp x l).Pairwise (fun a b => key a ≤ key b) := by
  induction l with
  | nil => simp [insertSorted]
  | cons y ys ih =>
    have hy := hcmp y (List.mem_cons_self y ys)
    rw [List.pairwise_cons] at hl
    by_cases h : key y < key x
    · have hp : (cmp x y).positive = true := by rw [hy]; exact decide_eq_true h
      simp only [insertSorted, hp, if_true]
      rw [List.pairwise_cons]
      refine ⟨fun b hb => ?_, ih (fun b hb => hcmp b (List.mem_cons_of_mem y hb)) hl.2⟩
      rcases List.mem_cons.mp ((insertSorted_perm cmp x ys).subset hb) with rfl | hb2
      · exact le_of_lt h
      · exact hl.1 b hb2
    · have hp : (cmp x y).positive = false := by rw [hy]; exact decide_eq_false h
      simp only [insertSorted, hp, Bool.false_eq_true, if_false]
      rw [List.pairwise_cons]
      refine ⟨fun b hb => ?_, List.pairwise_cons.mpr hl⟩
      rcases List.mem_cons.mp hb with rfl | hb2
      · exact not_lt.mp h
      · exact le_trans (not_lt.mp h) (hl.1 b hb2)

/-- The array sorted with a comparator that orders the elements by a key is in the order of
the key. -/
theorem sortWith_ordered {α β : Type} [LinearOrder β] (cmp : α → α → JsNum) (key : α → β)
    (l : List α) (hcmp : ∀ a ∈ l, ∀ b ∈ l, (cmp a b).positive = decide (key b < key a)) :
    (sortWith cmp l).Pairwise (fun a b => key a ≤ key b) := by
  induction l with
  | nil => simp [sortWith]
  | cons x xs ih =>
    simp only [sortWith]
    apply insertSorted_ordered
    · intro b hb
      exact hcmp x (List.mem_cons_self x xs) b
        (List.mem_cons_of_mem x ((sortWith_perm cmp xs).subset hb))
    · exact ih (fun a ha b hb =>
        hcmp a (List.mem_cons_of_mem x ha) b (List.mem_cons_of_mem x hb))

/-- The volume of a mock stock is a finite number. -/
theorem mockStocks_volume (rand : Nat → ℚ) (templates : List (String × String × ℚ × ℚ × ℚ))
    (k : Nat) : ∀ p ∈ mockStocks rand k templates, ∃ v : ℚ, p.Volume = .fin v := by
  induction templates generalizing k with
  | nil => intro p hp; simp [mockStocks] at hp
  | cons t rest ih =>
    obtain ⟨s, n, pb, cb, vb⟩ := t
    intro p hp
    simp only [mockStocks, List.mem_cons] at hp
    rcases hp with rfl | hp
    · exact ⟨_, rfl⟩
    · exact ih _ p hp

/-- The volume of every mock gainer and loser is a finite number. -/
theorem generateMockTopPerformers_volume (rand : Nat → ℚ) (p : Performer)
    (hp : p ∈ (generateMockTopPerformers rand).topGainers ∨
      p ∈ (generateMockTopPerformers rand).topLosers) : ∃ v : ℚ, p.Volume = .fin v := by
  simp only [generateMockTopPerformers, List.mem_map] at hp
  rcases hp with ⟨stock, hstock, rfl⟩ | ⟨stock, hstock, rfl⟩
  · exact mockStocks_volume rand _ _ stock hstock
  · exact mockStocks_volume rand _ _ stock hstock

/-- The list `mostActive` is a rearrangement of the first five gainers and the first five
losers. -/
theorem generateMockTopPerformers_mostActive_perm (rand : Nat → ℚ) :
    (generateMockTopPerformers rand).mostActive.Perm
      ((generateMockTopPerformers rand).topGainers.take 5 ++
        (generateMockTopPerformers rand).topLosers.take 5) := by
  simp only [generateMockTopPerformers]
  exact sortWith_perm _ _

/-- Claim C29. The claim fails when a gainer behind the fifth place moves most: with every
draw one half, `NVDA` has the largest change of the gainers, 11.25, and `GOOGL` the smallest,
2.25, and `mostActive` contains `GOOGL` and not `NVDA`. -/
theorem generateMockTopPerformers_mostActive_not_largest :
    (generateMockTopPerformers (fun _ => 1 / 2)).topGainers.map (fun p => (p.Symbol, p.Change))
      = [(.str "AAPL", .fin (375 / 100)), (.str "MSFT", .fin 6), (.str "AMZN", .fin 3),
         (.str "GOOGL", .fin (225 / 100)), (.str "META", .fin (525 / 100)),
         (.str "TSLA", .fin (45 / 10)), (.str "NVDA", .fin (1125 / 100)),
         (.str "V", .fin (375 / 100)), (.str "JPM", .fin 3), (.str "JNJ", .fin (225 / 100))] ∧
    (generateMockTopPerformers (fun _ => 1 / 2)).mostActive.map Performer.Symbol
      = [.str "AAPL", .str "AMZN", .str "MSFT", .str "F", .str "GOOGL", .str "T", .str "META",
         .str "GE", .str "GM", .str "IBM"] := by
  decide!

/-- Claim C29, amended. For every outcome of the random source, the list `mostActive` of
`generateMockTopPerformers` is a rearrangement of the first five entries of `topGainers`
(`AAPL`, `MSFT`, `AMZN`, `GOOGL`, `META`) and the first five entries of `topLosers` (`IBM`,
`T`, `GE`, `F`, `GM`), whatever the size of their changes. -/
theorem generateMockTopPerformers_mostActive_first_five (rand : Nat → ℚ) :
    (generateMockTopPerformers rand).mostActive.Perm
      ((generateMockTopPerformers rand).topGainers.take 5 ++
        (generateMockTopPerformers rand).topLosers.take 5) ∧
    ((generateMockTopPerformers rand).topGainers.take 5).map Performer.Symbol
      = [.str "AAPL", .str "MSFT", .str "AMZN", .str "GOOGL", .str "META"] ∧
    ((generateMockTopPerformers rand).topLosers.take 5).map Performer.Symbol
      = [.str "IBM", .str "T", .str "GE", .str "F", .str "GM"] :=
  ⟨generateMockTopPerformers_mostActive_perm rand, rfl, rfl⟩

/-- Claim C30. For every outcome of the random source, the list `mostActive` of
`generateMockTopPerformers` has ten entries, each of them an entry of `topGainers` or of
`topLosers`, and it is in descending order of volume: the volume of an entry is at least
the volume of every entry behind it. -/
theorem generateMockTopPerformers_mostActive_sorted (rand : Nat → ℚ) :
    (generateMockTopPerformers rand).mostActive.length = 10 ∧
    (∀ p ∈ (generateMockTopPerformers rand).mostActive,
      p ∈ (generateMockTopPerformers rand).topGainers ∨
      p ∈ (generateMockTopPerformers rand).topLosers) ∧
    (generateMockTopPerformers rand).mostActive.Pairwise
      (fun a b => a.Volume.ge b.Volume = true) := by
  refine ⟨?_, generateMockTopPerformers_mostActive_mem rand, ?_⟩
  · rw [(generateMockTopPerformers_mostActive_perm rand).length_eq]
    simp only [generateMockTopPerformers, List.length_append, List.length_take, List.length_map,
      mockStocks_length]
    rfl
  · have hmem : ∀ p ∈ (generateMockTopPerformers rand).topGainers.take 5 ++
        (generateMockTopPerformers rand).topLosers.take 5, ∃ v : ℚ, p.Volume = .fin v := by
      intro p hp
      rcases List.mem_append.mp hp with h | h
      · exact generateMockTopPerformers_volume rand p (Or.inl (List.mem_of_mem_take h))
      · exact generateMockTopPerformers_volume rand p (Or.inr (List.mem_of_mem_take h))
    have hsorted := sortWith_ordered (fun a b : Performer => b.Volume.sub a.Volume)
      (fun p => match p.Volume with
        | .fin v => -v
        | _ => 0)
      ((generateMockTopPerformers rand).topGainers.take 5 ++
        (generateMockTopPerformers rand).topLosers.take 5)
      (by
        intro a ha b hb
        obtain ⟨va, hva⟩ := hmem a ha
        obtain ⟨vb, hvb⟩ := hmem b hb
        simp only [hva, hvb, JsNum.sub, JsNum.positive, sub_pos, neg_lt_neg_iff])
    have hsorted2 : (generateMockTopPerformers rand).mostActive.Pairwise
        (fun a b => (match a.Volume with
          | .fin v => -v
          | _ => 0) ≤ (match b.Volume with
          | .fin v => -v
          | _ => (0 : ℚ))) := hsorted
    refine List.Pairwise.imp_of_mem ?_ hsorted2
    intro a b ha hb hab
    obtain ⟨va, hva⟩ := hmem a ((generateMockTopPerformers_mostActive_perm rand).subset ha)
    obtain ⟨vb, hvb⟩ := hmem b ((generateMockTopPerformers_mostActive_perm rand).subset hb)
    simp only [hva, hvb, neg_le_neg_iff] at hab
    simp only [hva, hvb, JsNum.ge, decide_eq_true_eq]
    exact hab

/-! ## The news normaliser -/

/-- A value with a property that is a text is neither `null` nor `undefined`. -/
theorem isNullish_of_propOf_str (v : JsVal) (k s : String) (h : propOf v k = .str s) :
    isNullish v = false := by
  cases v <;> first | rfl | simp [propOf] at h

/-- A value with a property that is an array is an object, hence truthy. -/
theorem truthy_of_propOf_arr (v : JsVal) (k : String) (xs : List JsVal)
    (h : propOf v k = .arr xs) : truthy v = true := by
  cases v with
  | obj kvs => rfl
  | arr ys =>
    simp only [propOf] at h
    split at h <;> cases h
  | str s =>
    simp only [propOf] at h
    split at h <;> cases h
  | _ => simp [propOf] at h

/-- The items built from a feed whose items all have a text `time_published`: one item for
each element, in order. -/
theorem formatNews_of_times (E : Engine) (feed : List JsVal)
    (htime : ∀ item ∈ feed, ∃ s, propOf item "time_published" = .str s) :
    ∃ items, formatNews E feed = .ok items ∧
      List.Forall₂ (fun item n =>
        n.headline = propOf item "title" ∧ n.source = propOf item "source" ∧
        n.url = propOf item "url" ∧ n.summary = propOf item "summary" ∧
        n.sentiment = propOf item "overall_sentiment_label" ∧
        ∃ s : String, propOf item "time_published" = .str s ∧
          n.date = .str ⟨s.data.take 10⟩) feed items := by
  induction feed with
  | nil => exact ⟨[], rfl, List.Forall₂.nil⟩
  | cons item rest ih =>
    obtain ⟨s, hs⟩ := htime item (List.mem_cons_self _ _)
    obtain ⟨items, hitems, hall⟩ := ih (fun i hi => htime i (List.mem_cons_of_mem _ hi))
    have hn : isNullish item = false := isNullish_of_propOf_str item _ s hs
    have hitem : formatNewsItem E item = .ok
        { headline := propOf item "title"
          date := .str ⟨s.data.take 10⟩
          source := propOf item "source"
          url := propOf item "url"
          summary := propOf item "summary"
          sentiment := propOf item "overall_sentiment_label" } := by
      simp [formatNewsItem, hn, hs, sliceTen]
    refine ⟨_, by simp only [formatNews, hitem, hitems]; rfl,
      List.Forall₂.cons ⟨rfl, rfl, rfl, rfl, rfl, s, hs, rfl⟩ hall⟩

/-- Claim C25. For every payload whose `feed` is an array of items that each have a text
`time_published`, `fetchStockNews` returns one item for each element of the feed, in the
order of the feed, with the headline, source, url, summary and sentiment copied from
`title`, `source`, `url`, `summary` and `overall_sentiment_label`, and with the date the
first ten characters of `time_published`, which is the whole text when it has at most ten
characters. -/
theorem fetchStockNews_feed (E : Engine) (fetch : String → FetchResult) (rand : Nat → ℚ)
    (today : Int) (symbol : String) (data : JsVal) (feed : List JsVal)
    (hfetch : fetch (newsUrl symbol) = .body data)
    (hfeed : propOf data "feed" = .arr feed)
    (htime : ∀ item ∈ feed, ∃ s, propOf item "time_published" = .str s) :
    (fetchStockNews E fetch rand today symbol).length = feed.length ∧
    List.Forall₂ (fun item n =>
      n.headline = propOf item "title" ∧ n.source = propOf item "source" ∧
      n.url = propOf item "url" ∧ n.summary = propOf item "summary" ∧
      n.sentiment = propOf item "overall_sentiment_label" ∧
      ∃ s : String, propOf item "time_published" = .str s ∧
        n.date = .str ⟨s.data.take 10⟩ ∧ (s.length ≤ 10 → n.date = .str s))
      feed (fetchStockNews E fetch rand today symbol) := by
  obtain ⟨items, hitems, hall⟩ := formatNews_of_times E feed htime
  have hres : fetchStockNews E fetch rand today symbol = items := by
    simp [fetchStockNews, hfetch, truthy_of_propOf_arr data _ feed hfeed, hfeed, hitems]
  rw [hres]
  refine ⟨hall.length_eq.symm, hall.imp ?_⟩
  rintro item n ⟨h1, h2, h3, h4, h5, s, hs, hd⟩
  refine ⟨h1, h2, h3, h4, h5, s, hs, hd, fun hlen => ?_⟩
  rw [hd, List.take_of_length_le hlen]

/-- The claim C25 at a feed of two items, the second with a `time_published` of four
characters: the dates are `20240102T1` and `2024`. -/
theorem fetchStockNews_feed_witness :
    (fetchStockNews sampleEngine (fun _ => .body sampleNewsFeed) (fun _ => 0) 0 "IBM").map
      (fun n => (n.headline, n.date))
      = [(.str "IBM beats estimates", .str "20240102T1"), (.str "IBM note", .str "2024")] ∧
    (fetchStockNews sampleEngine (fun _ => .body sampleNewsFeed) (fun _ => 0) 0 "IBM").length
      = 2 :=
  ⟨by decide!,
    (fetchStockNews_feed sampleEngine (fun _ => .body sampleNewsFeed) (fun _ => 0) 0 "IBM"
      sampleNewsFeed
      [.obj [("title", .str "IBM beats estimates"), ("time_published", .str "20240102T103000"),
        ("source", .str "Reuters"), ("url", .str "https://example.com/a"),
        ("summary", .str "Earnings"), ("overall_sentiment_label", .str "Bullish")],
       .obj [("title", .str "IBM note"), ("time_published", .str "2024"),
        ("source", .str "CNBC"), ("url", .str "https://example.com/b"),
        ("summary", .str "Note"), ("overall_sentiment_label", .str "Neutral")]]
      rfl (by decide)
      (by
        intro item hitem
        simp only [List.mem_cons, List.mem_singleton, List.not_mem_nil, or_false] at hitem
        rcases hitem with rfl | rfl
        · exact ⟨"20240102T103000", by decide⟩
        · exact ⟨"2024", by decide⟩)).1⟩

/-! ## The profile normaliser -/

/-- Claim C23. The claim fails for a value that is present and falsy: the payload
`sampleProfileEmptyDescription` has the description `""`, and the profile has the default
description instead. -/
theorem fetchCompanyProfile_empty_description :
    propOf sampleProfileEmptyDescription "Description" = .str "" ∧
    (fetchCompanyProfile sampleEngine (fun _ => .body sampleProfileEmptyDescription)
      (fun _ => 0) "IBM").description = .str "No description available for IBM" ∧
    (fetchCompanyProfile sampleEngine (fun _ => .body sampleProfileEmptyDescription)
      (fun _ => 0) "IBM").industry = .str "Software" := by
  decide!

/-- Claim C23, amended. Let the payload be truthy with at least one key. When every value
that is read as a number can be converted to a string (`profileReadable`), then
`fetchCompanyProfile` returns a profile in which description, industry, sector, ceo and
website are the values of the payload when these are truthy and otherwise (absent, `null`,
`false`, `0` or the empty text) the defaults; employees is read by `parseInt(., 10)` and
marketCap, peRatio, eps, beta, fiftyTwoWeekHigh and fiftyTwoWeekLow by `parseFloat` from the
value of the payload when it is truthy, and are `0` otherwise; and dividendYield is 100
times the number read from `DividendYield`, rounded to a double, and `0` when that is not
truthy. When one of these values cannot be converted, the call that reads it throws and the
mock profile is returned. The engine is assumed to read the text `0` as the number `0`. -/
theorem fetchCompanyProfile_fields (E : Engine) (fetch : String → FetchResult)
    (rand : Nat → ℚ) (symbol : String) (data : JsVal)
    (hfetch : fetch (profileUrl symbol) = .body data)
    (htruthy : truthy data = true) (hkeys : (objectKeys data).length ≠ 0)
    (hfloat : E.parseFloat (.str "0") = .fin 0) (hint : E.parseInt10 (.str "0") = .fin 0) :
    (profileReadable data = true →
      ((fetchCompanyProfile E fetch rand symbol).description =
          (if truthy (propOf data "Description") then propOf data "Description"
            else .str ("No description available for " ++ symbol)) ∧
        (fetchCompanyProfile E fetch rand symbol).industry =
          (if truthy (propOf data "Industry") then propOf data "Industry"
            else .str "Unknown") ∧
        (fetchCompanyProfile E fetch rand symbol).sector =
          (if truthy (propOf data "Sector") then propOf data "Sector" else .str "Unknown") ∧
        (fetchCompanyProfile E fetch rand symbol).ceo =
          (if truthy (propOf data "CEO") then propOf data "CEO" else .str "Unknown") ∧
        (fetchCompanyProfile E fetch rand symbol).website =
          (if truthy (propOf data "Website") then propOf data "Website"
            else .str ("https://www." ++ E.toLowerCase symbol ++ ".com"))) ∧
      ((fetchCompanyProfile E fetch rand symbol).employees =
          (if truthy (propOf data "FullTimeEmployees")
            then E.parseInt10 (propOf data "FullTimeEmployees") else .fin 0) ∧
        (fetchCompanyProfile E fetch rand symbol).marketCap =
          (if truthy (propOf data "MarketCapitalization")
            then E.parseFloat (propOf data "MarketCapitalization") else .fin 0) ∧
        (fetchCompanyProfile E fetch rand symbol).peRatio =
          (if truthy (propOf data "PERatio") then E.parseFloat (propOf data "PERatio")
            else .fin 0) ∧
        (fetchCompanyProfile E fetch rand symbol).eps =
          (if truthy (propOf data "EPS") then E.parseFloat (propOf data "EPS") else .fin 0) ∧
        (fetchCompanyProfile E fetch rand symbol).beta =
          (if truthy (propOf data "Beta") then E.parseFloat (propOf data "Beta")
            else .fin 0) ∧
        (fetchCompanyProfile E fetch rand symbol).fiftyTwoWeekHigh =
          (if truthy (propOf data "52WeekHigh") then E.parseFloat (propOf data "52WeekHigh")
            else .fin 0) ∧
        (fetchCompanyProfile E fetch rand symbol).fiftyTwoWeekLow =
          (if truthy (propOf data "52WeekLow") then E.parseFloat (propOf data "52WeekLow")
            else .fin 0)) ∧
      (fetchCompanyProfile E fetch rand symbol).dividendYield =
        (if truthy (propOf data "DividendYield")
          then (E.parseFloat (propOf data "DividendYield")).mulD (.fin 100) else .fin 0)) ∧
    (profileReadable data = false →
      fetchCompanyProfile E fetch rand symbol = generateMockCompanyProfile E rand symbol) := by
  constructor
  · intro hread
    have hres : fetchCompanyProfile E fetch rand symbol = formatProfile E symbol data := by
      simp [fetchCompanyProfile, hfetch, htruthy, hkeys, hread]
    have hnum : ∀ v : JsVal, E.parseFloat (orElse v (.str "0")) =
        if truthy v then E.parseFloat v else .fin 0 := by
      intro v
      unfold orElse
      split <;> simp [hfloat]
    have hemp : ∀ v : JsVal, E.parseInt10 (orElse v (.str "0")) =
        if truthy v then E.parseInt10 v else .fin 0 := by
      intro v
      unfold orElse
      split <;> simp [hint]
    rw [hres]
    refine ⟨⟨rfl, rfl, rfl, rfl, rfl⟩,
      ⟨hemp _, hnum _, hnum _, hnum _, hnum _, hnum _, hnum _⟩, ?_⟩
    show (E.parseFloat (orElse (propOf data "DividendYield") (.str "0"))).mulD (.fin 100) = _
    rw [hnum]
    split
    · rfl
    · simp [JsNum.mulD, JsNum.mul, roundDouble]
  · intro hread
    simp [fetchCompanyProfile, hfetch, htruthy, hkeys, hread]

/-- The amended claim C23 at the payload `sampleProfileEmptyDescription`, whose values can
all be converted: the industry is the one of the payload, the sector is the default, and the
market capitalisation is `0`. With a P/E ratio that is an object with a property
`toString`, the profile is the mock one. -/
theorem fetchCompanyProfile_fields_witness :
    (fetchCompanyProfile sampleEngine (fun _ => .body sampleProfileEmptyDescription)
      (fun _ => 0) "IBM").sector = .str "Unknown" ∧
    (fetchCompanyProfile sampleEngine (fun _ => .body sampleProfileEmptyDescription)
      (fun _ => 0) "IBM").marketCap = .fin 0 ∧
    (fetchCompanyProfile sampleEngine (fun _ => .body sampleProfileEmptyDescription)
      (fun _ => 0) "IBM").industry =
        (if truthy (propOf sampleProfileEmptyDescription "Industry")
          then propOf sampleProfileEmptyDescription "Industry" else .str "Unknown") ∧
    fetchCompanyProfile sampleEngine (fun _ => .body sampleProfileUnreadable) (fun _ => 0) "IBM"
      = generateMockCompanyProfile sampleEngine (fun _ => 0) "IBM" :=
  ⟨by decide!, by decide!,
    ((fetchCompanyProfile_fields sampleEngine (fun _ => .body sampleProfileEmptyDescription)
      (fun _ => 0) "IBM" sampleProfileEmptyDescription rfl (by decide) (by decide)
      (by decide!) (by decide!)).1 (by decide)).1.2.1,
    (fetchCompanyProfile_fields sampleEngine (fun _ => .body sampleProfileUnreadable)
      (fun _ => 0) "IBM" sampleProfileUnreadable rfl (by decide) (by decide)
      (by decide!) (by decide!)).2 (by decide)⟩

/-! ## The sector normaliser -/

/-- A list is at the front of itself followed by anything. -/
theorem isPrefixOf_append_self (pat rest : List Char) : pat.isPrefixOf (pat ++ rest) = true := by
  induction pat with
  | nil => simp [List.isPrefixOf]
  | cons c cs ih => simp [List.isPrefixOf, ih]

/-- Removing the first occurrence of a non-empty pattern from a text that starts with it
leaves the rest of the text. -/
theorem removeFirst_at_front (pat rest : List Char) (h : pat ≠ []) :
    removeFirst pat (pat ++ rest) = rest := by
  cases pat with
  | nil => exact absurd rfl h
  | cons c cs =>
    have hp := isPrefixOf_append_self (c :: cs) rest
    rw [List.cons_append] at hp ⊢
    rw [removeFirst, if_pos hp]
    rw [← List.cons_append, List.drop_left]

/-- Removing the first occurrence of a pattern from a text in which it does not occur leaves
the text. -/
theorem removeFirst_absent (pat l : List Char) (h : occursIn pat l = false) :
    removeFirst pat l = l := by
  induction l with
  | nil => rfl
  | cons c cs ih =>
    simp only [occursIn, Bool.or_eq_false_iff] at h
    simp only [removeFirst, h.1, Bool.false_eq_true, if_false, ih h.2]

theorem replaceWithEmpty_at_front (pat rest : String) (h : pat ≠ "") :
    replaceWithEmpty (pat ++ rest) pat = rest := by
  have hne : pat.data ≠ [] := by
    intro hd
    apply h
    cases pat
    simp only at hd
    subst hd
    rfl
  simp only [replaceWithEmpty, String.data_append, removeFirst_at_front _ _ hne]

theorem replaceWithEmpty_absent (s pat : String) (h : occursIn pat.data s.data = false) :
    replaceWithEmpty s pat = s := by
  simp only [replaceWithEmpty, removeFirst_absent _ _ h]

/-- A value with a property that is an object is an object, hence truthy. -/
theorem truthy_of_propOf_obj (v : JsVal) (k : String) (kvs : List (String × JsVal))
    (h : propOf v k = .obj kvs) : truthy v = true := by
  cases v with
  | obj _ => rfl
  | arr ys =>
    simp only [propOf] at h
    split at h <;> cases h
  | str s =>
    simp only [propOf] at h
    split at h <;> cases h
  | _ => simp [propOf] at h

/-- The elements built from the entries of a ranking whose changes are all texts: one
element for each entry, in order. -/
theorem sectorEntries_of_texts (E : Engine) (entries : List (String × JsVal))
    (hstr : ∀ kv ∈ entries, ∃ s, kv.2 = .str s) :
    ∃ cs, sectorEntries E entries = .ok cs ∧
      List.Forall₂ (fun kv c =>
        c.sector = replaceWithEmpty kv.1 "GICS " ∧
        ∃ s : String, kv.2 = .str s ∧ c.change = E.parseFloat (.str (replaceWithEmpty s "%")))
        entries cs := by
  induction entries with
  | nil => exact ⟨[], rfl, List.Forall₂.nil⟩
  | cons kv rest ih =>
    obtain ⟨s, hs⟩ := hstr kv (List.mem_cons_self _ _)
    obtain ⟨cs, hcs, hall⟩ := ih (fun e he => hstr e (List.mem_cons_of_mem _ he))
    have hentry : sectorEntry E kv =
        .ok ⟨replaceWithEmpty kv.1 "GICS ", E.parseFloat (.str (replaceWithEmpty s "%"))⟩ := by
      simp only [sectorEntry, hs]
    exact ⟨⟨replaceWithEmpty kv.1 "GICS ", E.parseFloat (.str (replaceWithEmpty s "%"))⟩ :: cs,
      by simp only [sectorEntries, hentry, hcs], List.Forall₂.cons ⟨rfl, s, hs, rfl⟩ hall⟩

/-- Claim C26. The claim fails on two payloads that contain the ranking. With the change of
the only sector written as a number, the formatting throws and the summary has the ten mock
sectors. With the change `N/A` for one of three sectors, the list has an entry with the
change `NaN`, which is not at least any number, in front of an entry with the change 2: it
is not in descending order. -/
theorem sector_ranking_not_normalised :
    (fetchMarketSummary sampleEngine sampleFetchSectorNumber (fun _ => 0) 0).sectorPerformance
      = mockSectorPerformance ∧
    (fetchMarketSummary sampleEngine sampleFetchSectorUnreadable (fun _ => 0)
      0).sectorPerformance
      = [⟨"Energy", .nan⟩, ⟨"Financials", .fin 2⟩, ⟨"Utilities", .fin 1⟩] ∧
    (JsNum.nan).ge (.fin 2) = false := by
  decide!

/-- Claim C26, amended. Let the sector payload have an object as its
`Rank A: Real-Time Performance`, with a text as the change of every entry, and let the
summary be put together from the three parts (no `sentiment`). Then `sectorPerformance` is a
rearrangement of a list with one element for each entry whose key is not
`Information Technology`: the sector is the key with its prefix `GICS ` removed when the key
starts with `GICS `, and the key itself when `GICS ` does not occur in it; the change is the
number read by `parseFloat` from the text without its `%`. When all these changes are finite
numbers, the list is in descending order of change. -/
theorem fetchMarketSummary_sectors (E : Engine) (fetch : String → FetchResult)
    (rand : Nat → ℚ) (now : Int) (data : JsVal) (kvs : List (String × JsVal))
    (hfetch : fetch sectorUrl = .body data)
    (hrank : propOf data "Rank A: Real-Time Performance" = .obj kvs)
    (hstr : ∀ kv ∈ kvs, ∃ s, kv.2 = .str s)
    (hcomposed : (fetchMarketSummary E fetch rand now).sentiment = none) :
    ∃ cs, List.Forall₂ (fun kv c =>
        (∀ rest, kv.1 = "GICS " ++ rest → c.sector = rest) ∧
        (occursIn "GICS ".data kv.1.data = false → c.sector = kv.1) ∧
        ∃ s : String, kv.2 = .str s ∧ c.change = E.parseFloat (.str (replaceWithEmpty s "%")))
        (kvs.filter fun kv => kv.1 ≠ "Information Technology") cs ∧
      (fetchMarketSummary E fetch rand now).sectorPerformance.Perm cs ∧
      ((∀ c ∈ cs, ∃ q : ℚ, c.change = .fin q) →
        (fetchMarketSummary E fetch rand now).sectorPerformance.Pairwise
          (fun a b => a.change.ge b.change = true)) := by
  obtain ⟨idx, sp, -, hs, hres⟩ := fetchMarketSummary_composed E fetch rand now hcomposed
  have hvalid : validSector data = true := by
    have h1 := truthy_of_propOf_obj data _ kvs hrank
    have h2 : truthy (JsVal.obj kvs) = true := rfl
    simp only [validSector, h1, hrank, h2, Bool.and_self]
  obtain ⟨cs, hcs, hall⟩ := sectorEntries_of_texts E
    (kvs.filter fun kv => kv.1 ≠ "Information Technology")
    (fun kv hkv => hstr kv (List.mem_of_mem_filter hkv))
  have hsp : sp = sortWith (fun a b => b.change.sub a.change) cs := by
    simp only [sectorsOf, hfetch, bodyOrNull, hvalid, if_true, hrank, formatSectors,
      objectEntries, hcs] at hs
    exact (Except.ok.inj hs).symm
  rw [hres]
  simp only [hsp]
  refine ⟨cs, hall.imp ?_, sortWith_perm _ _, fun hfin => ?_⟩
  · rintro kv c ⟨hsec, s, hs1, hs2⟩
    refine ⟨fun rest hk => ?_, fun hocc => ?_, s, hs1, hs2⟩
    · rw [hsec, hk]
      exact replaceWithEmpty_at_front "GICS " rest (by decide)
    · rw [hsec]
      exact replaceWithEmpty_absent kv.1 "GICS " hocc
  · have hsorted := sortWith_ordered (fun a b : SectorChange => b.change.sub a.change)
      (fun c => match c.change with
        | .fin q => -q
        | _ => 0) cs
      (by
        intro a ha b hb
        obtain ⟨qa, hqa⟩ := hfin a ha
        obtain ⟨qb, hqb⟩ := hfin b hb
        simp only [hqa, hqb, JsNum.sub, JsNum.positive, sub_pos, neg_lt_neg_iff])
    refine List.Pairwise.imp_of_mem ?_ hsorted
    intro a b ha hb hab
    obtain ⟨qa, hqa⟩ := hfin a ((sortWith_perm _ cs).subset ha)
    obtain ⟨qb, hqb⟩ := hfin b ((sortWith_perm _ cs).subset hb)
    simp only [hqa, hqb, neg_le_neg_iff] at hab
    simp only [hqa, hqb, JsNum.ge, decide_eq_true_eq]
    exact hab

/-- The amended claim C26 at the payload `sampleSectorRanking`: the summary has the three
sectors `Energy`, `Financials` and `Utilities`, in this order. -/
theorem fetchMarketSummary_sectors_witness :
    (fetchMarketSummary sampleEngine sampleFetchSectorRanking (fun _ => 0) 0).sectorPerformance
      = [⟨"Energy", .fin (21 / 10)⟩, ⟨"Financials", .fin (3 / 10)⟩,
         ⟨"Utilities", .fin (-1 / 2)⟩] ∧
    ∃ cs, (fetchMarketSummary sampleEngine sampleFetchSectorRanking (fun _ => 0)
      0).sectorPerformance.Perm cs :=
  ⟨by decide!,
    (fetchMarketSummary_sectors sampleEngine sampleFetchSectorRanking (fun _ => 0) 0
      sampleSectorRanking
      [("Utilities", .str "-0.50%"), ("Information Technology", .str "1.20%"),
       ("GICS Energy", .str "2.10%"), ("Financials", .str "0.30%")]
      (by decide) (by decide)
      (by
        intro kv hkv
        simp only [List.mem_cons, List.mem_singleton, List.not_mem_nil, or_false] at hkv
        rcases hkv with rfl | rfl | rfl | rfl
        · exact ⟨_, rfl⟩
        · exact ⟨_, rfl⟩
        · exact ⟨_, rfl⟩
        · exact ⟨_, rfl⟩)
      (by decide!)).imp fun _ h => h.2.1⟩

/-! ## The market capitalisation distribution -/

/-- The body of the `try` block in terms of the object `latestPrices`. -/
theorem marketCapCategories_eq (E : Engine) (financialsData gainerLosersData : JsVal) :
    marketCapCategories E financialsData gainerLosersData =
      match latestPricesOf E gainerLosersData with
      | .error e => .error e
      | .ok latestPrices =>
        match financialsData with
        | .arr stocks => countStocks E latestPrices stocks ⟨0, 0, 0, 0, 0⟩
        | _ => .error (typeError E) := by
  unfold marketCapCategories latestPricesOf
  split
  · rfl
  · cases spreadOrEmpty E (propOf gainerLosersData "top_gainers") <;>
      cases spreadOrEmpty E (propOf gainerLosersData "top_losers") <;>
      cases spreadOrEmpty E (propOf gainerLosersData "most_actively_traded") <;> rfl

/-- The loop over records that can all be read completes, with the counts of `countCap`
applied record by record. -/
theorem countStocks_ok (E : Engine) (prices : LatestPrices) (stocks : List JsVal)
    (c : Categories) (hread : ∀ s ∈ stocks, recordReadable s = true) :
    countStocks E prices stocks c =
      .ok (stocks.foldl (fun c s => countCap (marketCapOf E prices s) c) c) := by
  induction stocks generalizing c with
  | nil => rfl
  | cons s rest ih =>
    have hs := hread s (List.mem_cons_self _ _)
    simp only [countStocks, hs, Bool.not_true, Bool.false_eq_true, if_false, List.foldl_cons]
    exact ih _ (fun t ht => hread t (List.mem_cons_of_mem _ ht))

/-- The loop over records one of which cannot be read throws. -/
theorem countStocks_error (E : Engine) (prices : LatestPrices) (stocks : List JsVal)
    (c : Categories) (hread : ¬ ∀ s ∈ stocks, recordReadable s = true) :
    ∃ e, countStocks E prices stocks c = .error e := by
  induction stocks generalizing c with
  | nil => exact absurd (fun s hs => absurd hs (List.not_mem_nil s)) hread
  | cons s rest ih =>
    by_cases hs : recordReadable s = true
    · have hrest : ¬ ∀ t ∈ rest, recordReadable t = true := by
        intro hall
        apply hread
        intro t ht
        rcases List.mem_cons.mp ht with rfl | ht
        · exact hs
        · exact hall t ht
      simp only [countStocks, hs, Bool.not_true, Bool.false_eq_true, if_false]
      exact ih _ hrest
    · have hs2 : recordReadable s = false := by simpa using hs
      exact ⟨typeError E, by simp only [countStocks, hs2, Bool.not_false, if_true]⟩

/-- A number that is at least a positive bound is positive. -/
theorem JsNum.gt_zero_of_ge (m : JsNum) (a : ℚ) (ha : 0 < a) (h : m.ge (.fin a) = true) :
    m.gt (.fin 0) = true := by
  cases m with
  | nan => simp [JsNum.ge] at h
  | fin q =>
    simp only [JsNum.ge, JsNum.gt, decide_eq_true_eq] at h ⊢
    linarith
  | inf s => simpa [JsNum.ge, JsNum.gt] using h

/-- One round of the `if` chain: a positive market capitalisation adds one to exactly one
of the five counts, every other one (not above `0`, or `NaN`) leaves the counts as they
are. -/
theorem countCap_cases (m : JsNum) (c : Categories) :
    (m.gt (.fin 0) = true →
      countCap m c ∈
        [{ c with megaCap := c.megaCap + 1 }, { c with largeCap := c.largeCap + 1 },
         { c with midCap := c.midCap + 1 }, { c with smallCap := c.smallCap + 1 },
         { c with microCap := c.microCap + 1 }]) ∧
    (m.gt (.fin 0) = false → countCap m c = c) := by
  unfold countCap
  constructor
  · intro hpos
    split
    · simp
    · split
      · simp
      · split
        · simp
        · split
          · simp
          · simp [hpos]
  · intro hneg
    have hge : ∀ a : ℚ, 0 < a → m.ge (.fin a) = false := by
      intro a ha
      cases h : m.ge (.fin a) with
      | false => rfl
      | true => rw [JsNum.gt_zero_of_ge m a ha h] at hneg; cases hneg
    simp [hge, hneg]

/-- One round of the `if` chain adds one to the sum of the counts for a positive market
capitalisation and nothing otherwise. -/
theorem countCap_total (m : JsNum) (c : Categories) :
    (countCap m c).total = c.total + (if m.gt (.fin 0) = true then 1 else 0) := by
  cases hpos : m.gt (.fin 0) with
  | false =>
    rw [(countCap_cases m c).2 hpos]
    simp
  | true =>
    have h := (countCap_cases m c).1 hpos
    simp only [List.mem_cons, List.mem_singleton, List.not_mem_nil, or_false] at h
    rcases h with h | h | h | h | h <;> rw [h] <;>
      simp only [Categories.total, if_true] <;> omega

/-- The sum of the counts after the loop. -/
theorem countStocks_total (E : Engine) (prices : LatestPrices) (stocks : List JsVal)
    (c : Categories) :
    (stocks.foldl (fun c s => countCap (marketCapOf E prices s) c) c).total =
      c.total + (stocks.filter fun s => (marketCapOf E prices s).gt (.fin 0)).length := by
  induction stocks generalizing c with
  | nil => simp
  | cons s rest ih =>
    rw [List.foldl_cons, ih, countCap_total, List.filter_cons]
    split
    · rw [List.length_cons]
      omega
    · omega

/-- Claim C21. The claim fails on two inputs without live quotes. A record with a stored
market capitalisation of five billion and no price is counted in no bucket. And for a list
of two records, the second of them `null`, the loop throws and the counts are those of the
mock distribution, which sum to 500. -/
theorem fetchMarketCapDistribution_uncounted :
    sampleEngine.parseFloat (propOf sampleStockWithoutPrice "Market Cap") = .fin 5000000000 ∧
    (fetchMarketCapDistribution sampleEngine (sampleFetchFinancials [sampleStockWithoutPrice])
      0).categories = ⟨0, 0, 0, 0, 0⟩ ∧
    (fetchMarketCapDistribution sampleEngine
      (sampleFetchFinancials [sampleStock "ABC" "100" "5000000000", .null]) 0).categories
      = ⟨42, 178, 185, 83, 12⟩ ∧
    (fetchMarketCapDistribution sampleEngine
      (sampleFetchFinancials [sampleStock "ABC" "100" "5000000000", .null])
      0).categories.total = 500 := by
  decide!

/-- Claim C21, amended. Let the financials payload be a list of records that can all be
read (none is `null`, and `Symbol`, `Price` and `Market Cap` can be converted to a string),
and let the object of live prices be built from the movers payload without an error. Then
the counts are those of the `if` chain applied record by record to the updated market
capitalisation (`marketCapOf`: the current price, live when quoted and otherwise stored,
times the stored market capitalisation over the stored price, rounded as doubles); their sum
is the number of records whose updated market capitalisation is above `0`, hence at most the
number of records; and a record adds one to exactly one count when its updated market
capitalisation is above `0` and nothing otherwise. In every other case the result is the
mock distribution. -/
theorem fetchMarketCapDistribution_counts (E : Engine) (fetch : String → FetchResult)
    (now : Int) :
    (∀ (stocks : List JsVal) (movers : JsVal) (prices : LatestPrices),
      fetch "/api/financials" = .body (.arr stocks) →
      fetch moversUrl = .body movers →
      latestPricesOf E movers = .ok prices →
      (∀ s ∈ stocks, recordReadable s = true) →
      (fetchMarketCapDistribution E fetch now).categories =
        stocks.foldl (fun c s => countCap (marketCapOf E prices s) c) ⟨0, 0, 0, 0, 0⟩ ∧
      (fetchMarketCapDistribution E fetch now).categories.total =
        (stocks.filter fun s => (marketCapOf E prices s).gt (.fin 0)).length ∧
      (fetchMarketCapDistribution E fetch now).categories.total ≤ stocks.length) ∧
    ((¬ ∃ (stocks : List JsVal) (movers : JsVal) (prices : LatestPrices),
        fetch "/api/financials" = .body (.arr stocks) ∧ fetch moversUrl = .body movers ∧
        latestPricesOf E movers = .ok prices ∧ ∀ s ∈ stocks, recordReadable s = true) →
      fetchMarketCapDistribution E fetch now = generateMockMarketCapDistribution E now) ∧
    (∀ (m : JsNum) (c : Categories),
      (m.gt (.fin 0) = true →
        countCap m c ∈
          [{ c with megaCap := c.megaCap + 1 }, { c with largeCap := c.largeCap + 1 },
           { c with midCap := c.midCap + 1 }, { c with smallCap := c.smallCap + 1 },
           { c with microCap := c.microCap + 1 }]) ∧
      (m.gt (.fin 0) = false → countCap m c = c)) := by
  refine ⟨?_, ?_, countCap_cases⟩
  · intro stocks movers prices hf hm hprices hread
    have hres : (fetchMarketCapDistribution E fetch now).categories =
        stocks.foldl (fun c s => countCap (marketCapOf E prices s) c) ⟨0, 0, 0, 0, 0⟩ := by
      simp only [fetchMarketCapDistribution, hf, hm, marketCapCategories_eq, hprices,
        countStocks_ok E prices stocks _ hread]
    have htotal := countStocks_total E prices stocks ⟨0, 0, 0, 0, 0⟩
    rw [← hres] at htotal
    have hzero : (⟨0, 0, 0, 0, 0⟩ : Categories).total = 0 := rfl
    rw [hzero, Nat.zero_add] at htotal
    refine ⟨hres, htotal, ?_⟩
    rw [htotal]
    exact List.length_filter_le _ _
  · intro hno
    cases hf : fetch "/api/financials" with
    | rejected => simp only [fetchMarketCapDistribution, hf]
    | body financialsData =>
      cases hm : fetch moversUrl with
      | rejected => simp only [fetchMarketCapDistribution, hf, hm]
      | body movers =>
        cases hprices : latestPricesOf E movers with
        | error e =>
          simp only [fetchMarketCapDistribution, hf, hm, marketCapCategories_eq, hprices]
        | ok prices =>
          cases financialsData with
          | arr stocks =>
            have hread : ¬ ∀ s ∈ stocks, recordReadable s = true :=
              fun hall => hno ⟨stocks, movers, prices, hf, hm, hprices, hall⟩
            obtain ⟨e, he⟩ := countStocks_error E prices stocks ⟨0, 0, 0, 0, 0⟩ hread
            simp only [fetchMarketCapDistribution, hf, hm, marketCapCategories_eq, hprices, he]
          | _ => simp only [fetchMarketCapDistribution, hf, hm, marketCapCategories_eq, hprices]

/-- The amended claim C21 at two records without live quotes, one with a market
capitalisation of fifteen billion and one with a market capitalisation of `0`: the first is
counted as a large cap and the second is not counted. With a record whose price is an object
with a property `toString`, the result is the mock distribution. -/
theorem fetchMarketCapDistribution_counts_witness :
    (fetchMarketCapDistribution sampleEngine
      (sampleFetchFinancials [sampleStock "AAA" "50" "15000000000", sampleStock "BBB" "4" "0"])
      0).categories = ⟨0, 1, 0, 0, 0⟩ ∧
    (fetchMarketCapDistribution sampleEngine
      (sampleFetchFinancials [sampleStock "AAA" "50" "15000000000", sampleStock "BBB" "4" "0"])
      0).categories.total ≤ 2 ∧
    (fetchMarketCapDistribution sampleEngine (sampleFetchFinancials [sampleStockUnreadable])
      0).categories = ⟨42, 178, 185, 83, 12⟩ :=
  ⟨by decide!,
    ((fetchMarketCapDistribution_counts sampleEngine
      (sampleFetchFinancials [sampleStock "AAA" "50" "15000000000", sampleStock "BBB" "4" "0"])
      0).1 [sampleStock "AAA" "50" "15000000000", sampleStock "BBB" "4" "0"]
      (.obj [("top_gainers", .arr []), ("top_losers", .arr []),
        ("most_actively_traded", .arr [])]) [] (by decide) (by decide) (by decide)
      (by
        intro s hs
        simp only [List.mem_cons, List.mem_singleton, List.not_mem_nil, or_false] at hs
        rcases hs with rfl | rfl <;> rfl)).2.2,
    by decide!⟩

/-! ## The bounds of the buckets -/

/-- The updated market capitalisation of a record with a positive stored price and no live
quote is its stored market capitalisation, when that and its quotient by the price are
doubles, so that nothing is rounded away. -/
theorem marketCapOf_stored (E : Engine) (prices : LatestPrices) (stock : JsVal) (c p : ℚ)
    (hc : E.parseFloat (propOf stock "Market Cap") = .fin c)
    (hp : E.parseFloat (propOf stock "Price") = .fin p) (hpos : 0 < p)
    (hquote : prices.lookup (E.toStr (propOf stock "Symbol")) = none)
    (hname : E.toStr (propOf stock "Symbol") ∉ objectPrototypeNames)
    (hshares : roundDouble (c / p) = .fin (c / p)) (hcap : roundDouble c = .fin c) :
    marketCapOf E prices stock = .fin c := by
  have hp0 : p ≠ 0 := ne_of_gt hpos
  have hstored : (JsNum.fin c).orElse (.fin 0) = .fin c := by
    by_cases h0 : c = 0
    · subst h0
      simp [JsNum.orElse, JsNum.truthy]
    · simp [JsNum.orElse, JsNum.truthy, h0]
  have hprice1 : (JsNum.fin p).orElse (.fin 1) = .fin p := by
    simp [JsNum.orElse, JsNum.truthy, hp0]
  have hprice0 : (JsNum.fin p).orElse (.fin 0) = .fin p := by
    simp [JsNum.orElse, JsNum.truthy, hp0]
  have hmul : p * (c / p) = c := by field_simp
  simp only [marketCapOf, currentPrice, hc, hp, hquote, hname, if_false, hstored, hprice1,
    hprice0, JsNum.divD, JsNum.div, hp0, hshares, JsNum.mulD, JsNum.mul, hmul, hcap]

/-- The rounding of the source at a price that is not a divisor of the market
capitalisation: with the stored market capitalisation 10,000,000,000 and the stored price
the double nearest to 4.47, the quotient and the product are rounded and the updated market
capitalisation is 9999999999.999998, below ten billion, so that the record is a mid cap. -/
theorem fetchMarketCapDistribution_rounded :
    roundDouble (447 / 100) = .fin (5032772583586529 / 1125899906842624) ∧
    marketCapOf sampleEngine []
      (.obj [("Symbol", .str "ABC"),
        ("Price", .num (.fin (5032772583586529 / 1125899906842624))),
        ("Market Cap", .str "10000000000")]) = .fin (10000000000 - 1 / 524288) ∧
    (fetchMarketCapDistribution sampleEngine
      (sampleFetchFinancials [.obj [("Symbol", .str "ABC"),
        ("Price", .num (.fin (5032772583586529 / 1125899906842624))),
        ("Market Cap", .str "10000000000")]]) 0).categories = ⟨0, 0, 1, 0, 0⟩ := by
  decide!

/-- The bucket of a finite market capitalisation `c`: mega from 200 billion on, large from
10 billion to below 200 billion, mid from 2 billion to below 10 billion, small from 300
million to below 2 billion, micro above `0` and below 300 million, none otherwise. -/
theorem countCap_ranges (c : ℚ) :
    (countCap (.fin c) ⟨0, 0, 0, 0, 0⟩ = ⟨1, 0, 0, 0, 0⟩ ↔ 200000000000 ≤ c) ∧
    (countCap (.fin c) ⟨0, 0, 0, 0, 0⟩ = ⟨0, 1, 0, 0, 0⟩ ↔
      10000000000 ≤ c ∧ c < 200000000000) ∧
    (countCap (.fin c) ⟨0, 0, 0, 0, 0⟩ = ⟨0, 0, 1, 0, 0⟩ ↔ 2000000000 ≤ c ∧ c < 10000000000) ∧
    (countCap (.fin c) ⟨0, 0, 0, 0, 0⟩ = ⟨0, 0, 0, 1, 0⟩ ↔ 300000000 ≤ c ∧ c < 2000000000) ∧
    (countCap (.fin c) ⟨0, 0, 0, 0, 0⟩ = ⟨0, 0, 0, 0, 1⟩ ↔ 0 < c ∧ c < 300000000) ∧
    (countCap (.fin c) ⟨0, 0, 0, 0, 0⟩ = ⟨0, 0, 0, 0, 0⟩ ↔ c ≤ 0) := by
  simp only [countCap, JsNum.ge, JsNum.gt, decide_eq_true_eq]
  by_cases h1 : (200000000000 : ℚ) ≤ c
  · simp only [h1, if_true]
    refine ⟨by simp, ?_, ?_, ?_, ?_, ?_⟩ <;> simp <;> intros <;> linarith
  · by_cases h2 : (10000000000 : ℚ) ≤ c
    · simp only [h1, h2, if_true, if_false]
      refine ⟨by simp, ?_, ?_, ?_, ?_, ?_⟩ <;> simp <;> intros <;> linarith
    · by_cases h3 : (2000000000 : ℚ) ≤ c
      · simp only [h1, h2, h3, if_true, if_false]
        refine ⟨by simp, ?_, ?_, ?_, ?_, ?_⟩ <;> simp <;> intros <;> linarith
      · by_cases h4 : (300000000 : ℚ) ≤ c
        · simp only [h1, h2, h3, h4, if_true, if_false]
          refine ⟨by simp, ?_, ?_, ?_, ?_, ?_⟩ <;> simp <;> intros <;> linarith
        · by_cases h5 : (0 : ℚ) < c
          · simp only [h1, h2, h3, h4, h5, if_true, if_false]
            refine ⟨by simp, ?_, ?_, ?_, ?_, ?_⟩ <;> simp <;> linarith
          · simp only [h1, h2, h3, h4, h5, if_false]
            refine ⟨by simp, ?_, ?_, ?_, ?_, ?_⟩ <;> simp
            linarith

/-- The three records of the example, with market capitalisations of five billion, 250
billion and 100 million, positive stored prices and no live quotes: one mid cap, one mega
cap, one micro cap. -/
theorem fetchMarketCapDistribution_three_records :
    (fetchMarketCapDistribution sampleEngine
      (sampleFetchFinancials [sampleStock "AAA" "50" "5000000000",
        sampleStock "BBB" "400" "250000000000", sampleStock "CCC" "2" "100000000"])
      0).categories = ⟨1, 0, 1, 0, 1⟩ := by
  decide!

/-- Claim C22. The code at the failing input: a record with a stored market capitalisation
of exactly 200 billion, the stored price 100 and no live quote is counted under
`Mega Cap (>$200B)` and not under `Large Cap ($10B-$200B)`. -/
theorem fetchMarketCapDistribution_boundary :
    sampleEngine.parseFloat (propOf (sampleStock "ABC" "100" "200000000000") "Market Cap")
      = .fin 200000000000 ∧
    (fetchMarketCapDistribution sampleEngine
      (sampleFetchFinancials [sampleStock "ABC" "100" "200000000000"]) 0).categories.megaCap
      = 1 ∧
    (fetchMarketCapDistribution sampleEngine
      (sampleFetchFinancials [sampleStock "ABC" "100" "200000000000"]) 0).categories.largeCap
      = 0 := by
  decide!

end SP500
